import Mathlib

/-!
# Schema and data differencer of `database/` — a shallow embedding

The Go sources `database.go`, `data_sync.go` and `table_builder.go` are
translated function by function.

* A Go `map[string]V` is a `GoMap V`: a key-unique association list with the
  usual lookup and store.
* A `for k, v := range m` statement visits the entries of `m` in an order the
  Go runtime chooses afresh for every loop.  That choice is an explicit
  argument, a `RangeOrder`, and `GoRuntime.mapOrder` supplies one for every
  `range` statement (named by its source line) and every table or row it is
  executed for.
* `sort.Slice` is library code that is only specified by its contract (the
  result is a permutation of the input, ordered by `less`; equal elements may
  end up in any order).  `GoRuntime.sortSlice` is any function with that
  contract.
* Go strings are Lean strings and `fmt.Sprintf` with `%s` verbs is `++`.
-/

namespace Database

/-! ## Go maps and `range` -/

/-- Lookup in an association list: the value stored under `k`, if any. -/
def getEntries {V : Type} : List (String × V) → String → Option V
  | [], _ => none
  | (k', v) :: es, k => if k' = k then some v else getEntries es k

/-- Store in an association list: overwrite the entry of `k`, or add one. -/
def setEntries {V : Type} : List (String × V) → String → V → List (String × V)
  | [], k, v => [(k, v)]
  | (k', v') :: es, k, v =>
    if k' = k then (k, v) :: es else (k', v') :: setEntries es k v

theorem keys_setEntries {V : Type} (es : List (String × V)) (k : String) (v : V) :
    (setEntries es k v).map Prod.fst =
      if k ∈ es.map Prod.fst then es.map Prod.fst else es.map Prod.fst ++ [k] := by
  induction es with
  | nil => simp [setEntries]
  | cons e es ih =>
    obtain ⟨k', v'⟩ := e
    by_cases h : k' = k
    · simp [setEntries, h]
    · have h' : ¬ k = k' := fun e => h e.symm
      simp only [setEntries, h, if_false, List.map_cons, ih, List.mem_cons, h', false_or]
      split <;> simp

theorem nodup_setEntries {V : Type} (es : List (String × V)) (k : String) (v : V)
    (h : (es.map Prod.fst).Nodup) : ((setEntries es k v).map Prod.fst).Nodup := by
  rw [keys_setEntries]
  split
  · exact h
  · rename_i hk
    exact List.Nodup.append h (List.nodup_singleton k) (by simpa using hk)

/-- A Go `map[string]V`. -/
structure GoMap (V : Type) where
  entries : List (String × V)
  nodup : (entries.map Prod.fst).Nodup

namespace GoMap

variable {V : Type}

/-- The value of `make(map[string]V)`. -/
def empty : GoMap V := ⟨[], List.nodup_nil⟩

def keys (m : GoMap V) : List String := m.entries.map Prod.fst

/-- The two-result index expression `v, ok := m[k]`. -/
def get? (m : GoMap V) (k : String) : Option V := getEntries m.entries k

/-- The `ok` result of `_, ok := m[k]`. -/
def contains (m : GoMap V) (k : String) : Bool := (m.get? k).isSome

/-- The built-in `len(m)`. -/
def len (m : GoMap V) : Nat := m.entries.length

/-- The assignment `m[k] = v`. -/
def set (m : GoMap V) (k : String) (v : V) : GoMap V :=
  ⟨setEntries m.entries k v, nodup_setEntries m.entries k v m.nodup⟩

/-- A map literal, or a map filled by assignments in the order of the list. -/
def ofList (l : List (String × V)) : GoMap V :=
  l.foldl (fun m e => m.set e.1 e.2) empty

end GoMap

/-- The order in which one `range` statement visits the keys of a map. -/
structure RangeOrder where
  visit : List String → List String
  perm : ∀ ks, (visit ks).Perm ks

/-- The entries of `m` in the order a `for k, v := range m` visits them. -/
def GoMap.range {V : Type} (m : GoMap V) (o : RangeOrder) : List (String × V) :=
  (o.visit m.keys).filterMap (fun k => (m.get? k).map (fun v => (k, v)))

/-! ## Data model (`database.go`) -/

/-- ColumnInfo holds column details. `Type_` is the Go field `Type` (a Lean
keyword) and `Default` is the Go `*string`. -/
structure ColumnInfo where
  Name : String
  Type_ : String
  Nullable : String
  Key : String
  Default : Option String
  Extra : String
  Position : Int
  deriving DecidableEq, Repr

/-- IndexInfo holds index details (one row per member column). -/
structure IndexInfo where
  Name : String
  NonUnique : Int
  Column : String
  SeqInIdx : Int
  deriving DecidableEq, Repr

/-- TableInfo holds table structure information. -/
structure TableInfo where
  Name : String
  CreateSQL : String
  Columns : List ColumnInfo
  Indexes : List IndexInfo
  deriving DecidableEq, Repr

/-- SchemaInfo holds the complete database schema. -/
structure SchemaInfo where
  Database : String
  Tables : GoMap TableInfo

/-- DiffResult holds one comparison result; `Type_` is the Go field `Type`. -/
structure DiffResult where
  Type_ : String
  TableName : String
  Detail : String
  SQL : String
  deriving DecidableEq, Repr

/-! ## The Go runtime: map iteration and `sort.Slice` -/

/-- The comparison is a strict weak order on the elements of `l`: what
`sort.Slice` requires of its `less` argument. -/
def StrictWeakOn {α : Type} (less : α → α → Bool) (l : List α) : Prop :=
  (∀ a ∈ l, ∀ b ∈ l, less a b = false ∨ less b a = false) ∧
  (∀ a ∈ l, ∀ b ∈ l, ∀ c ∈ l, less b a = false → less c b = false → less c a = false)

/-- What the code takes from the Go runtime and library. -/
structure GoRuntime where
  /-- Iteration order of the `range` statement at source line `site`, when it
  runs for the table or row named by the second argument. -/
  mapOrder : Nat → String → RangeOrder
  /-- `sort.Slice(results, less)`. -/
  sortSlice : (DiffResult → DiffResult → Bool) → List DiffResult → List DiffResult
  sortSlice_perm : ∀ less l, (sortSlice less l).Perm l
  sortSlice_sorted : ∀ less l, StrictWeakOn less l →
    (sortSlice less l).Pairwise (fun a b => less b a = false)

/-! ## Schema differencer (`database.go`) -/

def buildColumnDef (col : ColumnInfo) : String :=
  let def0 := col.Type_
  let def1 := if col.Nullable = "NO" then def0 ++ " NOT NULL" else def0
  let def2 := match col.Default with
    | some d => def1 ++ (" DEFAULT '" ++ d ++ "'")
    | none => def1
  if col.Extra ≠ "" then def2 ++ (" " ++ col.Extra) else def2

def defaultsEqual (a b : Option String) : Bool :=
  match a, b with
  | none, none => true
  | none, some _ => false
  | some _, none => false
  | some x, some y => x == y

def columnsEqual (a b : ColumnInfo) : Bool :=
  a.Type_ == b.Type_ && a.Nullable == b.Nullable &&
    a.Extra == b.Extra && defaultsEqual a.Default b.Default

/-- The index expression `m[k]` of a `map[string][]string`: the zero value
(a nil slice) when the key is missing. -/
def getSlice (m : GoMap (List String)) (k : String) : List String :=
  (m.get? k).getD []

def buildIndexMap (indexes : List IndexInfo) : GoMap (List String) :=
  indexes.foldl
    (fun result idx => result.set idx.Name (getSlice result idx.Name ++ ["`" ++ idx.Column ++ "`"]))
    GoMap.empty

def stringSlicesEqual (a b : List String) : Bool :=
  if a.length ≠ b.length then false
  else (a.zip b).all (fun p => p.1 == p.2)

/-- The statement `strings.Join(elems, sep)`. -/
def stringsJoin : List String → String → String
  | [], _ => ""
  | [s], _ => s
  | s :: t :: rest, sep => s ++ sep ++ stringsJoin (t :: rest) sep

/-- The map `sourceColMap` / `targetColMap` (lines 298-303). -/
def buildColMap (cols : List ColumnInfo) : GoMap ColumnInfo :=
  cols.foldl (fun m col => m.set col.Name col) GoMap.empty

/-- The AFTER / FIRST clause of an added column (lines 308-318). -/
def afterClause (source : TableInfo) (sourceCol : ColumnInfo) : String :=
  if sourceCol.Position > 1 then
    match source.Columns.find? (fun c => c.Position == sourceCol.Position - 1) with
    | some c => " AFTER `" ++ c.Name ++ "`"
    | none => ""
  else " FIRST"

/-- The entry appended at lines 320-325. -/
def addColumnDiff (tableName : String) (source : TableInfo) (colName : String)
    (sourceCol : ColumnInfo) : DiffResult :=
  { Type_ := "modified"
    TableName := tableName
    Detail := "Add column: " ++ colName
    SQL := "ALTER TABLE `" ++ tableName ++ "` ADD COLUMN `" ++ colName ++ "` " ++
      buildColumnDef sourceCol ++ afterClause source sourceCol ++ ";" }

/-- The entry appended at lines 332-337. -/
def dropColumnDiff (tableName colName : String) : DiffResult :=
  { Type_ := "modified"
    TableName := tableName
    Detail := "Drop column: " ++ colName
    SQL := "ALTER TABLE `" ++ tableName ++ "` DROP COLUMN `" ++ colName ++ "`;" }

/-- The entry appended at lines 345-350. -/
def modifyColumnDiff (tableName colName : String) (sourceCol targetCol : ColumnInfo) :
    DiffResult :=
  { Type_ := "modified"
    TableName := tableName
    Detail := "Modify column: " ++ colName ++ " (" ++ targetCol.Type_ ++ " -> " ++
      sourceCol.Type_ ++ ")"
    SQL := "ALTER TABLE `" ++ tableName ++ "` MODIFY COLUMN `" ++ colName ++ "` " ++
      buildColumnDef sourceCol ++ ";" }

/-- The entry appended at lines 364-369. -/
def addIndexDiff (tableName idxName : String) (sourceCols : List String) : DiffResult :=
  { Type_ := "modified"
    TableName := tableName
    Detail := "Add index: " ++ idxName
    SQL := "ALTER TABLE `" ++ tableName ++ "` ADD INDEX `" ++ idxName ++ "` (" ++
      stringsJoin sourceCols ", " ++ ");" }

/-- The entry appended at lines 371-376. -/
def recreateIndexDiff (tableName idxName : String) (sourceCols : List String) : DiffResult :=
  { Type_ := "modified"
    TableName := tableName
    Detail := "Recreate index: " ++ idxName
    SQL := "ALTER TABLE `" ++ tableName ++ "` DROP INDEX `" ++ idxName ++ "`, ADD INDEX `" ++
      idxName ++ "` (" ++ stringsJoin sourceCols ", " ++ ");" }

/-- The entry appended at lines 385-390. -/
def dropIndexDiff (tableName idxName : String) : DiffResult :=
  { Type_ := "modified"
    TableName := tableName
    Detail := "Drop index: " ++ idxName
    SQL := "ALTER TABLE `" ++ tableName ++ "` DROP INDEX `" ++ idxName ++ "`;" }

/-- Loop "Find added columns" (lines 306-327). -/
def addedColumns (o : RangeOrder) (tableName : String) (source : TableInfo)
    (sourceColMap targetColMap : GoMap ColumnInfo) : List DiffResult :=
  (sourceColMap.range o).filterMap (fun e =>
    if targetColMap.contains e.1 then none
    else some (addColumnDiff tableName source e.1 e.2))

/-- Loop "Find removed columns" (lines 330-339). -/
def removedColumns (o : RangeOrder) (tableName : String)
    (sourceColMap targetColMap : GoMap ColumnInfo) : List DiffResult :=
  (targetColMap.range o).filterMap (fun e =>
    if sourceColMap.contains e.1 then none
    else some (dropColumnDiff tableName e.1))

/-- Loop "Find modified columns" (lines 342-353). -/
def modifiedColumns (o : RangeOrder) (tableName : String)
    (sourceColMap targetColMap : GoMap ColumnInfo) : List DiffResult :=
  (sourceColMap.range o).filterMap (fun e =>
    match targetColMap.get? e.1 with
    | some targetCol =>
      if columnsEqual e.2 targetCol then none
      else some (modifyColumnDiff tableName e.1 e.2 targetCol)
    | none => none)

/-- First index loop (lines 359-378): added and recreated indexes. -/
def sourceIndexDiffs (o : RangeOrder) (tableName : String)
    (sourceIdxMap targetIdxMap : GoMap (List String)) : List DiffResult :=
  (sourceIdxMap.range o).filterMap (fun e =>
    if e.1 = "PRIMARY" then none
    else match targetIdxMap.get? e.1 with
      | none => some (addIndexDiff tableName e.1 e.2)
      | some targetCols =>
        if stringSlicesEqual e.2 targetCols then none
        else some (recreateIndexDiff tableName e.1 e.2))

/-- Second index loop (lines 380-392): dropped indexes. -/
def targetIndexDiffs (o : RangeOrder) (tableName : String)
    (sourceIdxMap targetIdxMap : GoMap (List String)) : List DiffResult :=
  (targetIdxMap.range o).filterMap (fun e =>
    if e.1 = "PRIMARY" then none
    else if sourceIdxMap.contains e.1 then none
    else some (dropIndexDiff tableName e.1))

def compareTableStructure (rt : GoRuntime) (tableName : String) (source target : TableInfo) :
    List DiffResult :=
  let sourceColMap := buildColMap source.Columns
  let targetColMap := buildColMap target.Columns
  let sourceIdxMap := buildIndexMap source.Indexes
  let targetIdxMap := buildIndexMap target.Indexes
  addedColumns (rt.mapOrder 306 tableName) tableName source sourceColMap targetColMap ++
  removedColumns (rt.mapOrder 330 tableName) tableName sourceColMap targetColMap ++
  modifiedColumns (rt.mapOrder 342 tableName) tableName sourceColMap targetColMap ++
  sourceIndexDiffs (rt.mapOrder 359 tableName) tableName sourceIdxMap targetIdxMap ++
  targetIndexDiffs (rt.mapOrder 380 tableName) tableName sourceIdxMap targetIdxMap

/-- The map literal `order` of the sort comparison, indexed: a missing key
gives the zero value. -/
def kindRank (ty : String) : Nat :=
  if ty = "added" then 0 else if ty = "modified" then 1 else if ty = "removed" then 2 else 0

/-- Go's `<` on strings: lexicographic comparison of the two texts (for UTF-8
text the order by bytes and the order by characters agree). -/
def stringLess (a b : String) : Bool := decide (a.data < b.data)

/-- The `less` function handed to `sort.Slice` (lines 281-287). -/
def diffLess (a b : DiffResult) : Bool :=
  if a.Type_ ≠ b.Type_ then decide (kindRank a.Type_ < kindRank b.Type_)
  else stringLess a.TableName b.TableName

/-- The entry appended at lines 251-256. -/
def addedTableDiff (tableName : String) (sourceTable : TableInfo) : DiffResult :=
  { Type_ := "added"
    TableName := tableName
    Detail := "Table exists in source but not in target"
    SQL := sourceTable.CreateSQL ++ ";" }

/-- The entry appended at lines 263-268. -/
def removedTableDiff (tableName : String) : DiffResult :=
  { Type_ := "removed"
    TableName := tableName
    Detail := "Table exists in target but not in source"
    SQL := "DROP TABLE `" ++ tableName ++ "`;" }

/-- The slice `results` of `CompareSchemas` when the three loops are done,
before it is sorted (lines 246-278). -/
def unsortedDiffs (rt : GoRuntime) (source target : SchemaInfo) : List DiffResult :=
  (source.Tables.range (rt.mapOrder 249 "")).filterMap (fun e =>
    if target.Tables.contains e.1 then none else some (addedTableDiff e.1 e.2)) ++
  (target.Tables.range (rt.mapOrder 261 "")).filterMap (fun e =>
    if source.Tables.contains e.1 then none else some (removedTableDiff e.1)) ++
  (source.Tables.range (rt.mapOrder 273 "")).flatMap (fun e =>
    match target.Tables.get? e.1 with
    | some targetTable => compareTableStructure rt e.1 e.2 targetTable
    | none => [])

/-- CompareSchemas compares two schemas and returns differences. -/
def CompareSchemas (rt : GoRuntime) (source target : SchemaInfo) : List DiffResult :=
  rt.sortSlice diffLess (unsortedDiffs rt source target)

/-! ## Data differencer (`data_sync.go`) -/

/-- The integer types of Go. -/
inductive IntKind where
  | int | int8 | int16 | int32 | int64
  | uint | uint8 | uint16 | uint32 | uint64
  deriving DecidableEq, Repr

/-- The floating-point types of Go. -/
inductive FloatKind where
  | float32 | float64
  deriving DecidableEq, Repr

/-- A dynamically typed value, Go's `interface{}`, as a row holds it.
A float is carried by the text `%v` prints for it, and so is a value of any
type not listed (`other`, for instance a `time.Time`). -/
inductive Value where
  | nil
  | integer (kind : IntKind) (n : Int)
  | float (kind : FloatKind) (text : String)
  | bool (b : Bool)
  | str (s : String)
  | bytes (text : String)
  | other (text : String)
  deriving DecidableEq, Repr

/-- The statement `fmt.Sprintf("%v", v)`. A byte slice prints as the list of
its bytes in decimal. -/
def sprintV : Value → String
  | .nil => "<nil>"
  | .integer _ n => toString n
  | .float _ text => text
  | .bool b => if b then "true" else "false"
  | .str s => s
  | .bytes text =>
    "[" ++ stringsJoin ((text.data.flatMap String.utf8EncodeChar).map (fun b => toString b.toNat)) " "
      ++ "]"
  | .other text => text

/-- The call `strings.ReplaceAll(s, old, new)` for a one-character `old`. -/
def replaceAllChar (s : String) (old : Char) (new : String) : String :=
  String.mk (s.data.flatMap (fun c => if c = old then new.data else [c]))

/-- The single quote character. -/
def singleQuote : Char := Char.ofNat 39

def escapeValue (val : Value) : String :=
  match val with
  | .nil => "NULL"
  | .integer .int n => sprintV (.integer .int n)
  | .integer .int32 n => sprintV (.integer .int32 n)
  | .integer .int64 n => sprintV (.integer .int64 n)
  | .float k text => sprintV (.float k text)
  | .bool b => if b then "1" else "0"
  | v => "'" ++ replaceAllChar (sprintV v) singleQuote "''" ++ "'"

/-- A row: `map[string]interface{}`. -/
abbrev Row := GoMap Value

/-- The index expression `row[k]`: `nil` when the key is missing. -/
def getValue (row : Row) (k : String) : Value := (row.get? k).getD Value.nil

/-- DataDiffResult holds one data difference. A field that is left out of the
struct literal is a nil map, here `none`. -/
structure DataDiffResult where
  Type_ : String
  TableName : String
  PrimaryKey : Row
  OldValues : Option Row
  NewValues : Option Row
  SQL : String

def rowsEqual (o : RangeOrder) (a b : Row) : Bool :=
  if a.len ≠ b.len then false
  else (a.range o).all (fun e => sprintV e.2 == sprintV (getValue b e.1))

def extractPrimaryKey (row : Row) (primaryKeys : List String) : Row :=
  primaryKeys.foldl (fun pk key => pk.set key (getValue row key)) GoMap.empty

def generateInsertSQL (tableName : String) (row : Row) (columns : List String) : String :=
  let present := columns.filter (fun col => row.contains col)
  let cols := present.map (fun col => "`" ++ col ++ "`")
  let vals := present.map (fun col => escapeValue (getValue row col))
  "INSERT INTO `" ++ tableName ++ "` (" ++ stringsJoin cols ", " ++ ") VALUES (" ++
    stringsJoin vals ", " ++ ");"

def generateUpdateSQL (o : RangeOrder) (tableName : String) (row : Row)
    (primaryKeys : List String) : String :=
  let sets := (row.range o).filterMap (fun e =>
    if primaryKeys.contains e.1 then none
    else some ("`" ++ e.1 ++ "` = " ++ escapeValue e.2))
  let wheres := primaryKeys.map (fun pk => "`" ++ pk ++ "` = " ++ escapeValue (getValue row pk))
  "UPDATE `" ++ tableName ++ "` SET " ++ stringsJoin sets ", " ++ " WHERE " ++
    stringsJoin wheres " AND " ++ ";"

def generateDeleteSQL (tableName : String) (primaryKeys : List String) (pk : Row) : String :=
  let wheres := primaryKeys.map (fun key => "`" ++ key ++ "` = " ++ escapeValue (getValue pk key))
  "DELETE FROM `" ++ tableName ++ "` WHERE " ++ stringsJoin wheres " AND " ++ ";"

/-- The two loops of `CompareTableData` over the fetched snapshots (lines
164-204). The `range` of `rowsEqual` and of `generateUpdateSQL` run once per
row and are named by the row's key. -/
def dataDiffLoop (rt : GoRuntime) (tableName : String) (primaryKeys columns : List String)
    (sourceData targetData : GoMap Row) : List DataDiffResult :=
  (sourceData.range (rt.mapOrder 165 tableName)).filterMap (fun e =>
    match targetData.get? e.1 with
    | some targetRow =>
      if rowsEqual (rt.mapOrder 351 e.1) e.2 targetRow then none
      else some
        { Type_ := "update"
          TableName := tableName
          PrimaryKey := extractPrimaryKey e.2 primaryKeys
          OldValues := some targetRow
          NewValues := some e.2
          SQL := generateUpdateSQL (rt.mapOrder 388 e.1) tableName e.2 primaryKeys }
    | none => some
        { Type_ := "insert"
          TableName := tableName
          PrimaryKey := extractPrimaryKey e.2 primaryKeys
          OldValues := none
          NewValues := some e.2
          SQL := generateInsertSQL tableName e.2 columns }) ++
  (targetData.range (rt.mapOrder 193 tableName)).filterMap (fun e =>
    if sourceData.contains e.1 then none
    else some
      { Type_ := "delete"
        TableName := tableName
        PrimaryKey := extractPrimaryKey e.2 primaryKeys
        OldValues := some e.2
        NewValues := none
        SQL := generateDeleteSQL tableName primaryKeys (extractPrimaryKey e.2 primaryKeys) })

/-! ## Table definition builder (`table_builder.go`) -/

/-- ColumnDefinition holds column definition for table creation. `Type_` is
the Go field `Type` and `DefaultValue` the Go `*string`. -/
structure ColumnDefinition where
  Name : String
  Type_ : String
  Length : Int
  Nullable : Bool
  DefaultValue : Option String
  AutoIncrement : Bool
  PrimaryKey : Bool
  Unique : Bool
  Comment : String
  deriving DecidableEq, Repr

/-- IndexDefinition holds index definition. -/
structure IndexDefinition where
  Name : String
  Columns : List String
  Unique : Bool
  deriving DecidableEq, Repr

/-- TableDefinition holds complete table definition. -/
structure TableDefinition where
  Name : String
  Columns : List ColumnDefinition
  Indexes : List IndexDefinition
  Engine : String
  Charset : String
  Collation : String
  Comment : String
  deriving DecidableEq, Repr

/-- The upper-case mapping of characters that `strings.ToUpper` applies
(`unicode.ToUpper`). It is library data; what is used of it is that on ASCII
it maps `a`..`z` to `A`..`Z` and leaves every other character alone. -/
structure UpperCase where
  toUpper : Char → Char
  ascii : ∀ c : Char, c.toNat < 128 → toUpper c = c.toUpper

/-- The ASCII upper-case mapping, which leaves every other character alone. -/
def UpperCase.asciiOnly : UpperCase := ⟨Char.toUpper, fun _ _ => rfl⟩

/-- The call `strings.ToUpper(s)`. -/
def stringsToUpper (u : UpperCase) (s : String) : String := String.mk (s.data.map u.toUpper)

def needsLength (u : UpperCase) (dataType : String) : Bool :=
  let upper := stringsToUpper u dataType
  upper == "VARCHAR" || upper == "CHAR" || upper == "DECIMAL" ||
    upper == "FLOAT" || upper == "DOUBLE"

/-- The backslash character. -/
def backslash : Char := Char.ofNat 92

def escapeString (s : String) : String :=
  let s1 := replaceAllChar s singleQuote "''"
  replaceAllChar s1 backslash (String.mk [backslash, backslash])

def buildColumnDefinition (u : UpperCase) (col : ColumnDefinition) : String :=
  let parts0 := ["`" ++ col.Name ++ "`"]
  let parts1 :=
    if col.Length > 0 && needsLength u col.Type_ then
      parts0 ++ [col.Type_ ++ "(" ++ toString col.Length ++ ")"]
    else parts0 ++ [col.Type_]
  let parts2 := if !col.Nullable then parts1 ++ ["NOT NULL"] else parts1 ++ ["NULL"]
  let parts3 :=
    match col.DefaultValue with
    | some val =>
      if val = "CURRENT_TIMESTAMP" ∨ val = "NULL" then parts2 ++ ["DEFAULT " ++ val]
      else parts2 ++ ["DEFAULT '" ++ escapeString val ++ "'"]
    | none => parts2
  let parts4 := if col.AutoIncrement then parts3 ++ ["AUTO_INCREMENT"] else parts3
  let parts5 := if col.Unique && !col.PrimaryKey then parts4 ++ ["UNIQUE"] else parts4
  let parts6 :=
    if col.Comment ≠ "" then parts5 ++ ["COMMENT '" ++ escapeString col.Comment ++ "'"]
    else parts5
  stringsJoin parts6 " "

/-- The loop over the columns of `GenerateCreateTableSQL` (lines 78-85); the
state is the pair of slices `columnDefs` and `primaryKeys`. -/
def columnLoop (u : UpperCase) (cols : List ColumnDefinition) : List String × List String :=
  cols.foldl (fun st col =>
    (st.1 ++ ["  " ++ buildColumnDefinition u col],
      if col.PrimaryKey then st.2 ++ ["`" ++ col.Name ++ "`"] else st.2)) ([], [])

/-- The clause appended for one index (lines 94-102). -/
def indexClause (idx : IndexDefinition) : String :=
  let cols := idx.Columns.map (fun c => "`" ++ c ++ "`")
  if idx.Unique then "  UNIQUE KEY `" ++ idx.Name ++ "` (" ++ stringsJoin cols ", " ++ ")"
  else "  KEY `" ++ idx.Name ++ "` (" ++ stringsJoin cols ", " ++ ")"

/-- The slice `columnDefs` of `GenerateCreateTableSQL` when it is joined
(line 105). -/
def createTableClauses (u : UpperCase) (tdef : TableDefinition) : List String :=
  let st := columnLoop u tdef.Columns
  let withPrimaryKey :=
    if st.2.length > 0 then st.1 ++ ["  PRIMARY KEY (" ++ stringsJoin st.2 ", " ++ ")"]
    else st.1
  tdef.Indexes.foldl (fun columnDefs idx => columnDefs ++ [indexClause idx]) withPrimaryKey

/-- GenerateCreateTableSQL generates CREATE TABLE SQL from definition. -/
def GenerateCreateTableSQL (u : UpperCase) (tdef : TableDefinition) : String :=
  "CREATE TABLE `" ++ tdef.Name ++ "` (\n" ++
    stringsJoin (createTableClauses u tdef) ",\n" ++
    "\n)" ++
    (if tdef.Engine ≠ "" then " ENGINE=" ++ tdef.Engine else " ENGINE=InnoDB") ++
    (if tdef.Charset ≠ "" then " DEFAULT CHARSET=" ++ tdef.Charset
      else " DEFAULT CHARSET=utf8mb4") ++
    (if tdef.Collation ≠ "" then " COLLATE=" ++ tdef.Collation
      else " COLLATE=utf8mb4_unicode_ci") ++
    (if tdef.Comment ≠ "" then " COMMENT='" ++ escapeString tdef.Comment ++ "'" else "") ++
    ";"

/-! ## Data differencer: reading the two databases (`data_sync.go`) -/

/-- ConnectionConfig holds database connection info. -/
structure ConnectionConfig where
  Host : String
  Port : Int
  User : String
  Password : String
  Database : String
  deriving DecidableEq, Repr

/-- The database servers, as the program sees them: what each of its
requests is answered with. An answer is an error text or the scanned rows. The
servers do not change while `CompareTableData` runs. -/
structure SqlWorld where
  /-- Outcome of `sql.Open` followed by `Ping`. -/
  connect : ConnectionConfig → Except String Unit
  /-- Rows of the KEY_COLUMN_USAGE query of `getPrimaryKeys` for a table. -/
  primaryKeys : ConnectionConfig → String → Except String (List String)
  /-- Rows of the COLUMNS query of `getColumns` for a table. -/
  columns : ConnectionConfig → String → Except String (List String)
  /-- Rows of a SELECT statement, each the values that `rows.Scan` stores,
  one per selected column. -/
  query : ConnectionConfig → String → Except String (List (List Value))

/-- An open connection, `*sql.DB`: known by the configuration it was opened
with. -/
structure DB where
  config : ConnectionConfig
  deriving DecidableEq, Repr

/-- A call of one of the functions that talk to a database. -/
inductive DbCall where
  | Connect (config : ConnectionConfig)
  | getPrimaryKeys (db : DB) (tableName : String)
  | getColumns (db : DB) (tableName : String)
  | getTableData (db : DB) (tableName : String)
  deriving DecidableEq, Repr

/-- Connect creates a database connection. -/
def Connect (w : SqlWorld) (config : ConnectionConfig) : Except String DB :=
  match w.connect config with
  | .error err => .error err
  | .ok _ => .ok ⟨config⟩

def getPrimaryKeys (w : SqlWorld) (db : DB) (tableName : String) :
    Except String (List String) :=
  w.primaryKeys db.config tableName

def getColumns (w : SqlWorld) (db : DB) (tableName : String) : Except String (List String) :=
  w.columns db.config tableName

/-- The row that `getTableData` builds from the scanned values of one result
row (lines 325-334): a byte slice is stored as a string. -/
def scannedRow (columns : List String) (values : List Value) : Row :=
  columns.enum.foldl (fun row e =>
    match values.getD e.1 Value.nil with
    | .bytes text => row.set e.2 (Value.str text)
    | val => row.set e.2 val) GoMap.empty

/-- The key `pkKey` that `getTableData` builds for a row (lines 336-340). -/
def compositeKey (row : Row) (primaryKeys : List String) : String :=
  stringsJoin (primaryKeys.map (fun pk => sprintV (getValue row pk))) "|"

def getTableData (w : SqlWorld) (db : DB) (tableName : String)
    (columns primaryKeys : List String) : Except String (GoMap Row) :=
  let quotedCols := columns.map (fun col => "`" ++ col ++ "`")
  let query := "SELECT " ++ stringsJoin quotedCols ", " ++ " FROM `" ++ tableName ++ "`"
  match w.query db.config query with
  | .error err => .error err
  | .ok rows =>
    .ok (rows.foldl (fun data values =>
      let row := scannedRow columns values
      data.set (compositeKey row primaryKeys) row) GoMap.empty)

/-- CompareTableData compares data between source and target tables. The
first component lists the calls made to the databases, in order; the second is
the error or the result. -/
def CompareTableData (rt : GoRuntime) (w : SqlWorld)
    (sourceConfig targetConfig : ConnectionConfig) (tableName : String) :
    List DbCall × Except String (List DataDiffResult) :=
  let calls1 := [DbCall.Connect sourceConfig]
  match Connect w sourceConfig with
  | .error err => (calls1, .error ("source connection failed: " ++ err))
  | .ok sourceDB =>
    let calls2 := calls1 ++ [DbCall.Connect targetConfig]
    match Connect w targetConfig with
    | .error err => (calls2, .error ("target connection failed: " ++ err))
    | .ok targetDB =>
      let calls3 := calls2 ++ [DbCall.getPrimaryKeys sourceDB tableName]
      match getPrimaryKeys w sourceDB tableName with
      | .error err => (calls3, .error err)
      | .ok primaryKeys =>
        if primaryKeys.length = 0 then
          (calls3, .error ("table " ++ tableName ++ " has no primary key"))
        else
          let calls4 := calls3 ++ [DbCall.getColumns sourceDB tableName]
          match getColumns w sourceDB tableName with
          | .error err => (calls4, .error err)
          | .ok columns =>
            let calls5 := calls4 ++ [DbCall.getTableData sourceDB tableName]
            match getTableData w sourceDB tableName columns primaryKeys with
            | .error err => (calls5, .error ("failed to get source data: " ++ err))
            | .ok sourceData =>
              let calls6 := calls5 ++ [DbCall.getTableData targetDB tableName]
              match getTableData w targetDB tableName columns primaryKeys with
              | .error err => (calls6, .error ("failed to get target data: " ++ err))
              | .ok targetData =>
                (calls6,
                  .ok (dataDiffLoop rt tableName primaryKeys columns sourceData targetData))

/-! ## Two concrete runtimes -/

/-- Maps are visited in the order their keys were first stored. -/
def RangeOrder.stored : RangeOrder := ⟨id, fun _ => List.Perm.refl _⟩

/-- Maps are visited in the opposite order. -/
def RangeOrder.reversed : RangeOrder := ⟨List.reverse, List.reverse_perm⟩

/-- Insertion sort by `less`; elements that compare equal keep their order. -/
def insertionSortLess (less : DiffResult → DiffResult → Bool) (l : List DiffResult) :
    List DiffResult :=
  l.insertionSort (fun a b => less b a = false)

theorem pairwise_orderedInsert {α : Type} (r : α → α → Prop) [DecidableRel r] (a : α) :
    ∀ s : List α, s.Pairwise r →
      (∀ x ∈ s, r a x ∨ r x a) →
      (∀ x ∈ s, ∀ y ∈ s, r a x → r x y → r a y) →
      (s.orderedInsert r a).Pairwise r := by
  intro s
  induction s with
  | nil => intro _ _ _; simp
  | cons b s ih =>
    intro hs htot htr
    rw [List.pairwise_cons] at hs
    simp only [List.orderedInsert]
    split
    · rename_i hab
      refine List.pairwise_cons.2 ⟨?_, List.pairwise_cons.2 hs⟩
      intro x hx
      rcases List.mem_cons.1 hx with rfl | hx
      · exact hab
      · exact htr b (List.mem_cons_self _ _) x (List.mem_cons_of_mem _ hx) hab (hs.1 x hx)
    · rename_i hab
      have hba : r b a := (htot b (List.mem_cons_self _ _)).resolve_left hab
      refine List.pairwise_cons.2 ⟨?_, ?_⟩
      · intro x hx
        rcases (List.mem_orderedInsert r).1 hx with rfl | hx
        · exact hba
        · exact hs.1 x hx
      · exact ih hs.2 (fun x hx => htot x (List.mem_cons_of_mem _ hx))
          (fun x hx y hy => htr x (List.mem_cons_of_mem _ hx) y (List.mem_cons_of_mem _ hy))

theorem insertionSortLess_sorted (less : DiffResult → DiffResult → Bool) :
    ∀ l : List DiffResult, StrictWeakOn less l →
      (insertionSortLess less l).Pairwise (fun a b => less b a = false) := by
  intro l
  induction l with
  | nil => intro _; simp [insertionSortLess]
  | cons a l ih =>
    intro h
    have hl : StrictWeakOn less l :=
      ⟨fun x hx y hy => h.1 x (List.mem_cons_of_mem _ hx) y (List.mem_cons_of_mem _ hy),
       fun x hx y hy z hz => h.2 x (List.mem_cons_of_mem _ hx) y (List.mem_cons_of_mem _ hy)
          z (List.mem_cons_of_mem _ hz)⟩
    have hmem : ∀ x, x ∈ List.insertionSort (fun a b => less b a = false) l → x ∈ a :: l :=
      fun x hx => List.mem_cons_of_mem _ ((List.mem_insertionSort _).1 hx)
    simp only [insertionSortLess, List.insertionSort]
    apply pairwise_orderedInsert _ _ _ (ih hl)
    · intro x hx
      exact (h.1 x (hmem x hx) a (List.mem_cons_self _ _))
    · intro x hx y hy hax hxy
      exact h.2 a (List.mem_cons_self _ _) x (hmem x hx) y (hmem y hy) hax hxy

/-- A runtime that visits every map in stored order and sorts by insertion. -/
def GoRuntime.plain : GoRuntime where
  mapOrder := fun _ _ => RangeOrder.stored
  sortSlice := insertionSortLess
  sortSlice_perm := fun _ l => List.perm_insertionSort _ l
  sortSlice_sorted := insertionSortLess_sorted

/-- A runtime that visits every map in reverse stored order. -/
def GoRuntime.backwards : GoRuntime where
  mapOrder := fun _ _ => RangeOrder.reversed
  sortSlice := insertionSortLess
  sortSlice_perm := fun _ l => List.perm_insertionSort _ l
  sortSlice_sorted := insertionSortLess_sorted

/-! ## Vocabulary of the properties

Predicates and helper functions the statements below are written with. -/

/-- One of the three kinds a `DiffResult` is created with. -/
def KnownKind (d : DiffResult) : Prop :=
  d.Type_ = "added" ∨ d.Type_ = "modified" ∨ d.Type_ = "removed"

/-- The pair the comparison of `CompareSchemas` orders by. -/
def sortKey (d : DiffResult) : Lex (ℕ × String) := toLex (kindRank d.Type_, d.TableName)

/-- The kind a rank stands for. -/
def kindOfRank (n : ℕ) : String :=
  if n = 0 then "added" else if n = 1 then "modified" else "removed"

/-- The call `strings.HasPrefix(s, p)`. -/
def hasPrefix (s p : String) : Bool := p.data.isPrefixOf s.data

/-- The step of `compareTableStructure` that the Detail text of an entry names,
numbered in the order the specification lists them. -/
def detailStage (d : DiffResult) : Nat :=
  if hasPrefix d.Detail "Add column: " then 0
  else if hasPrefix d.Detail "Drop column: " then 1
  else if hasPrefix d.Detail "Modify column: " then 2
  else if hasPrefix d.Detail "Add index: " then 3
  else if hasPrefix d.Detail "Recreate index: " then 4
  else if hasPrefix d.Detail "Drop index: " then 5
  else 6

/-- The entry is a "modified" entry of table `t`. -/
def isModifiedOf (t : String) (d : DiffResult) : Bool :=
  d.Type_ == "modified" && d.TableName == t

/-- The loop of `compareTableStructure` an entry's Detail comes from: the
three column loops, then the loop over the source index map (which appends
both "Add index" and "Recreate index"), then the loop over the target index
map. -/
def loopStage (d : DiffResult) : Nat :=
  match detailStage d with
  | 0 => 0
  | 1 => 1
  | 2 => 2
  | 3 => 3
  | 4 => 3
  | 5 => 4
  | _ => 5

/-- The entry is an "added" entry of table `t`. -/
def isAddedOf (t : String) (d : DiffResult) : Bool :=
  d.Type_ == "added" && d.TableName == t

/-- The entry is a "removed" entry of table `t`. -/
def isRemovedOf (t : String) (d : DiffResult) : Bool :=
  d.Type_ == "removed" && d.TableName == t

/-- The column named `c` in a column list. Should a name occur twice, the
later column counts: it is the one the column map of `compareTableStructure`
keeps. -/
def columnNamed : List ColumnInfo → String → Option ColumnInfo
  | [], _ => none
  | col :: rest, c =>
    match columnNamed rest c with
    | some x => some x
    | none => if col.Name = c then some col else none

/-- The column names of the two tables, each once. -/
def columnNames (S T : TableInfo) : List String :=
  (S.Columns.map (·.Name) ++ T.Columns.map (·.Name)).dedup

/-- The entry the specification asks for column `c` of the common table `t`: Add
column when `c` is in the source only, Drop column when it is in the target
only, Modify column when it is in both and the two columns are not
`columnsEqual`, and no entry otherwise. -/
def columnEntry (t : String) (S T : TableInfo) (c : String) : Option DiffResult :=
  match columnNamed S.Columns c, columnNamed T.Columns c with
  | some sc, none => some (addColumnDiff t S c sc)
  | none, some _ => some (dropColumnDiff t c)
  | some sc, some tc =>
    if columnsEqual sc tc then none else some (modifyColumnDiff t c sc tc)
  | none, none => none

/-- The entry comes from one of the three column loops. -/
def isColumnEntry (d : DiffResult) : Bool := decide (loopStage d < 3)

/-- The back-quoted member columns of the index rows named `n`, in the order
in which the rows stand in the list. -/
def indexColumns (indexes : List IndexInfo) (n : String) : List String :=
  (indexes.filter (fun idx => idx.Name = n)).map (fun idx => "`" ++ idx.Column ++ "`")

/-- The back-quoted member columns of the index rows named `n`, ordered by
ascending sequence-in-index. -/
def indexColumnsBySeq (indexes : List IndexInfo) (n : String) : List String :=
  ((indexes.filter (fun idx => idx.Name = n)).insertionSort
    (fun a b => a.SeqInIdx ≤ b.SeqInIdx)).map (fun idx => "`" ++ idx.Column ++ "`")

/-- The index names of the two tables, each once. -/
def indexNames (S T : TableInfo) : List String :=
  (S.Indexes.map (·.Name) ++ T.Indexes.map (·.Name)).dedup

/-- The entry the specification asks for the index `n` of the common table
`t`: none for "PRIMARY"; Add index when `n` is in the source only, Drop index
when it is in the target only, Recreate index when it is in both and the
ordered column lists differ, and no entry when they are equal. -/
def indexEntry (t : String) (S T : TableInfo) (n : String) : Option DiffResult :=
  if n = "PRIMARY" then none
  else if n ∈ S.Indexes.map (·.Name) then
    if n ∈ T.Indexes.map (·.Name) then
      if indexColumns S.Indexes n = indexColumns T.Indexes n then none
      else some
        { Type_ := "modified", TableName := t, Detail := "Recreate index: " ++ n,
          SQL := "ALTER TABLE `" ++ t ++ "` DROP INDEX `" ++ n ++ "`, ADD INDEX `" ++ n ++
            "` (" ++ stringsJoin (indexColumns S.Indexes n) ", " ++ ");" }
    else some
      { Type_ := "modified", TableName := t, Detail := "Add index: " ++ n,
        SQL := "ALTER TABLE `" ++ t ++ "` ADD INDEX `" ++ n ++ "` (" ++
          stringsJoin (indexColumns S.Indexes n) ", " ++ ");" }
  else if n ∈ T.Indexes.map (·.Name) then some
      { Type_ := "modified", TableName := t, Detail := "Drop index: " ++ n,
        SQL := "ALTER TABLE `" ++ t ++ "` DROP INDEX `" ++ n ++ "`;" }
  else none

/-- The entry comes from one of the two index loops. -/
def isIndexEntry (d : DiffResult) : Bool := decide (loopStage d = 3 ∨ loopStage d = 4)

/-- The composite keys of the two row snapshots, each once. -/
def snapshotKeys (sourceData targetData : GoMap Row) : List String :=
  (sourceData.keys ++ targetData.keys).dedup

/-- The entry the specification asks for the composite key `k`: an insert
when `k` is in the source only, a delete when it is in the target only, an
update when it is in both and the rows are not `rowsEqual`, and no entry
otherwise. -/
def dataEntry (rt : GoRuntime) (tableName : String) (primaryKeys columns : List String)
    (sourceData targetData : GoMap Row) (k : String) : Option DataDiffResult :=
  match sourceData.get? k, targetData.get? k with
  | some sourceRow, none => some
      { Type_ := "insert", TableName := tableName,
        PrimaryKey := extractPrimaryKey sourceRow primaryKeys,
        OldValues := none, NewValues := some sourceRow,
        SQL := generateInsertSQL tableName sourceRow columns }
  | some sourceRow, some targetRow =>
    if rowsEqual (rt.mapOrder 351 k) sourceRow targetRow then none
    else some
      { Type_ := "update", TableName := tableName,
        PrimaryKey := extractPrimaryKey sourceRow primaryKeys,
        OldValues := some targetRow, NewValues := some sourceRow,
        SQL := generateUpdateSQL (rt.mapOrder 388 k) tableName sourceRow primaryKeys }
  | none, some targetRow => some
      { Type_ := "delete", TableName := tableName,
        PrimaryKey := extractPrimaryKey targetRow primaryKeys,
        OldValues := some targetRow, NewValues := none,
        SQL := generateDeleteSQL tableName primaryKeys
          (extractPrimaryKey targetRow primaryKeys) }
  | none, none => none

/-- The columns of the column list that are present in the row mapping, each
with the row's value, in column-list order. -/
def listedColumns (row : Row) (columns : List String) : List (String × Value) :=
  columns.filterMap (fun c => (row.get? c).map (fun v => (c, v)))

/-- Row equality as the specification words it: the same number of columns,
and every column of `a` present in `b` with the same stringified value. -/
def sameColumnsAndText (a b : Row) : Bool :=
  a.len == b.len &&
    a.entries.all (fun e =>
      match b.get? e.1 with
      | some v => sprintV e.2 == sprintV v
      | none => false)

/-- A text with each single quote doubled and nothing else changed. -/
def doubleQuotes : List Char → List Char
  | [] => []
  | c :: cs => if c = singleQuote then singleQuote :: singleQuote :: doubleQuotes cs
    else c :: doubleQuotes cs

/-- A text with each backslash doubled and nothing else changed. -/
def doubleBackslashes : List Char → List Char
  | [] => []
  | c :: cs => if c = backslash then backslash :: backslash :: doubleBackslashes cs
    else c :: doubleBackslashes cs

/-- The type is, case-insensitively, one of the five that take a length. -/
def typeTakesLength (u : UpperCase) (ty : String) : Prop :=
  stringsToUpper u ty ∈ ["VARCHAR", "CHAR", "DECIMAL", "FLOAT", "DOUBLE"]

instance (u : UpperCase) (ty : String) : Decidable (typeTakesLength u ty) := by
  unfold typeTakesLength
  infer_instance

/-- The parts of a column clause as the specification lists them, in order:
quoted name; type with its length suffix; nullability; default clause;
auto-increment modifier; UNIQUE; comment clause. -/
def columnClauseParts (u : UpperCase) (col : ColumnDefinition) : List String :=
  ["`" ++ col.Name ++ "`",
    col.Type_ ++
      (if 0 < col.Length ∧ typeTakesLength u col.Type_ then "(" ++ toString col.Length ++ ")"
        else ""),
    if col.Nullable then "NULL" else "NOT NULL"] ++
  (match col.DefaultValue with
    | none => []
    | some v =>
      if v = "CURRENT_TIMESTAMP" ∨ v = "NULL" then ["DEFAULT " ++ v]
      else ["DEFAULT '" ++ escapeString v ++ "'"]) ++
  (if col.AutoIncrement then ["AUTO_INCREMENT"] else []) ++
  (if col.Unique ∧ ¬ col.PrimaryKey then ["UNIQUE"] else []) ++
  (if col.Comment ≠ "" then ["COMMENT '" ++ escapeString col.Comment ++ "'"] else [])

/-- The columns of a table definition that are flagged primary key, in
column-definition order. -/
def flaggedPrimary (tdef : TableDefinition) : List ColumnDefinition :=
  tdef.Columns.filter (fun c => c.PrimaryKey)

/-- The clause is a PRIMARY KEY clause. -/
def isPrimaryKeyClause (clause : String) : Bool := hasPrefix clause "  PRIMARY KEY ("

/-- The last character of the text is ";". -/
def endsWithSemicolon (s : String) : Bool := s.data.getLast? == some ';'

/-- The call is a call of `getTableData`, the function that fetches rows. -/
def DbCall.fetchesRows : DbCall → Bool
  | .getTableData _ _ => true
  | _ => false

/-- The tuple of stringified primary-key values of a row, in primary-key
column order. -/
def keyTuple (row : Row) (primaryKeys : List String) : List String :=
  primaryKeys.map (fun pk => sprintV (getValue row pk))

/-- The text holds no "|". -/
def pipeFree (s : String) : Prop := '|' ∉ s.data

instance (s : String) : Decidable (pipeFree s) :=
  inferInstanceAs (Decidable ('|' ∉ s.data))

/-- The statement that `getTableData` sends. -/
def selectStatement (tableName : String) (columns : List String) : String :=
  "SELECT " ++ stringsJoin (columns.map (fun col => "`" ++ col ++ "`")) ", " ++
    " FROM `" ++ tableName ++ "`"

/-! ## Example inputs -/

/-- Source side of the input on which two calls of `CompareSchemas` differ:
table `t` with columns `id`, `a`, `b`. -/
def twoNewColumnsSource : SchemaInfo :=
  { Database := "db"
    Tables := GoMap.ofList
      [("t", { Name := "t", CreateSQL := "CREATE TABLE `t` (...)",
               Columns := [⟨"id", "INT", "NO", "PRI", none, "", 1⟩,
                           ⟨"a", "INT", "NO", "", none, "", 2⟩,
                           ⟨"b", "INT", "NO", "", none, "", 3⟩],
               Indexes := [] })] }

/-- Target side of that input: table `t` with the single column `id`. -/
def twoNewColumnsTarget : SchemaInfo :=
  { Database := "db"
    Tables := GoMap.ofList
      [("t", { Name := "t", CreateSQL := "CREATE TABLE `t` (...)",
               Columns := [⟨"id", "INT", "NO", "PRI", none, "", 1⟩],
               Indexes := [] })] }

/-- Source table of the index-order example: indexes `i1` and `i2`, both on
column `a`. -/
def indexOrderSourceTable : TableInfo :=
  { Name := "t", CreateSQL := "CREATE TABLE `t` (...)",
    Columns := [⟨"id", "INT", "NO", "PRI", none, "", 1⟩, ⟨"a", "INT", "NO", "", none, "", 2⟩],
    Indexes := [⟨"i1", 1, "a", 1⟩, ⟨"i2", 1, "a", 1⟩] }

/-- Target table of that example: the same columns and the one index `i1`,
on column `id`. -/
def indexOrderTargetTable : TableInfo :=
  { Name := "t", CreateSQL := "CREATE TABLE `t` (...)",
    Columns := [⟨"id", "INT", "NO", "PRI", none, "", 1⟩, ⟨"a", "INT", "NO", "", none, "", 2⟩],
    Indexes := [⟨"i1", 1, "id", 1⟩] }

def indexOrderSource : SchemaInfo :=
  { Database := "db", Tables := GoMap.ofList [("t", indexOrderSourceTable)] }

def indexOrderTarget : SchemaInfo :=
  { Database := "db", Tables := GoMap.ofList [("t", indexOrderTargetTable)] }

/-- A table `users` with one column. -/
def usersTable : TableInfo :=
  { Name := "users", CreateSQL := "CREATE TABLE `users` (`id` INT NOT NULL)",
    Columns := [⟨"id", "INT", "NO", "PRI", none, "", 1⟩],
    Indexes := [⟨"PRIMARY", 0, "id", 1⟩] }

/-- A table `audit_log` with one column. -/
def auditLogTable : TableInfo :=
  { Name := "audit_log", CreateSQL := "CREATE TABLE `audit_log` (`id` INT NOT NULL)",
    Columns := [⟨"id", "INT", "NO", "PRI", none, "", 1⟩],
    Indexes := [⟨"PRIMARY", 0, "id", 1⟩] }

/-- Scenario 2, source side: the schema holds `users` only. -/
def auditScenarioSource : SchemaInfo :=
  { Database := "app", Tables := GoMap.ofList [("users", usersTable)] }

/-- Scenario 2, target side: the schema holds `users` and `audit_log`. -/
def auditScenarioTarget : SchemaInfo :=
  { Database := "app",
    Tables := GoMap.ofList [("users", usersTable), ("audit_log", auditLogTable)] }

/-- Source table of scenario 1: `t(id, name)`. -/
def scenarioSourceTable : TableInfo :=
  { Name := "t", CreateSQL := "CREATE TABLE `t` (...)",
    Columns := [⟨"id", "INT", "NO", "PRI", none, "", 1⟩,
                ⟨"name", "VARCHAR", "NO", "", none, "", 2⟩],
    Indexes := [⟨"PRIMARY", 0, "id", 1⟩] }

/-- Target table of scenario 1: `t(id)`. -/
def scenarioTargetTable : TableInfo :=
  { Name := "t", CreateSQL := "CREATE TABLE `t` (...)",
    Columns := [⟨"id", "INT", "NO", "PRI", none, "", 1⟩],
    Indexes := [⟨"PRIMARY", 0, "id", 1⟩] }

def scenarioSource : SchemaInfo :=
  { Database := "db", Tables := GoMap.ofList [("t", scenarioSourceTable)] }

def scenarioTarget : SchemaInfo :=
  { Database := "db", Tables := GoMap.ofList [("t", scenarioTargetTable)] }

/-- The source row of scenario 3: `{id: 1, name: "Bob"}`, the id as the
driver returns an integer column. -/
def bobRow : Row := GoMap.ofList [("id", .integer .int64 1), ("name", .str "Bob")]

/-- A connection configuration. -/
def localConfig (database : String) : ConnectionConfig :=
  ⟨"127.0.0.1", 3306, "root", "", database⟩

/-- Two reachable servers where the table asked for has columns `id` and
`note`, no primary key, and one row. -/
def keylessWorld : SqlWorld where
  connect := fun _ => .ok ()
  primaryKeys := fun _ _ => .ok []
  columns := fun _ _ => .ok ["id", "note"]
  query := fun _ _ => .ok [[.integer .int64 1, .bytes "x"]]

/-- A row of a table with primary key `(a, b)`. -/
def pipeRowA : Row := GoMap.ofList [("a", .str "x|y"), ("b", .str "z")]

/-- Another row of the same table. -/
def pipeRowB : Row := GoMap.ofList [("a", .str "x"), ("b", .str "y|z")]

/-- A server whose table has the two rows `pipeRowA` and `pipeRowB`. -/
def pipeWorld : SqlWorld where
  connect := fun _ => .ok ()
  primaryKeys := fun _ _ => .ok ["a", "b"]
  columns := fun _ _ => .ok ["a", "b"]
  query := fun _ _ => .ok [[.bytes "x|y", .bytes "z"], [.bytes "x", .bytes "y|z"]]

/-- A table `t(id, name)` with an index `by_name`. -/
def quietSourceTable : TableInfo :=
  { Name := "t", CreateSQL := "CREATE TABLE `t` (...)",
    Columns := [⟨"id", "INT", "NO", "PRI", none, "", 1⟩,
                ⟨"name", "VARCHAR(50)", "YES", "MUL", some "", "", 2⟩],
    Indexes := [⟨"PRIMARY", 0, "id", 1⟩, ⟨"by_name", 1, "name", 1⟩] }

/-- The same table with the columns in the other order, other key roles, and
a primary key on `(id, name)`. -/
def quietTargetTable : TableInfo :=
  { Name := "t", CreateSQL := "CREATE TABLE `t` (... )",
    Columns := [⟨"name", "VARCHAR(50)", "YES", "PRI", some "", "", 1⟩,
                ⟨"id", "INT", "NO", "PRI", none, "", 2⟩],
    Indexes := [⟨"by_name", 0, "name", 1⟩, ⟨"PRIMARY", 0, "id", 1⟩,
                ⟨"PRIMARY", 0, "name", 2⟩] }

def quietSource : SchemaInfo :=
  { Database := "db", Tables := GoMap.ofList [("t", quietSourceTable)] }

def quietTarget : SchemaInfo :=
  { Database := "db", Tables := GoMap.ofList [("t", quietTargetTable)] }

/-! ## Lemmas on maps and `range` -/

theorem getEntries_isSome {V : Type} (es : List (String × V)) (k : String) :
    (getEntries es k).isSome = true ↔ k ∈ es.map Prod.fst := by
  induction es with
  | nil => simp [getEntries]
  | cons e es ih =>
    obtain ⟨k', v'⟩ := e
    by_cases h : k' = k
    · simp [getEntries, h]
    · have h' : ¬ k = k' := fun e => h e.symm
      simp [getEntries, h, h', ih]

theorem getEntries_eq_none {V : Type} (es : List (String × V)) (k : String) :
    getEntries es k = none ↔ k ∉ es.map Prod.fst := by
  rw [← getEntries_isSome]
  cases getEntries es k <;> simp

theorem mem_of_getEntries {V : Type} (es : List (String × V)) (k : String) (v : V)
    (h : getEntries es k = some v) : (k, v) ∈ es := by
  induction es with
  | nil => simp [getEntries] at h
  | cons e es ih =>
    obtain ⟨k', v'⟩ := e
    by_cases hk : k' = k
    · simp [getEntries, hk] at h
      simp [hk, h]
    · simp only [getEntries, hk, if_false] at h
      exact List.mem_cons_of_mem _ (ih h)

theorem getEntries_of_mem {V : Type} (es : List (String × V)) (k : String) (v : V)
    (hnd : (es.map Prod.fst).Nodup) (h : (k, v) ∈ es) : getEntries es k = some v := by
  induction es with
  | nil => simp at h
  | cons e es ih =>
    obtain ⟨k', v'⟩ := e
    rw [List.map_cons, List.nodup_cons] at hnd
    rcases List.mem_cons.1 h with heq | hmem
    · cases heq
      simp [getEntries]
    · have hk : k' ≠ k := by
        rintro rfl
        exact hnd.1 (List.mem_map.2 ⟨_, hmem, rfl⟩)
      simp only [getEntries, hk, if_false]
      exact ih hnd.2 hmem

theorem getEntries_setEntries {V : Type} (es : List (String × V)) (k : String) (v : V)
    (k' : String) :
    getEntries (setEntries es k v) k' = if k = k' then some v else getEntries es k' := by
  induction es with
  | nil => simp [setEntries, getEntries]
  | cons e es ih =>
    obtain ⟨k0, v0⟩ := e
    by_cases h : k0 = k
    · subst h
      by_cases h2 : k0 = k' <;> simp [setEntries, getEntries, h2]
    · by_cases h2 : k0 = k'
      · subst h2
        have : ¬ k = k0 := fun e => h e.symm
        simp [setEntries, getEntries, h, this]
      · simp [setEntries, getEntries, h, h2, ih]

namespace GoMap

variable {V : Type}

theorem get?_eq_some_iff (m : GoMap V) (k : String) (v : V) :
    m.get? k = some v ↔ (k, v) ∈ m.entries :=
  ⟨mem_of_getEntries _ _ _, getEntries_of_mem _ _ _ m.nodup⟩

theorem contains_iff (m : GoMap V) (k : String) : m.contains k = true ↔ k ∈ m.keys :=
  getEntries_isSome _ _

theorem contains_eq_false_iff (m : GoMap V) (k : String) :
    m.contains k = false ↔ m.get? k = none := by
  unfold contains
  cases m.get? k <;> simp

theorem get?_eq_none_iff (m : GoMap V) (k : String) : m.get? k = none ↔ k ∉ m.keys :=
  getEntries_eq_none _ _

theorem contains_of_get? (m : GoMap V) (k : String) (v : V) (h : m.get? k = some v) :
    m.contains k = true := by
  simp [contains, h]

@[simp] theorem get?_empty (k : String) : (empty : GoMap V).get? k = none := rfl

theorem get?_set (m : GoMap V) (k : String) (v : V) (k' : String) :
    (m.set k v).get? k' = if k = k' then some v else m.get? k' :=
  getEntries_setEntries _ _ _ _

theorem mem_range (m : GoMap V) (o : RangeOrder) (e : String × V) :
    e ∈ m.range o ↔ m.get? e.1 = some e.2 := by
  obtain ⟨k, v⟩ := e
  simp only [range, List.mem_filterMap, Option.map_eq_some']
  constructor
  · rintro ⟨k', _, v', hv', heq⟩
    cases heq
    exact hv'
  · intro h
    refine ⟨k, ?_, v, h, rfl⟩
    exact (o.perm _).mem_iff.2
      (List.mem_map_of_mem Prod.fst (mem_of_getEntries _ _ _ h) : k ∈ m.keys)

theorem range_perm (m : GoMap V) (o : RangeOrder) : (m.range o).Perm m.entries := by
  have h1 : (m.range o).Perm
      (m.keys.filterMap (fun k => (m.get? k).map (fun v => (k, v)))) :=
    (o.perm m.keys).filterMap _
  have h2 : m.keys.filterMap (fun k => (m.get? k).map (fun v => (k, v))) = m.entries := by
    unfold keys
    rw [List.filterMap_map]
    conv_rhs => rw [← List.filterMap_some m.entries]
    apply List.filterMap_congr
    intro e he
    have := (m.get?_eq_some_iff e.1 e.2).2 he
    simp [this]
  rw [h2] at h1
  exact h1

theorem range_keys_nodup (m : GoMap V) (o : RangeOrder) :
    ((m.range o).map Prod.fst).Nodup :=
  ((m.range_perm o).map Prod.fst).nodup_iff.2 m.nodup

end GoMap

theorem defaultsEqual_iff (a b : Option String) : defaultsEqual a b = true ↔ a = b := by
  cases a <;> cases b <;> simp [defaultsEqual]

theorem columnsEqual_self (c : ColumnInfo) : columnsEqual c c = true := by
  simp [columnsEqual, defaultsEqual_iff]

theorem stringSlicesEqual_iff (a b : List String) : stringSlicesEqual a b = true ↔ a = b := by
  unfold stringSlicesEqual
  constructor
  · intro h
    split at h
    · simp at h
    · rename_i hlen
      simp only [ne_eq, Decidable.not_not] at hlen
      induction a generalizing b with
      | nil => cases b <;> simp_all
      | cons x xs ih =>
        cases b with
        | nil => simp at hlen
        | cons y ys =>
          simp only [List.zip_cons_cons, List.all_cons, Bool.and_eq_true, beq_iff_eq] at h
          simp only [List.length_cons, add_left_inj] at hlen
          rw [h.1, ih ys h.2 hlen]
  · rintro rfl
    simp only [ne_eq, not_true_eq_false, if_false]
    induction a with
    | nil => simp
    | cons x xs ih => simpa using ih

theorem compareTableStructure_self (rt : GoRuntime) (tableName : String) (t : TableInfo) :
    compareTableStructure rt tableName t t = [] := by
  simp only [compareTableStructure, List.append_eq_nil, addedColumns, removedColumns,
    modifiedColumns, sourceIndexDiffs, targetIndexDiffs, List.filterMap_eq_nil_iff]
  refine ⟨⟨⟨⟨?_, ?_⟩, ?_⟩, ?_⟩, ?_⟩
  · intro e he
    rw [GoMap.mem_range] at he
    simp [GoMap.contains_of_get? _ _ _ he]
  · intro e he
    rw [GoMap.mem_range] at he
    simp [GoMap.contains_of_get? _ _ _ he]
  · intro e he
    rw [GoMap.mem_range] at he
    simp [he, columnsEqual_self]
  · intro e he
    rw [GoMap.mem_range] at he
    simp [he, (stringSlicesEqual_iff _ _).2 rfl]
  · intro e he
    rw [GoMap.mem_range] at he
    simp [GoMap.contains_of_get? _ _ _ he]

theorem unsortedDiffs_self (rt : GoRuntime) (s : SchemaInfo) : unsortedDiffs rt s s = [] := by
  simp only [unsortedDiffs, List.append_eq_nil, List.filterMap_eq_nil_iff,
    List.flatMap_eq_nil_iff]
  refine ⟨⟨?_, ?_⟩, ?_⟩
  · intro e he
    rw [GoMap.mem_range] at he
    simp [GoMap.contains_of_get? _ _ _ he]
  · intro e he
    rw [GoMap.mem_range] at he
    simp [GoMap.contains_of_get? _ _ _ he]
  · intro e he
    rw [GoMap.mem_range] at he
    simp [he, compareTableStructure_self]

/-- Claim C1 (idempotence of the schema differencer): for every schema `S`,
whatever order the runtime visits the maps in and however `sort.Slice` breaks
ties, `CompareSchemas(S, S)` is the empty sequence. -/
theorem CompareSchemas_self_empty (rt : GoRuntime) (S : SchemaInfo) :
    CompareSchemas rt S S = [] := by
  unfold CompareSchemas
  rw [unsortedDiffs_self]
  exact List.Perm.eq_nil (rt.sortSlice_perm diffLess [])

theorem rowsEqual_self (o : RangeOrder) (r : Row) : rowsEqual o r r = true := by
  simp only [rowsEqual, ne_eq, not_true_eq_false, if_false, List.all_eq_true, beq_iff_eq]
  intro e he
  rw [GoMap.mem_range] at he
  simp [getValue, he]

/-- Claim C2 (idempotence of the data differencer): for every row snapshot `D`,
the data-diff loop of `CompareTableData` run with source `D` and target `D`
yields the empty sequence, and `rowsEqual(r, r)` is true for every row `r`,
whatever the iteration orders are. -/
theorem dataDiffLoop_self_empty (rt : GoRuntime) (tableName : String)
    (primaryKeys columns : List String) (D : GoMap Row) :
    dataDiffLoop rt tableName primaryKeys columns D D = [] ∧
      ∀ (o : RangeOrder) (r : Row), rowsEqual o r r = true := by
  refine ⟨?_, rowsEqual_self⟩
  simp only [dataDiffLoop, List.append_eq_nil, List.filterMap_eq_nil_iff]
  refine ⟨?_, ?_⟩
  · intro e he
    rw [GoMap.mem_range] at he
    simp [he, rowsEqual_self]
  · intro e he
    rw [GoMap.mem_range] at he
    simp [GoMap.contains_of_get? _ _ _ he]

theorem compareTableStructure_type (rt : GoRuntime) (tableName : String) (s t : TableInfo)
    (d : DiffResult) (h : d ∈ compareTableStructure rt tableName s t) :
    d.Type_ = "modified" ∧ d.TableName = tableName := by
  simp only [compareTableStructure, List.mem_append, addedColumns, removedColumns,
    modifiedColumns, sourceIndexDiffs, targetIndexDiffs, List.mem_filterMap] at h
  rcases h with (((⟨e, _, h⟩ | ⟨e, _, h⟩) | ⟨e, _, h⟩) | ⟨e, _, h⟩) | ⟨e, _, h⟩
  · split at h
    · cases h
    · cases h; exact ⟨rfl, rfl⟩
  · split at h
    · cases h
    · cases h; exact ⟨rfl, rfl⟩
  · split at h
    · split at h
      · cases h
      · cases h; exact ⟨rfl, rfl⟩
    · cases h
  · split at h
    · cases h
    · split at h
      · cases h; exact ⟨rfl, rfl⟩
      · split at h
        · cases h
        · cases h; exact ⟨rfl, rfl⟩
  · split at h
    · cases h
    · split at h
      · cases h
      · cases h; exact ⟨rfl, rfl⟩

theorem mem_unsortedDiffs (rt : GoRuntime) (A B : SchemaInfo) (d : DiffResult) :
    d ∈ unsortedDiffs rt A B ↔
      (∃ k T, A.Tables.get? k = some T ∧ B.Tables.get? k = none ∧ d = addedTableDiff k T) ∨
      (∃ k T, B.Tables.get? k = some T ∧ A.Tables.get? k = none ∧ d = removedTableDiff k) ∨
      (∃ k S T, A.Tables.get? k = some S ∧ B.Tables.get? k = some T ∧
        d ∈ compareTableStructure rt k S T) := by
  simp only [unsortedDiffs, List.mem_append, List.mem_filterMap, List.mem_flatMap,
    GoMap.mem_range, or_assoc, Prod.exists]
  refine or_congr ?_ (or_congr ?_ ?_)
  · constructor
    · rintro ⟨k, T, hA, h⟩
      split at h
      · cases h
      · rename_i hc
        cases h
        exact ⟨k, T, hA, (GoMap.contains_eq_false_iff _ _).1 (by simpa using hc), rfl⟩
    · rintro ⟨k, T, hA, hB, rfl⟩
      exact ⟨k, T, hA, by simp [(GoMap.contains_eq_false_iff _ _).2 hB]⟩
  · constructor
    · rintro ⟨k, T, hB, h⟩
      split at h
      · cases h
      · rename_i hc
        cases h
        exact ⟨k, T, hB, (GoMap.contains_eq_false_iff _ _).1 (by simpa using hc), rfl⟩
    · rintro ⟨k, T, hB, hA, rfl⟩
      exact ⟨k, T, hB, by simp [(GoMap.contains_eq_false_iff _ _).2 hA]⟩
  · constructor
    · rintro ⟨k, S, hA, h⟩
      split at h
      · rename_i T hT
        exact ⟨k, S, T, hA, hT, h⟩
      · simp at h
    · rintro ⟨k, S, T, hA, hB, h⟩
      exact ⟨k, S, hA, by simpa [hB] using h⟩

theorem mem_CompareSchemas (rt : GoRuntime) (A B : SchemaInfo) (d : DiffResult) :
    d ∈ CompareSchemas rt A B ↔ d ∈ unsortedDiffs rt A B :=
  (rt.sortSlice_perm diffLess _).mem_iff

theorem exists_added_iff (rt : GoRuntime) (A B : SchemaInfo) (t : String) :
    (∃ d ∈ CompareSchemas rt A B, d.Type_ = "added" ∧ d.TableName = t) ↔
      (A.Tables.contains t = true ∧ B.Tables.contains t = false) := by
  constructor
  · rintro ⟨d, hd, hty, hname⟩
    rw [mem_CompareSchemas, mem_unsortedDiffs] at hd
    rcases hd with ⟨k, T, hA, hB, rfl⟩ | ⟨k, T, _, _, rfl⟩ | ⟨k, S, T, _, _, h⟩
    · cases hname
      exact ⟨GoMap.contains_of_get? _ _ _ hA, (GoMap.contains_eq_false_iff _ _).2 hB⟩
    · simp [removedTableDiff] at hty
    · have := (compareTableStructure_type rt k S T d h).1
      rw [this] at hty
      simp at hty
  · rintro ⟨hA, hB⟩
    obtain ⟨T, hT⟩ := Option.isSome_iff_exists.1 hA
    refine ⟨addedTableDiff t T, ?_, rfl, rfl⟩
    rw [mem_CompareSchemas, mem_unsortedDiffs]
    exact Or.inl ⟨t, T, hT, (GoMap.contains_eq_false_iff _ _).1 hB, rfl⟩

theorem exists_removed_iff (rt : GoRuntime) (A B : SchemaInfo) (t : String) :
    (∃ d ∈ CompareSchemas rt A B, d.Type_ = "removed" ∧ d.TableName = t) ↔
      (B.Tables.contains t = true ∧ A.Tables.contains t = false) := by
  constructor
  · rintro ⟨d, hd, hty, hname⟩
    rw [mem_CompareSchemas, mem_unsortedDiffs] at hd
    rcases hd with ⟨k, T, _, _, rfl⟩ | ⟨k, T, hB, hA, rfl⟩ | ⟨k, S, T, _, _, h⟩
    · simp [addedTableDiff] at hty
    · cases hname
      exact ⟨GoMap.contains_of_get? _ _ _ hB, (GoMap.contains_eq_false_iff _ _).2 hA⟩
    · have := (compareTableStructure_type rt k S T d h).1
      rw [this] at hty
      simp at hty
  · rintro ⟨hB, hA⟩
    obtain ⟨T, hT⟩ := Option.isSome_iff_exists.1 hB
    refine ⟨removedTableDiff t, ?_, rfl, rfl⟩
    rw [mem_CompareSchemas, mem_unsortedDiffs]
    exact Or.inr (Or.inl ⟨t, T, hT, (GoMap.contains_eq_false_iff _ _).1 hA, rfl⟩)

/-- Claim C3 (symmetry of kind): for all schemas `A` and `B` and every table
name `t`, `CompareSchemas(A, B)` contains an entry of kind "added" for `t`
if and only if `CompareSchemas(B, A)` contains an entry of kind "removed"
for `t`; the two calls may run under different iteration orders. -/
theorem added_iff_removed_swapped (rt1 rt2 : GoRuntime) (A B : SchemaInfo) (t : String) :
    (∃ d ∈ CompareSchemas rt1 A B, d.Type_ = "added" ∧ d.TableName = t) ↔
      (∃ d ∈ CompareSchemas rt2 B A, d.Type_ = "removed" ∧ d.TableName = t) := by
  rw [exists_added_iff, exists_removed_iff]

/-! ## The sort key of `CompareSchemas` -/

theorem stringLess_iff (a b : String) : stringLess a b = true ↔ a < b := by
  simp [stringLess, String.lt_iff_toList_lt]

theorem kindOfRank_kindRank (d : DiffResult) (h : KnownKind d) :
    kindOfRank (kindRank d.Type_) = d.Type_ := by
  rcases h with h | h | h <;> rw [h] <;> decide

theorem kindRank_inj (a b : DiffResult) (ha : KnownKind a) (hb : KnownKind b)
    (h : kindRank a.Type_ = kindRank b.Type_) : a.Type_ = b.Type_ := by
  rw [← kindOfRank_kindRank a ha, ← kindOfRank_kindRank b hb, h]

theorem diffLess_iff (a b : DiffResult) (ha : KnownKind a) (hb : KnownKind b) :
    diffLess a b = true ↔ sortKey a < sortKey b := by
  unfold diffLess sortKey
  rw [Prod.Lex.lt_iff]
  by_cases h : a.Type_ = b.Type_
  · simp [h, stringLess_iff]
  · have hne : kindRank a.Type_ ≠ kindRank b.Type_ := fun e => h (kindRank_inj a b ha hb e)
    simp [h, hne]

theorem diffLess_eq_false_iff (a b : DiffResult) (ha : KnownKind a) (hb : KnownKind b) :
    diffLess b a = false ↔ sortKey a ≤ sortKey b := by
  rw [← not_lt, ← diffLess_iff b a hb ha]
  simp

theorem strictWeakOn_diffLess (l : List DiffResult) (h : ∀ d ∈ l, KnownKind d) :
    StrictWeakOn diffLess l := by
  refine ⟨?_, ?_⟩
  · intro a ha b hb
    rw [diffLess_eq_false_iff b a (h b hb) (h a ha), diffLess_eq_false_iff a b (h a ha) (h b hb)]
    exact le_total _ _
  · intro a ha b hb c hc
    rw [diffLess_eq_false_iff a b (h a ha) (h b hb), diffLess_eq_false_iff b c (h b hb) (h c hc),
      diffLess_eq_false_iff a c (h a ha) (h c hc)]
    exact le_trans

theorem knownKind_unsortedDiffs (rt : GoRuntime) (A B : SchemaInfo) :
    ∀ d ∈ unsortedDiffs rt A B, KnownKind d := by
  intro d hd
  rw [mem_unsortedDiffs] at hd
  rcases hd with ⟨k, T, _, _, rfl⟩ | ⟨k, T, _, _, rfl⟩ | ⟨k, S, T, _, _, h⟩
  · exact Or.inl rfl
  · exact Or.inr (Or.inr rfl)
  · exact Or.inr (Or.inl (compareTableStructure_type rt k S T d h).1)

theorem knownKind_CompareSchemas (rt : GoRuntime) (A B : SchemaInfo) :
    ∀ d ∈ CompareSchemas rt A B, KnownKind d :=
  fun d hd => knownKind_unsortedDiffs rt A B d ((mem_CompareSchemas rt A B d).1 hd)

theorem sortKey_sorted (rt : GoRuntime) (A B : SchemaInfo) :
    (CompareSchemas rt A B).Pairwise (fun a b => sortKey a ≤ sortKey b) := by
  have h := rt.sortSlice_sorted diffLess (unsortedDiffs rt A B)
    (strictWeakOn_diffLess _ (knownKind_unsortedDiffs rt A B))
  refine List.Pairwise.imp_of_mem ?_ h
  intro a b ha hb hab
  exact (diffLess_eq_false_iff a b (knownKind_CompareSchemas rt A B a ha)
    (knownKind_CompareSchemas rt A B b hb)).1 hab

/-- Claim C5 (output order): for every pair of schemas the sequence returned by
`CompareSchemas` is sorted by kind rank (added 0, modified 1, removed 2) and,
among entries of the same rank, by table name ascending (strings ordered
lexicographically): this holds between any earlier and any later entry, and
in particular between any two adjacent ones. -/
theorem CompareSchemas_sorted (rt : GoRuntime) (source target : SchemaInfo) :
    (CompareSchemas rt source target).Pairwise (fun a b =>
        kindRank a.Type_ < kindRank b.Type_ ∨
          (kindRank a.Type_ = kindRank b.Type_ ∧ a.TableName ≤ b.TableName)) ∧
      (CompareSchemas rt source target).Chain' (fun a b =>
        kindRank a.Type_ < kindRank b.Type_ ∨
          (kindRank a.Type_ = kindRank b.Type_ ∧ a.TableName ≤ b.TableName)) := by
  have h : (CompareSchemas rt source target).Pairwise (fun a b =>
      kindRank a.Type_ < kindRank b.Type_ ∨
        (kindRank a.Type_ = kindRank b.Type_ ∧ a.TableName ≤ b.TableName)) := by
    refine (sortKey_sorted rt source target).imp ?_
    intro a b hab
    exact (Prod.Lex.le_iff _ _).1 hab
  exact ⟨h, List.Pairwise.chain' h⟩

theorem GoMap.range_perm_range {V : Type} (m : GoMap V) (o1 o2 : RangeOrder) :
    (m.range o1).Perm (m.range o2) :=
  (m.range_perm o1).trans (m.range_perm o2).symm

theorem compareTableStructure_perm (rt1 rt2 : GoRuntime) (tableName : String)
    (s t : TableInfo) :
    (compareTableStructure rt1 tableName s t).Perm (compareTableStructure rt2 tableName s t) := by
  unfold compareTableStructure addedColumns removedColumns modifiedColumns sourceIndexDiffs
    targetIndexDiffs
  exact ((((((GoMap.range_perm_range _ _ _).filterMap _).append
    ((GoMap.range_perm_range _ _ _).filterMap _)).append
    ((GoMap.range_perm_range _ _ _).filterMap _)).append
    ((GoMap.range_perm_range _ _ _).filterMap _)).append
    ((GoMap.range_perm_range _ _ _).filterMap _))

theorem unsortedDiffs_perm (rt1 rt2 : GoRuntime) (A B : SchemaInfo) :
    (unsortedDiffs rt1 A B).Perm (unsortedDiffs rt2 A B) := by
  unfold unsortedDiffs
  refine ((((GoMap.range_perm_range _ _ _).filterMap _).append
    ((GoMap.range_perm_range _ _ _).filterMap _)).append ?_)
  refine ((GoMap.range_perm_range _ (rt1.mapOrder 273 "") (rt2.mapOrder 273 "")).flatMap_right
    _).trans ?_
  apply List.Perm.flatMap_left
  intro e _
  cases B.Tables.get? e.1 with
  | none => exact List.Perm.refl _
  | some T => exact compareTableStructure_perm rt1 rt2 e.1 e.2 T

theorem CompareSchemas_perm (rt1 rt2 : GoRuntime) (A B : SchemaInfo) :
    (CompareSchemas rt1 A B).Perm (CompareSchemas rt2 A B) :=
  ((rt1.sortSlice_perm diffLess _).trans (unsortedDiffs_perm rt1 rt2 A B)).trans
    (rt2.sortSlice_perm diffLess _).symm

theorem map_sortKey_eq (rt1 rt2 : GoRuntime) (A B : SchemaInfo) :
    (CompareSchemas rt1 A B).map sortKey = (CompareSchemas rt2 A B).map sortKey := by
  apply List.eq_of_perm_of_sorted ((CompareSchemas_perm rt1 rt2 A B).map sortKey)
    (r := fun a b : Lex (ℕ × String) => a ≤ b)
  · exact List.pairwise_map.2 (sortKey_sorted rt1 A B)
  · exact List.pairwise_map.2 (sortKey_sorted rt2 A B)

theorem map_kind_name_eq_of_known (l : List DiffResult) (h : ∀ d ∈ l, KnownKind d) :
    l.map (fun d => (d.Type_, d.TableName)) =
      (l.map sortKey).map (fun k => (kindOfRank (ofLex k).1, (ofLex k).2)) := by
  rw [List.map_map]
  apply List.map_congr_left
  intro d hd
  simp [sortKey, kindOfRank_kindRank d (h d hd)]

/-- Claim C4, as stated, fails: on the same two schemas, a call in which the
column map of `t` is visited `a` before `b` and a call in which it is visited
`b` before `a` return the two "Add column" entries in opposite orders (the
sort compares kind and table name only, and both entries tie). -/
theorem CompareSchemas_not_deterministic :
    (CompareSchemas GoRuntime.plain twoNewColumnsSource twoNewColumnsTarget).map (·.Detail) =
        ["Add column: a", "Add column: b"] ∧
      (CompareSchemas GoRuntime.backwards twoNewColumnsSource twoNewColumnsTarget).map
        (·.Detail) = ["Add column: b", "Add column: a"] ∧
      CompareSchemas GoRuntime.plain twoNewColumnsSource twoNewColumnsTarget ≠
        CompareSchemas GoRuntime.backwards twoNewColumnsSource twoNewColumnsTarget := by
  decide

/-- Claim C4, amended: for every pair of schemas, two calls of `CompareSchemas`
on the same inputs return the same entries with the same multiplicities
(byte-identical Type, TableName, Detail and SQL), i.e. one result is a
permutation of the other, and the two results show the same sequence of
(Type, TableName) pairs; only the relative order of entries that share Type
and TableName can differ between calls. -/
theorem CompareSchemas_deterministic_up_to_ties (rt1 rt2 : GoRuntime)
    (source target : SchemaInfo) :
    (CompareSchemas rt1 source target).Perm (CompareSchemas rt2 source target) ∧
      (CompareSchemas rt1 source target).map (fun d => (d.Type_, d.TableName)) =
        (CompareSchemas rt2 source target).map (fun d => (d.Type_, d.TableName)) := by
  refine ⟨CompareSchemas_perm rt1 rt2 source target, ?_⟩
  rw [map_kind_name_eq_of_known _ (knownKind_CompareSchemas rt1 source target),
    map_kind_name_eq_of_known _ (knownKind_CompareSchemas rt2 source target),
    map_sortKey_eq rt1 rt2 source target]

theorem detailStage_addColumnDiff (t : String) (s : TableInfo) (c : String) (sc : ColumnInfo) :
    detailStage (addColumnDiff t s c sc) = 0 := by
  simp [detailStage, addColumnDiff, hasPrefix, List.isPrefixOf]

theorem detailStage_dropColumnDiff (t c : String) : detailStage (dropColumnDiff t c) = 1 := by
  simp [detailStage, dropColumnDiff, hasPrefix, List.isPrefixOf]

theorem detailStage_modifyColumnDiff (t c : String) (sc tc : ColumnInfo) :
    detailStage (modifyColumnDiff t c sc tc) = 2 := by
  simp [detailStage, modifyColumnDiff, hasPrefix, List.isPrefixOf]

theorem detailStage_addIndexDiff (t n : String) (cols : List String) :
    detailStage (addIndexDiff t n cols) = 3 := by
  simp [detailStage, addIndexDiff, hasPrefix, List.isPrefixOf]

theorem detailStage_recreateIndexDiff (t n : String) (cols : List String) :
    detailStage (recreateIndexDiff t n cols) = 4 := by
  simp [detailStage, recreateIndexDiff, hasPrefix, List.isPrefixOf]

theorem detailStage_dropIndexDiff (t n : String) : detailStage (dropIndexDiff t n) = 5 := by
  simp [detailStage, dropIndexDiff, hasPrefix, List.isPrefixOf]

theorem filter_flatMap' {α β : Type} (p : β → Bool) (f : α → List β) (l : List α) :
    (l.flatMap f).filter p = l.flatMap (fun a => (f a).filter p) := by
  induction l with
  | nil => rfl
  | cons a l ih => simp [List.flatMap_cons, List.filter_append, ih]

theorem flatMap_unique_key {V β : Type} (g : String × V → List β) (t : String) (v : V) :
    ∀ l : List (String × V), (l.map Prod.fst).Nodup → (t, v) ∈ l →
      (∀ e ∈ l, e.1 ≠ t → g e = []) → l.flatMap g = g (t, v) := by
  intro l
  induction l with
  | nil => intro _ h; simp at h
  | cons e l ih =>
    intro hnd hmem hg
    rw [List.map_cons, List.nodup_cons] at hnd
    rw [List.flatMap_cons]
    rcases List.mem_cons.1 hmem with heq | hmem'
    · subst heq
      have : l.flatMap g = [] := by
        rw [List.flatMap_eq_nil_iff]
        intro x hx
        apply hg x (List.mem_cons_of_mem _ hx)
        intro hxt
        exact hnd.1 (List.mem_map.2 ⟨x, hx, hxt⟩)
      rw [this, List.append_nil]
    · have het : e.1 ≠ t := by
        intro h
        exact hnd.1 (List.mem_map.2 ⟨(t, v), hmem', h.symm⟩)
      rw [hg e (List.mem_cons_self _ _) het, List.nil_append]
      exact ih hnd.2 hmem' (fun x hx => hg x (List.mem_cons_of_mem _ hx))

theorem filter_compareTableStructure (rt : GoRuntime) (k t : String) (S T : TableInfo) :
    (compareTableStructure rt k S T).filter (isModifiedOf t) =
      if k = t then compareTableStructure rt k S T else [] := by
  split
  · rename_i h
    rw [List.filter_eq_self]
    intro d hd
    have := compareTableStructure_type rt k S T d hd
    simp [isModifiedOf, this.1, this.2, h]
  · rename_i h
    rw [List.filter_eq_nil_iff]
    intro d hd
    have := compareTableStructure_type rt k S T d hd
    simp [isModifiedOf, this.2, h]

theorem filter_unsortedDiffs (rt : GoRuntime) (A B : SchemaInfo) (t : String) (S T : TableInfo)
    (hA : A.Tables.get? t = some S) (hB : B.Tables.get? t = some T) :
    (unsortedDiffs rt A B).filter (isModifiedOf t) = compareTableStructure rt t S T := by
  unfold unsortedDiffs
  rw [List.filter_append, List.filter_append]
  have h1 : ((A.Tables.range (rt.mapOrder 249 "")).filterMap (fun e =>
      if B.Tables.contains e.1 then none else some (addedTableDiff e.1 e.2))).filter
        (isModifiedOf t) = [] := by
    rw [List.filter_eq_nil_iff]
    intro d hd
    simp only [List.mem_filterMap] at hd
    obtain ⟨e, _, h⟩ := hd
    split at h
    · cases h
    · cases h
      simp [isModifiedOf, addedTableDiff]
  have h2 : ((B.Tables.range (rt.mapOrder 261 "")).filterMap (fun e =>
      if A.Tables.contains e.1 then none else some (removedTableDiff e.1))).filter
        (isModifiedOf t) = [] := by
    rw [List.filter_eq_nil_iff]
    intro d hd
    simp only [List.mem_filterMap] at hd
    obtain ⟨e, _, h⟩ := hd
    split at h
    · cases h
    · cases h
      simp [isModifiedOf, removedTableDiff]
  rw [h1, h2, List.nil_append, List.nil_append, filter_flatMap']
  rw [flatMap_unique_key _ t S _ (GoMap.range_keys_nodup _ _)
    ((GoMap.mem_range _ _ (t, S)).2 hA)]
  · simp only [hB]
    rw [filter_compareTableStructure, if_pos rfl]
  · intro e _ het
    cases B.Tables.get? e.1 with
    | none => rfl
    | some T' =>
      simp only
      rw [filter_compareTableStructure, if_neg het]

theorem loopStage_addedColumns (o : RangeOrder) (t : String) (s : TableInfo)
    (sm tm : GoMap ColumnInfo) : ∀ d ∈ addedColumns o t s sm tm, loopStage d = 0 := by
  intro d hd
  simp only [addedColumns, List.mem_filterMap] at hd
  obtain ⟨e, _, h⟩ := hd
  split at h
  · cases h
  · cases h; simp [loopStage, detailStage_addColumnDiff]

theorem loopStage_removedColumns (o : RangeOrder) (t : String)
    (sm tm : GoMap ColumnInfo) : ∀ d ∈ removedColumns o t sm tm, loopStage d = 1 := by
  intro d hd
  simp only [removedColumns, List.mem_filterMap] at hd
  obtain ⟨e, _, h⟩ := hd
  split at h
  · cases h
  · cases h; simp [loopStage, detailStage_dropColumnDiff]

theorem loopStage_modifiedColumns (o : RangeOrder) (t : String)
    (sm tm : GoMap ColumnInfo) : ∀ d ∈ modifiedColumns o t sm tm, loopStage d = 2 := by
  intro d hd
  simp only [modifiedColumns, List.mem_filterMap] at hd
  obtain ⟨e, _, h⟩ := hd
  split at h
  · split at h
    · cases h
    · cases h; simp [loopStage, detailStage_modifyColumnDiff]
  · cases h

theorem loopStage_sourceIndexDiffs (o : RangeOrder) (t : String)
    (sm tm : GoMap (List String)) : ∀ d ∈ sourceIndexDiffs o t sm tm, loopStage d = 3 := by
  intro d hd
  simp only [sourceIndexDiffs, List.mem_filterMap] at hd
  obtain ⟨e, _, h⟩ := hd
  split at h
  · cases h
  · split at h
    · cases h; simp [loopStage, detailStage_addIndexDiff]
    · split at h
      · cases h
      · cases h; simp [loopStage, detailStage_recreateIndexDiff]

theorem loopStage_targetIndexDiffs (o : RangeOrder) (t : String)
    (sm tm : GoMap (List String)) : ∀ d ∈ targetIndexDiffs o t sm tm, loopStage d = 4 := by
  intro d hd
  simp only [targetIndexDiffs, List.mem_filterMap] at hd
  obtain ⟨e, _, h⟩ := hd
  split at h
  · cases h
  · split at h
    · cases h
    · cases h; simp [loopStage, detailStage_dropIndexDiff]

theorem pairwise_of_const_stage {l : List DiffResult} {n : Nat}
    (h : ∀ d ∈ l, loopStage d = n) : l.Pairwise (fun a b => loopStage a ≤ loopStage b) :=
  List.pairwise_of_forall_mem_list (fun a ha b hb => by rw [h a ha, h b hb])

theorem compareTableStructure_loopStage (rt : GoRuntime) (t : String) (S T : TableInfo) :
    (compareTableStructure rt t S T).Pairwise (fun a b => loopStage a ≤ loopStage b) := by
  unfold compareTableStructure
  have h0 := loopStage_addedColumns (rt.mapOrder 306 t) t S (buildColMap S.Columns)
    (buildColMap T.Columns)
  have h1 := loopStage_removedColumns (rt.mapOrder 330 t) t (buildColMap S.Columns)
    (buildColMap T.Columns)
  have h2 := loopStage_modifiedColumns (rt.mapOrder 342 t) t (buildColMap S.Columns)
    (buildColMap T.Columns)
  have h3 := loopStage_sourceIndexDiffs (rt.mapOrder 359 t) t (buildIndexMap S.Indexes)
    (buildIndexMap T.Indexes)
  have h4 := loopStage_targetIndexDiffs (rt.mapOrder 380 t) t (buildIndexMap S.Indexes)
    (buildIndexMap T.Indexes)
  simp only [List.pairwise_append, List.mem_append]
  refine ⟨⟨⟨⟨pairwise_of_const_stage h0, pairwise_of_const_stage h1, ?_⟩,
    pairwise_of_const_stage h2, ?_⟩, pairwise_of_const_stage h3, ?_⟩,
    pairwise_of_const_stage h4, ?_⟩
  · intro a ha b hb
    rw [h0 a ha, h1 b hb]; decide
  · rintro a (ha | ha) b hb
    · rw [h0 a ha, h2 b hb]; decide
    · rw [h1 a ha, h2 b hb]; decide
  · rintro a ((ha | ha) | ha) b hb
    · rw [h0 a ha, h3 b hb]; decide
    · rw [h1 a ha, h3 b hb]; decide
    · rw [h2 a ha, h3 b hb]; decide
  · rintro a (((ha | ha) | ha) | ha) b hb
    · rw [h0 a ha, h4 b hb]; decide
    · rw [h1 a ha, h4 b hb]; decide
    · rw [h2 a ha, h4 b hb]; decide
    · rw [h3 a ha, h4 b hb]; decide

/-- Claim C6, as stated, fails: when the source index map is visited `i1`
before `i2`, the "Recreate index" entry of `i1` is appended before the
"Add index" entry of `i2` (one loop appends both), and the output keeps that
order, so the entries of `t` are not in the listed order. -/
theorem recreate_index_before_add_index :
    (CompareSchemas GoRuntime.plain indexOrderSource indexOrderTarget).map (·.Detail) =
        ["Recreate index: i1", "Add index: i2"] ∧
      ¬ ((CompareSchemas GoRuntime.plain indexOrderSource indexOrderTarget).filter
          (isModifiedOf "t")).Pairwise (fun a b => detailStage a ≤ detailStage b) := by
  decide

/-- Claim C6, amended: for every pair of schemas and every common table `t`,
if the final sort leaves the "modified" entries of `t` in the order in which
they were appended (`sort.Slice` does not promise to), then they appear in the
output in the order: all Add column entries, then all Drop column entries,
then all Modify column entries, then the Add index and Recreate index entries
(in one block, mixed in the order the source index map is visited), then all
Drop index entries. -/
theorem modified_entries_in_loop_order (rt : GoRuntime) (source target : SchemaInfo)
    (t : String) (S T : TableInfo)
    (hS : source.Tables.get? t = some S) (hT : target.Tables.get? t = some T)
    (hstable : (CompareSchemas rt source target).filter (isModifiedOf t) =
      (unsortedDiffs rt source target).filter (isModifiedOf t)) :
    ((CompareSchemas rt source target).filter (isModifiedOf t)).Pairwise
      (fun a b => loopStage a ≤ loopStage b) := by
  rw [hstable, filter_unsortedDiffs rt source target t S T hS hT]
  exact compareTableStructure_loopStage rt t S T

/-- The amended C6 applies to the index-order example: there the sort keeps
the appended order, and the Recreate entry precedes the Add entry inside the
one block of the source index loop. -/
theorem modified_entries_in_loop_order_witness :
    ((CompareSchemas GoRuntime.plain indexOrderSource indexOrderTarget).filter
      (isModifiedOf "t")).Pairwise (fun a b => loopStage a ≤ loopStage b) :=
  modified_entries_in_loop_order GoRuntime.plain indexOrderSource indexOrderTarget "t"
    indexOrderSourceTable indexOrderTargetTable (by decide) (by decide) (by decide)

theorem filter_filterMap_eq_flatMap {α β : Type} (f : α → Option β) (p : β → Bool)
    (l : List α) :
    (l.filterMap f).filter p = l.flatMap (fun a => (f a).toList.filter p) := by
  induction l with
  | nil => rfl
  | cons a l ih =>
    rw [List.flatMap_cons, ← ih]
    cases h : f a with
    | none => simp [List.filterMap_cons, h]
    | some b =>
      simp only [List.filterMap_cons, h, List.filter_cons, Option.toList]
      split <;> simp

theorem filter_filterMap_unique_key {V β : Type} (f : String × V → Option β) (p : β → Bool)
    (t : String) (v : V) (l : List (String × V)) (hnd : (l.map Prod.fst).Nodup)
    (hmem : (t, v) ∈ l)
    (hother : ∀ e ∈ l, e.1 ≠ t → ∀ y, f e = some y → p y = false) :
    (l.filterMap f).filter p = (f (t, v)).toList.filter p := by
  rw [filter_filterMap_eq_flatMap]
  apply flatMap_unique_key (fun a => (f a).toList.filter p) t v l hnd hmem
  intro e he het
  cases h : f e with
  | none => rfl
  | some y => simp [hother e he het y h]

theorem filter_isAddedOf_unsortedDiffs (rt : GoRuntime) (A B : SchemaInfo) (k : String)
    (S : TableInfo) (hA : A.Tables.get? k = some S) (hB : B.Tables.get? k = none) :
    (unsortedDiffs rt A B).filter (isAddedOf k) = [addedTableDiff k S] := by
  unfold unsortedDiffs
  rw [List.filter_append, List.filter_append]
  have h2 : ((B.Tables.range (rt.mapOrder 261 "")).filterMap (fun e =>
      if A.Tables.contains e.1 then none else some (removedTableDiff e.1))).filter
        (isAddedOf k) = [] := by
    rw [List.filter_eq_nil_iff]
    intro d hd
    simp only [List.mem_filterMap] at hd
    obtain ⟨e, _, h⟩ := hd
    split at h
    · cases h
    · cases h
      simp [isAddedOf, removedTableDiff]
  have h3 : ((A.Tables.range (rt.mapOrder 273 "")).flatMap (fun e =>
      match B.Tables.get? e.1 with
      | some targetTable => compareTableStructure rt e.1 e.2 targetTable
      | none => [])).filter (isAddedOf k) = [] := by
    rw [List.filter_eq_nil_iff]
    intro d hd
    simp only [List.mem_flatMap] at hd
    obtain ⟨e, _, h⟩ := hd
    split at h
    · have := (compareTableStructure_type rt _ _ _ d h).1
      simp [isAddedOf, this]
    · simp at h
  rw [h2, h3, List.append_nil, List.append_nil]
  rw [filter_filterMap_unique_key _ _ k S _ (GoMap.range_keys_nodup _ _)
    ((GoMap.mem_range _ _ (k, S)).2 hA)]
  · simp [(GoMap.contains_eq_false_iff _ _).2 hB, isAddedOf, addedTableDiff]
  · intro e _ hek y hy
    split at hy
    · cases hy
    · cases hy
      simp [isAddedOf, addedTableDiff, hek]

theorem filter_isRemovedOf_unsortedDiffs (rt : GoRuntime) (A B : SchemaInfo) (k : String)
    (T : TableInfo) (hB : B.Tables.get? k = some T) (hA : A.Tables.get? k = none) :
    (unsortedDiffs rt A B).filter (isRemovedOf k) = [removedTableDiff k] := by
  unfold unsortedDiffs
  rw [List.filter_append, List.filter_append]
  have h1 : ((A.Tables.range (rt.mapOrder 249 "")).filterMap (fun e =>
      if B.Tables.contains e.1 then none else some (addedTableDiff e.1 e.2))).filter
        (isRemovedOf k) = [] := by
    rw [List.filter_eq_nil_iff]
    intro d hd
    simp only [List.mem_filterMap] at hd
    obtain ⟨e, _, h⟩ := hd
    split at h
    · cases h
    · cases h
      simp [isRemovedOf, addedTableDiff]
  have h3 : ((A.Tables.range (rt.mapOrder 273 "")).flatMap (fun e =>
      match B.Tables.get? e.1 with
      | some targetTable => compareTableStructure rt e.1 e.2 targetTable
      | none => [])).filter (isRemovedOf k) = [] := by
    rw [List.filter_eq_nil_iff]
    intro d hd
    simp only [List.mem_flatMap] at hd
    obtain ⟨e, _, h⟩ := hd
    split at h
    · have := (compareTableStructure_type rt _ _ _ d h).1
      simp [isRemovedOf, this]
    · simp at h
  rw [h1, h3, List.append_nil, List.nil_append]
  rw [filter_filterMap_unique_key _ _ k T _ (GoMap.range_keys_nodup _ _)
    ((GoMap.mem_range _ _ (k, T)).2 hB)]
  · simp [(GoMap.contains_eq_false_iff _ _).2 hA, isRemovedOf, removedTableDiff]
  · intro e _ hek y hy
    split at hy
    · cases hy
    · cases hy
      simp [isRemovedOf, removedTableDiff, hek]

theorem filter_CompareSchemas_eq_singleton (rt : GoRuntime) (A B : SchemaInfo)
    (p : DiffResult → Bool) (x : DiffResult) (h : (unsortedDiffs rt A B).filter p = [x]) :
    (CompareSchemas rt A B).filter p = [x] := by
  apply List.perm_singleton.1
  rw [← h]
  exact (rt.sortSlice_perm diffLess _).filter p

theorem unsortedDiffs_only_removed (rt : GoRuntime) (A B : SchemaInfo) (k : String)
    (T : TableInfo) (hA : A.Tables.get? k = none) (hB : B.Tables.get? k = some T)
    (hrest : ∀ k', k' ≠ k → B.Tables.get? k' = A.Tables.get? k') :
    unsortedDiffs rt A B = [removedTableDiff k] := by
  have hne : ∀ e : String × TableInfo, A.Tables.get? e.1 = some e.2 → e.1 ≠ k := by
    intro e he hek
    rw [hek, hA] at he
    cases he
  have h := filter_isRemovedOf_unsortedDiffs rt A B k T hB hA
  have hall : (unsortedDiffs rt A B).filter (isRemovedOf k) = unsortedDiffs rt A B := by
    rw [List.filter_eq_self]
    intro d hd
    rw [mem_unsortedDiffs] at hd
    rcases hd with ⟨k', S, hA', hB', rfl⟩ | ⟨k', T', hB', hA', rfl⟩ | ⟨k', S, T', hA', hB', hd⟩
    · have := hrest k' (hne (k', S) hA')
      rw [hA', hB'] at this
      cases this
    · by_cases hk : k' = k
      · simp [isRemovedOf, removedTableDiff, hk]
      · have := hrest k' hk
        rw [hA', hB'] at this
        cases this
    · have := hrest k' (hne (k', S) hA')
      rw [hA', hB'] at this
      cases this
      rw [compareTableStructure_self] at hd
      cases hd
  rw [← hall, h]

/-- Claim C7 (table-level differences): for every pair of schemas, each table
name present in source and absent in target has exactly one "added" entry,
whose SQL is the source table's creation statement followed by ";"; each
table name present in target and absent in source has exactly one "removed"
entry, whose SQL is "DROP TABLE `<name>`;"; every added or removed entry is
one of these; and when the only difference is a table `audit_log` present in
target and absent in source, the result is the single removed entry with SQL
"DROP TABLE `audit_log`;". -/
theorem table_level_entries (rt : GoRuntime) (source target : SchemaInfo) :
    (∀ k S, source.Tables.get? k = some S → target.Tables.get? k = none →
      (CompareSchemas rt source target).filter (isAddedOf k) =
        [{ Type_ := "added", TableName := k,
           Detail := "Table exists in source but not in target",
           SQL := S.CreateSQL ++ ";" }]) ∧
    (∀ k T, target.Tables.get? k = some T → source.Tables.get? k = none →
      (CompareSchemas rt source target).filter (isRemovedOf k) =
        [{ Type_ := "removed", TableName := k,
           Detail := "Table exists in target but not in source",
           SQL := "DROP TABLE `" ++ k ++ "`;" }]) ∧
    (∀ d ∈ CompareSchemas rt source target, d.Type_ = "added" →
      source.Tables.contains d.TableName = true ∧
        target.Tables.contains d.TableName = false) ∧
    (∀ d ∈ CompareSchemas rt source target, d.Type_ = "removed" →
      target.Tables.contains d.TableName = true ∧
        source.Tables.contains d.TableName = false) ∧
    (∀ T, source.Tables.get? "audit_log" = none →
      target.Tables.get? "audit_log" = some T →
      (∀ k, k ≠ "audit_log" → target.Tables.get? k = source.Tables.get? k) →
      CompareSchemas rt source target =
        [{ Type_ := "removed", TableName := "audit_log",
           Detail := "Table exists in target but not in source",
           SQL := "DROP TABLE `audit_log`;" }]) := by
  refine ⟨?_, ?_, ?_, ?_, ?_⟩
  · intro k S hA hB
    exact filter_CompareSchemas_eq_singleton rt source target _ _
      (filter_isAddedOf_unsortedDiffs rt source target k S hA hB)
  · intro k T hB hA
    exact filter_CompareSchemas_eq_singleton rt source target _ _
      (filter_isRemovedOf_unsortedDiffs rt source target k T hB hA)
  · intro d hd hty
    exact (exists_added_iff rt source target d.TableName).1 ⟨d, hd, hty, rfl⟩
  · intro d hd hty
    exact (exists_removed_iff rt source target d.TableName).1 ⟨d, hd, hty, rfl⟩
  · intro T hA hB hrest
    have h := unsortedDiffs_only_removed rt source target "audit_log" T hA hB hrest
    have hlit : removedTableDiff "audit_log" =
        { Type_ := "removed", TableName := "audit_log",
          Detail := "Table exists in target but not in source",
          SQL := "DROP TABLE `audit_log`;" } := by decide
    unfold CompareSchemas
    rw [h, hlit]
    exact List.perm_singleton.1 (rt.sortSlice_perm diffLess _)

/-- Scenario 2 as an instance of C7: the target has the extra table
`audit_log`, and the result is the one DROP TABLE entry. -/
theorem table_level_entries_witness :
    CompareSchemas GoRuntime.plain auditScenarioSource auditScenarioTarget =
      [{ Type_ := "removed", TableName := "audit_log",
         Detail := "Table exists in target but not in source",
         SQL := "DROP TABLE `audit_log`;" }] :=
  (table_level_entries GoRuntime.plain auditScenarioSource auditScenarioTarget).2.2.2.2
    auditLogTable (by decide) (by decide)
    (fun k hk => by
      have hk' : ¬ "audit_log" = k := fun e => hk e.symm
      simp [auditScenarioSource, auditScenarioTarget, GoMap.ofList, GoMap.get?, GoMap.set,
        GoMap.empty, setEntries, getEntries, hk'])

/-! ## Columns of a common table -/

theorem get?_foldl_set (cols : List ColumnInfo) (m : GoMap ColumnInfo) (c : String) :
    (cols.foldl (fun m col => m.set col.Name col) m).get? c =
      match columnNamed cols c with
      | some x => some x
      | none => m.get? c := by
  induction cols generalizing m with
  | nil => rfl
  | cons col rest ih =>
    rw [List.foldl_cons, ih, columnNamed]
    cases columnNamed rest c with
    | some x => rfl
    | none =>
      simp only [GoMap.get?_set]
      split <;> rfl

theorem get?_buildColMap (cols : List ColumnInfo) (c : String) :
    (buildColMap cols).get? c = columnNamed cols c := by
  unfold buildColMap
  rw [get?_foldl_set]
  cases columnNamed cols c <;> rfl

theorem columnNamed_eq_none_iff (cols : List ColumnInfo) (c : String) :
    columnNamed cols c = none ↔ c ∉ cols.map (·.Name) := by
  induction cols with
  | nil => simp [columnNamed]
  | cons col rest ih =>
    rw [columnNamed]
    cases h : columnNamed rest c with
    | some x =>
      have : ¬ (c ∉ rest.map (·.Name)) := fun hn => by
        rw [← ih, h] at hn
        cases hn
      simp only [List.map_cons, List.mem_cons, not_or]
      constructor
      · intro h'; cases h'
      · intro h'; exact absurd h'.2 this
    | none =>
      have hr : c ∉ rest.map (·.Name) := ih.1 h
      by_cases hc : col.Name = c
      · simp [hc]
      · have hc' : ¬ c = col.Name := fun e => hc e.symm
        simp only [hc, if_false, List.map_cons, List.mem_cons, not_or, true_iff]
        exact ⟨hc', hr⟩

theorem mem_keys_buildColMap (cols : List ColumnInfo) (c : String) :
    c ∈ (buildColMap cols).keys ↔ c ∈ cols.map (·.Name) := by
  rw [← not_iff_not, ← GoMap.get?_eq_none_iff, get?_buildColMap, columnNamed_eq_none_iff]

theorem filterMap_filter_of_none {α β : Type} (G : α → Option β) (p : α → Bool)
    (l : List α) (h : ∀ a ∈ l, p a = false → G a = none) :
    l.filterMap G = (l.filter p).filterMap G := by
  induction l with
  | nil => rfl
  | cons a l ih =>
    have ih' := ih (fun x hx => h x (List.mem_cons_of_mem _ hx))
    cases hp : p a with
    | true => simp [List.filter_cons, hp, List.filterMap_cons, ih']
    | false =>
      simp [List.filter_cons, hp, List.filterMap_cons, h a (List.mem_cons_self _ _) hp, ih']

theorem filterMap_names_perm_range {V β : Type} (m : GoMap V) (o : RangeOrder)
    (names : List String) (hnd : names.Nodup) (hsub : ∀ k ∈ m.keys, k ∈ names)
    (h : String × V → Option β) :
    (names.filterMap (fun c => (m.get? c).bind (fun v => h (c, v)))).Perm
      ((m.range o).filterMap h) := by
  rw [filterMap_filter_of_none _ (fun c => m.contains c) names]
  · have hperm : (names.filter (fun c => m.contains c)).Perm m.keys := by
      apply (List.perm_ext_iff_of_nodup (hnd.filter _) m.nodup).2
      intro c
      simp only [List.mem_filter, GoMap.contains_iff]
      exact ⟨fun hc => hc.2, fun hc => ⟨hsub c hc, hc⟩⟩
    refine (hperm.filterMap _).trans ?_
    refine List.Perm.trans (List.Perm.of_eq ?_) ((m.range_perm o).symm.filterMap h)
    unfold GoMap.keys
    rw [List.filterMap_map]
    apply List.filterMap_congr
    intro e he
    simp [(m.get?_eq_some_iff e.1 e.2).2 he]
  · intro c _ hc
    rw [GoMap.contains_eq_false_iff] at hc
    simp [hc]

theorem filterMap_perm_append3 {α β : Type} (l : List α) (g f1 f2 f3 : α → Option β)
    (h : ∀ a ∈ l, (g a).toList = (f1 a).toList ++ (f2 a).toList ++ (f3 a).toList) :
    (l.filterMap g).Perm (l.filterMap f1 ++ l.filterMap f2 ++ l.filterMap f3) := by
  simp only [List.filterMap_eq_flatMap_toList]
  refine List.Perm.trans ?_
    (((List.flatMap_append_perm l (fun a => (f1 a).toList) (fun a => (f2 a).toList)).append_right
      _).trans (List.flatMap_append_perm l _ (fun a => (f3 a).toList))).symm
  apply List.Perm.flatMap_left
  intro a ha
  rw [h a ha]

theorem filter_isColumnEntry_compareTableStructure (rt : GoRuntime) (t : String)
    (S T : TableInfo) :
    (compareTableStructure rt t S T).filter isColumnEntry =
      addedColumns (rt.mapOrder 306 t) t S (buildColMap S.Columns) (buildColMap T.Columns) ++
      removedColumns (rt.mapOrder 330 t) t (buildColMap S.Columns) (buildColMap T.Columns) ++
      modifiedColumns (rt.mapOrder 342 t) t (buildColMap S.Columns) (buildColMap T.Columns) := by
  unfold compareTableStructure
  have h0 := loopStage_addedColumns (rt.mapOrder 306 t) t S (buildColMap S.Columns)
    (buildColMap T.Columns)
  have h1 := loopStage_removedColumns (rt.mapOrder 330 t) t (buildColMap S.Columns)
    (buildColMap T.Columns)
  have h2 := loopStage_modifiedColumns (rt.mapOrder 342 t) t (buildColMap S.Columns)
    (buildColMap T.Columns)
  have h3 := loopStage_sourceIndexDiffs (rt.mapOrder 359 t) t (buildIndexMap S.Indexes)
    (buildIndexMap T.Indexes)
  have h4 := loopStage_targetIndexDiffs (rt.mapOrder 380 t) t (buildIndexMap S.Indexes)
    (buildIndexMap T.Indexes)
  simp only [List.filter_append]
  rw [List.filter_eq_self.2 (fun d hd => by simp [isColumnEntry, h0 d hd]),
    List.filter_eq_self.2 (fun d hd => by simp [isColumnEntry, h1 d hd]),
    List.filter_eq_self.2 (fun d hd => by simp [isColumnEntry, h2 d hd]),
    List.filter_eq_nil_iff.2 (fun d hd => by simp [isColumnEntry, h3 d hd]),
    List.filter_eq_nil_iff.2 (fun d hd => by simp [isColumnEntry, h4 d hd]),
    List.append_nil, List.append_nil]

theorem columnEntry_toList (t : String) (S T : TableInfo) (c : String) :
    (columnEntry t S T c).toList =
      (((buildColMap S.Columns).get? c).bind (fun v =>
        if (buildColMap T.Columns).contains c then none
        else some (addColumnDiff t S c v))).toList ++
      (((buildColMap T.Columns).get? c).bind (fun _ =>
        if (buildColMap S.Columns).contains c then none
        else some (dropColumnDiff t c))).toList ++
      (((buildColMap S.Columns).get? c).bind (fun v =>
        match (buildColMap T.Columns).get? c with
        | some targetCol =>
          if columnsEqual v targetCol then none
          else some (modifyColumnDiff t c v targetCol)
        | none => none)).toList := by
  simp only [GoMap.contains, get?_buildColMap, columnEntry]
  cases columnNamed S.Columns c <;> cases columnNamed T.Columns c
  · simp
  · simp
  · simp
  · rename_i sc tc
    cases columnsEqual sc tc <;> simp

theorem columns_perm_columnEntry (rt : GoRuntime) (t : String) (S T : TableInfo) :
    (addedColumns (rt.mapOrder 306 t) t S (buildColMap S.Columns) (buildColMap T.Columns) ++
      removedColumns (rt.mapOrder 330 t) t (buildColMap S.Columns) (buildColMap T.Columns) ++
      modifiedColumns (rt.mapOrder 342 t) t (buildColMap S.Columns)
        (buildColMap T.Columns)).Perm
      ((columnNames S T).filterMap (columnEntry t S T)) := by
  have hnd : (columnNames S T).Nodup := List.nodup_dedup _
  have hsubS : ∀ k ∈ (buildColMap S.Columns).keys, k ∈ columnNames S T := by
    intro k hk
    rw [mem_keys_buildColMap] at hk
    exact List.mem_dedup.2 (List.mem_append_left _ hk)
  have hsubT : ∀ k ∈ (buildColMap T.Columns).keys, k ∈ columnNames S T := by
    intro k hk
    rw [mem_keys_buildColMap] at hk
    exact List.mem_dedup.2 (List.mem_append_right _ hk)
  refine List.Perm.symm ((filterMap_perm_append3 _ _ _ _ _
    (fun c _ => columnEntry_toList t S T c)).trans ?_)
  exact ((filterMap_names_perm_range (buildColMap S.Columns) (rt.mapOrder 306 t) _ hnd hsubS
      (fun e => if (buildColMap T.Columns).contains e.1 then none
        else some (addColumnDiff t S e.1 e.2))).append
    (filterMap_names_perm_range (buildColMap T.Columns) (rt.mapOrder 330 t) _ hnd hsubT
      (fun e => if (buildColMap S.Columns).contains e.1 then none
        else some (dropColumnDiff t e.1)))).append
    (filterMap_names_perm_range (buildColMap S.Columns) (rt.mapOrder 342 t) _ hnd hsubS
      (fun e => match (buildColMap T.Columns).get? e.1 with
        | some targetCol =>
          if columnsEqual e.2 targetCol then none
          else some (modifyColumnDiff t e.1 e.2 targetCol)
        | none => none))

theorem column_entries_perm (rt : GoRuntime) (source target : SchemaInfo) (t : String)
    (S T : TableInfo) (hS : source.Tables.get? t = some S)
    (hT : target.Tables.get? t = some T) :
    ((CompareSchemas rt source target).filter
      (fun d => isColumnEntry d && isModifiedOf t d)).Perm
      ((columnNames S T).filterMap (columnEntry t S T)) := by
  refine ((rt.sortSlice_perm diffLess _).filter _).trans ?_
  rw [← List.filter_filter, filter_unsortedDiffs rt source target t S T hS hT,
    filter_isColumnEntry_compareTableStructure]
  exact columns_perm_columnEntry rt t S T

theorem columnNamed_some (cols : List ColumnInfo) (c : String) (x : ColumnInfo)
    (h : columnNamed cols c = some x) : x ∈ cols ∧ x.Name = c := by
  induction cols with
  | nil => simp [columnNamed] at h
  | cons col rest ih =>
    rw [columnNamed] at h
    cases hr : columnNamed rest c with
    | some y =>
      rw [hr] at h
      cases h
      exact ⟨List.mem_cons_of_mem _ (ih hr).1, (ih hr).2⟩
    | none =>
      rw [hr] at h
      by_cases hc : col.Name = c
      · simp only [hc, if_true] at h
        cases h
        exact ⟨List.mem_cons_self _ _, hc⟩
      · simp [hc] at h

theorem columnNamed_of_mem (cols : List ColumnInfo) (x : ColumnInfo)
    (hnd : (cols.map (·.Name)).Nodup) (hx : x ∈ cols) : columnNamed cols x.Name = some x := by
  induction cols with
  | nil => simp at hx
  | cons col rest ih =>
    rw [List.map_cons, List.nodup_cons] at hnd
    rw [columnNamed]
    rcases List.mem_cons.1 hx with rfl | hx'
    · have : columnNamed rest x.Name = none :=
        (columnNamed_eq_none_iff rest x.Name).2 hnd.1
      simp [this]
    · rw [ih hnd.2 hx']

/-- Claim C8 (column completeness): for every table `t` common to source and
target, the "modified" entries of `t` that come from the column loops are,
counted with multiplicity, exactly one entry for each column name `c` with a
discrepancy and none for any other: Add column when `c` is a column of the
source table only, Drop column when it is a column of the target table only,
Modify column when it is in both and type, nullability, extra modifier or
default differ (`columnEntry`), and no entry when it is in both and these are
equal. Here `columnNames` lists every column name of the two tables once, and
`columnNamed` is the column of that name (the only one when names are unique
in the table). -/
theorem column_discrepancies_one_entry_each (rt : GoRuntime) (source target : SchemaInfo)
    (t : String) (S T : TableInfo) (hS : source.Tables.get? t = some S)
    (hT : target.Tables.get? t = some T) :
    ((CompareSchemas rt source target).filter
        (fun d => isColumnEntry d && isModifiedOf t d)).Perm
        ((columnNames S T).filterMap (columnEntry t S T)) ∧
      (columnNames S T).Nodup ∧
      (∀ c, c ∈ columnNames S T ↔ (c ∈ S.Columns.map (·.Name) ∨ c ∈ T.Columns.map (·.Name))) ∧
      (∀ (cols : List ColumnInfo) (c : String),
        columnNamed cols c = none ↔ c ∉ cols.map (·.Name)) ∧
      (∀ (cols : List ColumnInfo) (x : ColumnInfo), (cols.map (·.Name)).Nodup → x ∈ cols →
        columnNamed cols x.Name = some x) := by
  refine ⟨column_entries_perm rt source target t S T hS hT, List.nodup_dedup _, ?_,
    columnNamed_eq_none_iff, columnNamed_of_mem⟩
  intro c
  simp [columnNames, List.mem_dedup]

/-- C8 on scenario 1: the one discrepancy, column `name`, gives the one
column entry of the output. -/
theorem column_discrepancies_one_entry_each_witness :
    ((CompareSchemas GoRuntime.plain scenarioSource scenarioTarget).filter
        (fun d => isColumnEntry d && isModifiedOf "t" d)).Perm
        ((columnNames scenarioSourceTable scenarioTargetTable).filterMap
          (columnEntry "t" scenarioSourceTable scenarioTargetTable)) ∧
      (columnNames scenarioSourceTable scenarioTargetTable).filterMap
          (columnEntry "t" scenarioSourceTable scenarioTargetTable) =
        [addColumnDiff "t" scenarioSourceTable "name" ⟨"name", "VARCHAR", "NO", "", none, "", 2⟩] :=
  ⟨(column_discrepancies_one_entry_each GoRuntime.plain scenarioSource scenarioTarget "t"
      scenarioSourceTable scenarioTargetTable (by decide) (by decide)).1, by decide⟩

theorem string_append_left_cancel (a b c : String) (h : a ++ b = a ++ c) : b = c := by
  have h' := congrArg String.data h
  simp only [String.data_append] at h'
  exact String.ext (List.append_cancel_left h')

theorem loopStage_of_add_detail (d : DiffResult) (c : String)
    (h : d.Detail = "Add column: " ++ c) : loopStage d = 0 := by
  simp [loopStage, detailStage, h, hasPrefix, List.isPrefixOf]

theorem mem_addedColumns (o : RangeOrder) (t : String) (S : TableInfo)
    (sm tm : GoMap ColumnInfo) (d : DiffResult) :
    d ∈ addedColumns o t S sm tm ↔
      ∃ c sc, sm.get? c = some sc ∧ tm.get? c = none ∧ d = addColumnDiff t S c sc := by
  simp only [addedColumns, List.mem_filterMap, GoMap.mem_range, Prod.exists]
  constructor
  · rintro ⟨c, sc, hs, h⟩
    split at h
    · cases h
    · rename_i hc
      cases h
      exact ⟨c, sc, hs, (GoMap.contains_eq_false_iff _ _).1 (by simpa using hc), rfl⟩
  · rintro ⟨c, sc, hs, ht, rfl⟩
    exact ⟨c, sc, hs, by simp [(GoMap.contains_eq_false_iff _ _).2 ht]⟩

theorem add_entry_of_detail (rt : GoRuntime) (t : String) (S T : TableInfo) (d : DiffResult)
    (c : String) (hd : d ∈ compareTableStructure rt t S T)
    (hdet : d.Detail = "Add column: " ++ c) :
    ∃ sc, columnNamed S.Columns c = some sc ∧ columnNamed T.Columns c = none ∧
      d = addColumnDiff t S c sc := by
  have hst := loopStage_of_add_detail d c hdet
  simp only [compareTableStructure, List.mem_append] at hd
  rcases hd with (((hd | hd) | hd) | hd) | hd
  · obtain ⟨c', sc, hs, ht, rfl⟩ := (mem_addedColumns _ _ _ _ _ _).1 hd
    have hc : c' = c := string_append_left_cancel _ _ _ hdet
    subst hc
    rw [get?_buildColMap] at hs ht
    exact ⟨sc, hs, ht, rfl⟩
  · rw [loopStage_removedColumns _ _ _ _ d hd] at hst
    cases hst
  · rw [loopStage_modifiedColumns _ _ _ _ d hd] at hst
    cases hst
  · rw [loopStage_sourceIndexDiffs _ _ _ _ d hd] at hst
    cases hst
  · rw [loopStage_targetIndexDiffs _ _ _ _ d hd] at hst
    cases hst

theorem mem_CompareSchemas_modified (rt : GoRuntime) (A B : SchemaInfo) (t : String)
    (S T : TableInfo) (hA : A.Tables.get? t = some S) (hB : B.Tables.get? t = some T)
    (d : DiffResult) :
    (d ∈ CompareSchemas rt A B ∧ d.Type_ = "modified" ∧ d.TableName = t) ↔
      d ∈ compareTableStructure rt t S T := by
  rw [mem_CompareSchemas, ← filter_unsortedDiffs rt A B t S T hA hB, List.mem_filter]
  simp [isModifiedOf]

theorem addColumnDiff_sql_first (t : String) (S : TableInfo) (c : String) (sc : ColumnInfo)
    (hp : sc.Position = 1) :
    (addColumnDiff t S c sc).SQL =
      "ALTER TABLE `" ++ t ++ "` ADD COLUMN `" ++ c ++ "` " ++ buildColumnDef sc ++ " FIRST;" := by
  simp [addColumnDiff, afterClause, hp, String.append_assoc]

theorem addColumnDiff_sql_after (t : String) (S : TableInfo) (c : String)
    (sc prev : ColumnInfo) (hp : sc.Position > 1)
    (hprev : S.Columns.find? (fun x => x.Position == sc.Position - 1) = some prev) :
    (addColumnDiff t S c sc).SQL =
      "ALTER TABLE `" ++ t ++ "` ADD COLUMN `" ++ c ++ "` " ++ buildColumnDef sc ++
        " AFTER `" ++ prev.Name ++ "`;" := by
  simp [addColumnDiff, afterClause, hp, hprev, String.append_assoc]

theorem unsortedDiffs_scenario :
    unsortedDiffs GoRuntime.plain scenarioSource scenarioTarget =
      [{ Type_ := "modified", TableName := "t", Detail := "Add column: name",
         SQL := "ALTER TABLE `t` ADD COLUMN `name` VARCHAR NOT NULL AFTER `id`;" }] := by
  decide

/-- Claim C9 (placement of an added column): for every common table `t` and
every column `c` present in source (as `sc`, at position `p`) and absent in
target, the output has an Add column entry for `c`, and the SQL of every such
entry is "ALTER TABLE `t` ADD COLUMN `c` <def> FIRST;" when `p` is 1, and
"ALTER TABLE `t` ADD COLUMN `c` <def> AFTER `n`;" when `p > 1` and `n` is the
name of the first column of the source column list whose position is `p - 1`.
For scenario 1 the result is the single entry "Add column: name" with SQL
"ALTER TABLE `t` ADD COLUMN `name` VARCHAR NOT NULL AFTER `id`;", under every
runtime. -/
theorem add_column_placement (rt : GoRuntime) (source target : SchemaInfo) (t : String)
    (S T : TableInfo) (hS : source.Tables.get? t = some S)
    (hT : target.Tables.get? t = some T) (c : String) (sc : ColumnInfo)
    (hsc : columnNamed S.Columns c = some sc) (htc : columnNamed T.Columns c = none) :
    (∃ d ∈ CompareSchemas rt source target,
        d.Type_ = "modified" ∧ d.TableName = t ∧ d.Detail = "Add column: " ++ c) ∧
      (∀ d ∈ CompareSchemas rt source target,
        d.Type_ = "modified" → d.TableName = t → d.Detail = "Add column: " ++ c →
          (sc.Position = 1 →
            d.SQL = "ALTER TABLE `" ++ t ++ "` ADD COLUMN `" ++ c ++ "` " ++
              buildColumnDef sc ++ " FIRST;") ∧
          (∀ prev, sc.Position > 1 →
            S.Columns.find? (fun x => x.Position == sc.Position - 1) = some prev →
            d.SQL = "ALTER TABLE `" ++ t ++ "` ADD COLUMN `" ++ c ++ "` " ++
              buildColumnDef sc ++ " AFTER `" ++ prev.Name ++ "`;")) ∧
      (∀ rt' : GoRuntime, CompareSchemas rt' scenarioSource scenarioTarget =
        [{ Type_ := "modified", TableName := "t", Detail := "Add column: name",
           SQL := "ALTER TABLE `t` ADD COLUMN `name` VARCHAR NOT NULL AFTER `id`;" }]) := by
  refine ⟨?_, ?_, ?_⟩
  · refine ⟨addColumnDiff t S c sc, ?_, rfl, rfl, rfl⟩
    have : addColumnDiff t S c sc ∈ compareTableStructure rt t S T := by
      simp only [compareTableStructure, List.mem_append]
      refine Or.inl (Or.inl (Or.inl (Or.inl ?_)))
      rw [mem_addedColumns]
      exact ⟨c, sc, by rw [get?_buildColMap]; exact hsc, by rw [get?_buildColMap]; exact htc,
        rfl⟩
    exact ((mem_CompareSchemas_modified rt source target t S T hS hT _).2 this).1
  · intro d hd hty hname hdet
    have hmem := (mem_CompareSchemas_modified rt source target t S T hS hT d).1
      ⟨hd, hty, hname⟩
    obtain ⟨sc', hsc', _, rfl⟩ := add_entry_of_detail rt t S T d c hmem hdet
    rw [hsc] at hsc'
    cases hsc'
    exact ⟨addColumnDiff_sql_first t S c sc, fun prev hp hprev =>
      addColumnDiff_sql_after t S c sc prev hp hprev⟩
  · intro rt'
    apply List.perm_singleton.1
    rw [← unsortedDiffs_scenario]
    exact (rt'.sortSlice_perm diffLess _).trans
      (unsortedDiffs_perm rt' GoRuntime.plain scenarioSource scenarioTarget)

/-- C9 on scenario 1: column `name` at position 2 has its Add column entry,
and the result is that one entry, placed after `id`. -/
theorem add_column_placement_witness :
    (∃ d ∈ CompareSchemas GoRuntime.plain scenarioSource scenarioTarget,
        d.Type_ = "modified" ∧ d.TableName = "t" ∧ d.Detail = "Add column: " ++ "name") ∧
      CompareSchemas GoRuntime.plain scenarioSource scenarioTarget =
        [{ Type_ := "modified", TableName := "t", Detail := "Add column: name",
           SQL := "ALTER TABLE `t` ADD COLUMN `name` VARCHAR NOT NULL AFTER `id`;" }] :=
  ⟨(add_column_placement GoRuntime.plain scenarioSource scenarioTarget "t"
      scenarioSourceTable scenarioTargetTable (by decide) (by decide) "name"
      ⟨"name", "VARCHAR", "NO", "", none, "", 2⟩ (by decide) (by decide)).1,
   (add_column_placement GoRuntime.plain scenarioSource scenarioTarget "t"
      scenarioSourceTable scenarioTargetTable (by decide) (by decide) "name"
      ⟨"name", "VARCHAR", "NO", "", none, "", 2⟩ (by decide) (by decide)).2.2
      GoRuntime.plain⟩

/-- Claim C10 (column equality): `columnsEqual(a, b)` is true if and only if
type, nullability and extra modifier are equal and the defaults are either
both absent or both present with the same text; a default absent on one side
and present on the other makes the columns unequal; and name, key role and
position never affect the result. -/
theorem columnsEqual_iff (a b : ColumnInfo) :
    (columnsEqual a b = true ↔
      a.Type_ = b.Type_ ∧ a.Nullable = b.Nullable ∧ a.Extra = b.Extra ∧
        ((a.Default = none ∧ b.Default = none) ∨
          ∃ s, a.Default = some s ∧ b.Default = some s)) ∧
    (∀ s, (a.Default = none ∧ b.Default = some s) ∨ (a.Default = some s ∧ b.Default = none) →
      columnsEqual a b = false) ∧
    (∀ (n k : String) (p : Int) (n' k' : String) (p' : Int),
      columnsEqual { a with Name := n, Key := k, Position := p }
        { b with Name := n', Key := k', Position := p' } = columnsEqual a b) := by
  refine ⟨?_, ?_, ?_⟩
  · simp only [columnsEqual, Bool.and_eq_true, beq_iff_eq, defaultsEqual_iff, and_assoc]
    refine and_congr_right (fun _ => and_congr_right (fun _ => and_congr_right (fun _ => ?_)))
    cases a.Default <;> cases b.Default <;> simp [eq_comm]
  · rintro s (⟨ha, hb⟩ | ⟨ha, hb⟩) <;> simp [columnsEqual, defaultsEqual, ha, hb]
  · intro n k p n' k' p'
    rfl

/-! ## Indexes of a common table -/

theorem indexColumns_eq_nil (idxs : List IndexInfo) (n : String)
    (h : n ∉ idxs.map (·.Name)) : indexColumns idxs n = [] := by
  unfold indexColumns
  rw [List.map_eq_nil_iff, List.filter_eq_nil_iff]
  intro idx hidx
  simp only [decide_eq_true_eq]
  intro hn
  exact h (List.mem_map.2 ⟨idx, hidx, hn⟩)

theorem get?_foldl_index (idxs : List IndexInfo) (m : GoMap (List String)) (n : String) :
    (idxs.foldl (fun result idx =>
        result.set idx.Name (getSlice result idx.Name ++ ["`" ++ idx.Column ++ "`"])) m).get? n =
      if n ∈ idxs.map (·.Name) then some (getSlice m n ++ indexColumns idxs n)
      else m.get? n := by
  induction idxs generalizing m with
  | nil => simp
  | cons idx rest ih =>
    rw [List.foldl_cons, ih]
    by_cases hn : idx.Name = n
    · subst hn
      have hin : idx.Name ∈ (idx :: rest).map (·.Name) := by simp
      rw [if_pos hin]
      have hcols : indexColumns (idx :: rest) idx.Name =
          ("`" ++ idx.Column ++ "`") :: indexColumns rest idx.Name := by
        simp [indexColumns]
      by_cases hr : idx.Name ∈ rest.map (·.Name)
      · rw [if_pos hr, hcols]
        simp [getSlice, GoMap.get?_set]
      · rw [if_neg hr, hcols, indexColumns_eq_nil rest idx.Name hr]
        simp [GoMap.get?_set]
    · have hcols : indexColumns (idx :: rest) n = indexColumns rest n := by
        simp [indexColumns, hn]
      have hmem : n ∈ (idx :: rest).map (·.Name) ↔ n ∈ rest.map (·.Name) := by
        have : ¬ n = idx.Name := fun e => hn e.symm
        simp [this]
      have hget : (m.set idx.Name (getSlice m idx.Name ++ ["`" ++ idx.Column ++ "`"])).get? n =
          m.get? n := by
        rw [GoMap.get?_set, if_neg hn]
      by_cases hr : n ∈ rest.map (·.Name)
      · rw [if_pos hr, if_pos (hmem.2 hr), hcols]
        have hslice : getSlice
            (m.set idx.Name (getSlice m idx.Name ++ ["`" ++ idx.Column ++ "`"])) n =
            getSlice m n := by
          exact congrArg (fun o : Option (List String) => o.getD []) hget
        rw [hslice]
      · rw [if_neg hr, if_neg (fun h => hr (hmem.1 h)), hget]

theorem get?_buildIndexMap (idxs : List IndexInfo) (n : String) :
    (buildIndexMap idxs).get? n =
      if n ∈ idxs.map (·.Name) then some (indexColumns idxs n) else none := by
  unfold buildIndexMap
  rw [get?_foldl_index]
  simp [getSlice]

theorem mem_keys_buildIndexMap (idxs : List IndexInfo) (n : String) :
    n ∈ (buildIndexMap idxs).keys ↔ n ∈ idxs.map (·.Name) := by
  rw [← not_iff_not, ← GoMap.get?_eq_none_iff, get?_buildIndexMap]
  split <;> simp_all

/-- Claim C12, as stated, fails: `buildIndexMap` does not order by
sequence-in-index. For two rows of index `idx` that arrive with sequence 2
before sequence 1 it yields the columns in arrival order, `b` then `a`, and
not in ascending sequence order, `a` then `b`. -/
theorem indexColumns_out_of_sequence :
    (buildIndexMap [⟨"idx", 1, "b", 2⟩, ⟨"idx", 1, "a", 1⟩]).get? "idx" = some ["`b`", "`a`"] ∧
      indexColumnsBySeq [⟨"idx", 1, "b", 2⟩, ⟨"idx", 1, "a", 1⟩] "idx" = ["`a`", "`b`"] ∧
      (buildIndexMap [⟨"idx", 1, "b", 2⟩, ⟨"idx", 1, "a", 1⟩]).get? "idx" ≠
        some (indexColumnsBySeq [⟨"idx", 1, "b", 2⟩, ⟨"idx", 1, "a", 1⟩] "idx") := by
  decide

/-- Claim C12, amended: for every list of `IndexInfo` rows, `buildIndexMap`
maps each index name that occurs in the list to the back-quoted member
columns of the rows with that name, in the order in which those rows stand in
the list, and has no entry for any other name; when the rows of a name stand
in ascending sequence-in-index order, this is their ascending sequence
order. -/
theorem buildIndexMap_in_list_order (indexes : List IndexInfo) (n : String) :
    (buildIndexMap indexes).get? n =
        (if n ∈ indexes.map (·.Name) then some (indexColumns indexes n) else none) ∧
      ((indexes.filter (fun idx => idx.Name = n)).Sorted (fun a b => a.SeqInIdx ≤ b.SeqInIdx) →
        indexColumns indexes n = indexColumnsBySeq indexes n) := by
  refine ⟨get?_buildIndexMap indexes n, ?_⟩
  intro h
  unfold indexColumns indexColumnsBySeq
  rw [List.Sorted.insertionSort_eq h]

theorem filter_isIndexEntry_compareTableStructure (rt : GoRuntime) (t : String)
    (S T : TableInfo) :
    (compareTableStructure rt t S T).filter isIndexEntry =
      sourceIndexDiffs (rt.mapOrder 359 t) t (buildIndexMap S.Indexes)
        (buildIndexMap T.Indexes) ++
      targetIndexDiffs (rt.mapOrder 380 t) t (buildIndexMap S.Indexes)
        (buildIndexMap T.Indexes) := by
  unfold compareTableStructure
  have h0 := loopStage_addedColumns (rt.mapOrder 306 t) t S (buildColMap S.Columns)
    (buildColMap T.Columns)
  have h1 := loopStage_removedColumns (rt.mapOrder 330 t) t (buildColMap S.Columns)
    (buildColMap T.Columns)
  have h2 := loopStage_modifiedColumns (rt.mapOrder 342 t) t (buildColMap S.Columns)
    (buildColMap T.Columns)
  have h3 := loopStage_sourceIndexDiffs (rt.mapOrder 359 t) t (buildIndexMap S.Indexes)
    (buildIndexMap T.Indexes)
  have h4 := loopStage_targetIndexDiffs (rt.mapOrder 380 t) t (buildIndexMap S.Indexes)
    (buildIndexMap T.Indexes)
  simp only [List.filter_append]
  rw [List.filter_eq_nil_iff.2 (fun d hd => by simp [isIndexEntry, h0 d hd]),
    List.filter_eq_nil_iff.2 (fun d hd => by simp [isIndexEntry, h1 d hd]),
    List.filter_eq_nil_iff.2 (fun d hd => by simp [isIndexEntry, h2 d hd]),
    List.filter_eq_self.2 (fun d hd => by simp [isIndexEntry, h3 d hd]),
    List.filter_eq_self.2 (fun d hd => by simp [isIndexEntry, h4 d hd]),
    List.nil_append, List.nil_append, List.nil_append]

theorem indexEntry_toList (t : String) (S T : TableInfo) (n : String) :
    (indexEntry t S T n).toList =
      (((buildIndexMap S.Indexes).get? n).bind (fun v =>
        if n = "PRIMARY" then none
        else match (buildIndexMap T.Indexes).get? n with
          | none => some (addIndexDiff t n v)
          | some targetCols =>
            if stringSlicesEqual v targetCols then none
            else some (recreateIndexDiff t n v))).toList ++
      (((buildIndexMap T.Indexes).get? n).bind (fun _ =>
        if n = "PRIMARY" then none
        else if (buildIndexMap S.Indexes).contains n then none
        else some (dropIndexDiff t n))).toList ++
      (none : Option DiffResult).toList := by
  simp only [GoMap.contains, get?_buildIndexMap, indexEntry]
  by_cases hp : n = "PRIMARY"
  · by_cases hs : n ∈ S.Indexes.map (·.Name) <;> by_cases ht : n ∈ T.Indexes.map (·.Name) <;>
      simp [hp, hs, ht]
  · by_cases hs : n ∈ S.Indexes.map (·.Name) <;> by_cases ht : n ∈ T.Indexes.map (·.Name)
    · by_cases he : indexColumns S.Indexes n = indexColumns T.Indexes n
      · have := (stringSlicesEqual_iff _ _).2 he
        simp [hp, hs, ht, this, if_pos he]
      · have : stringSlicesEqual (indexColumns S.Indexes n) (indexColumns T.Indexes n) =
            false := by
          rw [← Bool.not_eq_true, stringSlicesEqual_iff]
          exact he
        simp [hp, hs, ht, he, this, recreateIndexDiff, String.append_assoc]
    · simp [hp, hs, ht, addIndexDiff, String.append_assoc]
    · simp [hp, hs, ht, dropIndexDiff, String.append_assoc]
    · simp [hp, hs, ht]

theorem indexes_perm_indexEntry (rt : GoRuntime) (t : String) (S T : TableInfo) :
    (sourceIndexDiffs (rt.mapOrder 359 t) t (buildIndexMap S.Indexes)
        (buildIndexMap T.Indexes) ++
      targetIndexDiffs (rt.mapOrder 380 t) t (buildIndexMap S.Indexes)
        (buildIndexMap T.Indexes)).Perm
      ((indexNames S T).filterMap (indexEntry t S T)) := by
  have hnd : (indexNames S T).Nodup := List.nodup_dedup _
  have hsubS : ∀ k ∈ (buildIndexMap S.Indexes).keys, k ∈ indexNames S T := by
    intro k hk
    rw [mem_keys_buildIndexMap] at hk
    exact List.mem_dedup.2 (List.mem_append_left _ hk)
  have hsubT : ∀ k ∈ (buildIndexMap T.Indexes).keys, k ∈ indexNames S T := by
    intro k hk
    rw [mem_keys_buildIndexMap] at hk
    exact List.mem_dedup.2 (List.mem_append_right _ hk)
  refine List.Perm.symm ((filterMap_perm_append3 _ _ _ _ _
    (fun n _ => indexEntry_toList t S T n)).trans ?_)
  have hnone : (indexNames S T).filterMap (fun _ => (none : Option DiffResult)) = [] := by
    rw [List.filterMap_eq_nil_iff]
    intro _ _
    rfl
  rw [hnone, List.append_nil]
  exact (filterMap_names_perm_range (buildIndexMap S.Indexes) (rt.mapOrder 359 t) _ hnd hsubS
      (fun e => if e.1 = "PRIMARY" then none
        else match (buildIndexMap T.Indexes).get? e.1 with
          | none => some (addIndexDiff t e.1 e.2)
          | some targetCols =>
            if stringSlicesEqual e.2 targetCols then none
            else some (recreateIndexDiff t e.1 e.2))).append
    (filterMap_names_perm_range (buildIndexMap T.Indexes) (rt.mapOrder 380 t) _ hnd hsubT
      (fun e => if e.1 = "PRIMARY" then none
        else if (buildIndexMap S.Indexes).contains e.1 then none
        else some (dropIndexDiff t e.1)))

theorem index_entries_perm (rt : GoRuntime) (source target : SchemaInfo) (t : String)
    (S T : TableInfo) (hS : source.Tables.get? t = some S)
    (hT : target.Tables.get? t = some T) :
    ((CompareSchemas rt source target).filter
      (fun d => isIndexEntry d && isModifiedOf t d)).Perm
      ((indexNames S T).filterMap (indexEntry t S T)) := by
  refine ((rt.sortSlice_perm diffLess _).filter _).trans ?_
  rw [← List.filter_filter, filter_unsortedDiffs rt source target t S T hS hT,
    filter_isIndexEntry_compareTableStructure]
  exact indexes_perm_indexEntry rt t S T

theorem mem_sourceIndexDiffs (o : RangeOrder) (t : String) (sm tm : GoMap (List String))
    (d : DiffResult) (h : d ∈ sourceIndexDiffs o t sm tm) :
    ∃ n cols, n ≠ "PRIMARY" ∧ (d = addIndexDiff t n cols ∨ d = recreateIndexDiff t n cols) := by
  simp only [sourceIndexDiffs, List.mem_filterMap] at h
  obtain ⟨e, _, h⟩ := h
  split at h
  · cases h
  · rename_i hp
    split at h
    · cases h
      exact ⟨e.1, e.2, hp, Or.inl rfl⟩
    · split at h
      · cases h
      · cases h
        exact ⟨e.1, e.2, hp, Or.inr rfl⟩

theorem mem_targetIndexDiffs (o : RangeOrder) (t : String) (sm tm : GoMap (List String))
    (d : DiffResult) (h : d ∈ targetIndexDiffs o t sm tm) :
    ∃ n, n ≠ "PRIMARY" ∧ d = dropIndexDiff t n := by
  simp only [targetIndexDiffs, List.mem_filterMap] at h
  obtain ⟨e, _, h⟩ := h
  split at h
  · cases h
  · rename_i hp
    split at h
    · cases h
    · cases h
      exact ⟨e.1, hp, rfl⟩

theorem detailStage_congr (d d' : DiffResult) (h : d.Detail = d'.Detail) :
    detailStage d = detailStage d' := by
  simp [detailStage, h]

theorem no_primary_detail_compareTableStructure (rt : GoRuntime) (t : String)
    (S T : TableInfo) (d : DiffResult) (hd : d ∈ compareTableStructure rt t S T) :
    d.Detail ≠ "Add index: PRIMARY" ∧ d.Detail ≠ "Recreate index: PRIMARY" ∧
      d.Detail ≠ "Drop index: PRIMARY" := by
  have hadd : ∀ h : d.Detail = "Add index: PRIMARY", detailStage d = 3 := fun h =>
    (detailStage_congr d (addIndexDiff "" "PRIMARY" []) h).trans (detailStage_addIndexDiff _ _ _)
  have hrec : ∀ h : d.Detail = "Recreate index: PRIMARY", detailStage d = 4 := fun h =>
    (detailStage_congr d (recreateIndexDiff "" "PRIMARY" []) h).trans
      (detailStage_recreateIndexDiff _ _ _)
  have hdrop : ∀ h : d.Detail = "Drop index: PRIMARY", detailStage d = 5 := fun h =>
    (detailStage_congr d (dropIndexDiff "" "PRIMARY") h).trans (detailStage_dropIndexDiff _ _)
  have hstage : ∀ k, loopStage d = k → k < 3 →
      d.Detail ≠ "Add index: PRIMARY" ∧ d.Detail ≠ "Recreate index: PRIMARY" ∧
        d.Detail ≠ "Drop index: PRIMARY" := by
    intro k hk hlt
    refine ⟨fun h => ?_, fun h => ?_, fun h => ?_⟩
    · simp [loopStage, hadd h] at hk
      omega
    · simp [loopStage, hrec h] at hk
      omega
    · simp [loopStage, hdrop h] at hk
      omega
  simp only [compareTableStructure, List.mem_append] at hd
  rcases hd with (((hd | hd) | hd) | hd) | hd
  · exact hstage 0 (loopStage_addedColumns _ _ _ _ _ d hd) (by decide)
  · exact hstage 1 (loopStage_removedColumns _ _ _ _ d hd) (by decide)
  · exact hstage 2 (loopStage_modifiedColumns _ _ _ _ d hd) (by decide)
  · obtain ⟨n, cols, hn, rfl | rfl⟩ := mem_sourceIndexDiffs _ _ _ _ d hd
    · refine ⟨fun h => hn (string_append_left_cancel "Add index: " n "PRIMARY" h), fun h => ?_,
        fun h => ?_⟩
      · have := hrec h
        rw [detailStage_addIndexDiff] at this
        cases this
      · have := hdrop h
        rw [detailStage_addIndexDiff] at this
        cases this
    · refine ⟨fun h => ?_,
        fun h => hn (string_append_left_cancel "Recreate index: " n "PRIMARY" h), fun h => ?_⟩
      · have := hadd h
        rw [detailStage_recreateIndexDiff] at this
        cases this
      · have := hdrop h
        rw [detailStage_recreateIndexDiff] at this
        cases this
  · obtain ⟨n, hn, rfl⟩ := mem_targetIndexDiffs _ _ _ _ d hd
    refine ⟨fun h => ?_, fun h => ?_,
      fun h => hn (string_append_left_cancel "Drop index: " n "PRIMARY" h)⟩
    · have := hadd h
      rw [detailStage_dropIndexDiff] at this
      cases this
    · have := hrec h
      rw [detailStage_dropIndexDiff] at this
      cases this

theorem no_primary_detail (rt : GoRuntime) (A B : SchemaInfo) (d : DiffResult)
    (hd : d ∈ CompareSchemas rt A B) :
    d.Detail ≠ "Add index: PRIMARY" ∧ d.Detail ≠ "Recreate index: PRIMARY" ∧
      d.Detail ≠ "Drop index: PRIMARY" := by
  rw [mem_CompareSchemas, mem_unsortedDiffs] at hd
  rcases hd with ⟨k, T, _, _, rfl⟩ | ⟨k, T, _, _, rfl⟩ | ⟨k, S, T, _, _, h⟩
  · simp only [addedTableDiff]
    exact ⟨by decide, by decide, by decide⟩
  · simp only [removedTableDiff]
    exact ⟨by decide, by decide, by decide⟩
  · exact no_primary_detail_compareTableStructure rt k S T d h

/-- Claim C11 (index completeness): for every table `t` common to source and
target, the "modified" entries of `t` that come from the index loops are,
counted with multiplicity, exactly one entry for each index name `n` other
than "PRIMARY" with a discrepancy and none for any other (`indexEntry`):
"Add index: n" with SQL "ALTER TABLE `t` ADD INDEX `n` (<source cols>);" when
`n` is in the source only, "Drop index: n" with SQL
"ALTER TABLE `t` DROP INDEX `n`;" when it is in the target only,
"Recreate index: n" with the single statement
"ALTER TABLE `t` DROP INDEX `n`, ADD INDEX `n` (<source cols>);" when it is in
both and the ordered column lists differ, and no entry when the lists are
equal. Lists are compared in order (`stringSlicesEqual` is list equality), and
no entry of the output names the index "PRIMARY". -/
theorem index_discrepancies_one_entry_each (rt : GoRuntime) (source target : SchemaInfo)
    (t : String) (S T : TableInfo) (hS : source.Tables.get? t = some S)
    (hT : target.Tables.get? t = some T) :
    ((CompareSchemas rt source target).filter
        (fun d => isIndexEntry d && isModifiedOf t d)).Perm
        ((indexNames S T).filterMap (indexEntry t S T)) ∧
      (indexNames S T).Nodup ∧
      (∀ n, n ∈ indexNames S T ↔ (n ∈ S.Indexes.map (·.Name) ∨ n ∈ T.Indexes.map (·.Name))) ∧
      (∀ a b : List String, stringSlicesEqual a b = true ↔ a = b) ∧
      indexEntry t S T "PRIMARY" = none ∧
      (∀ d ∈ CompareSchemas rt source target,
        d.Detail ≠ "Add index: PRIMARY" ∧ d.Detail ≠ "Recreate index: PRIMARY" ∧
          d.Detail ≠ "Drop index: PRIMARY") := by
  refine ⟨index_entries_perm rt source target t S T hS hT, List.nodup_dedup _, ?_,
    stringSlicesEqual_iff, ?_, no_primary_detail rt source target⟩
  · intro n
    simp [indexNames, List.mem_dedup]
  · simp [indexEntry]

/-- C11 on the index-order example: `i1` is in both tables with different
column lists and `i2` is in the source only, which gives one Recreate and one
Add entry. -/
theorem index_discrepancies_one_entry_each_witness :
    ((CompareSchemas GoRuntime.plain indexOrderSource indexOrderTarget).filter
        (fun d => isIndexEntry d && isModifiedOf "t" d)).Perm
        ((indexNames indexOrderSourceTable indexOrderTargetTable).filterMap
          (indexEntry "t" indexOrderSourceTable indexOrderTargetTable)) ∧
      (indexNames indexOrderSourceTable indexOrderTargetTable).filterMap
          (indexEntry "t" indexOrderSourceTable indexOrderTargetTable) =
        [{ Type_ := "modified", TableName := "t", Detail := "Add index: i2",
           SQL := "ALTER TABLE `t` ADD INDEX `i2` (`a`);" },
         { Type_ := "modified", TableName := "t", Detail := "Recreate index: i1",
           SQL := "ALTER TABLE `t` DROP INDEX `i1`, ADD INDEX `i1` (`a`);" }] :=
  ⟨(index_discrepancies_one_entry_each GoRuntime.plain indexOrderSource indexOrderTarget "t"
      indexOrderSourceTable indexOrderTargetTable (by decide) (by decide)).1, by decide⟩

/-! ## Completeness of the data differencer -/

theorem dataEntry_toList (rt : GoRuntime) (tableName : String)
    (primaryKeys columns : List String) (sourceData targetData : GoMap Row) (k : String) :
    (dataEntry rt tableName primaryKeys columns sourceData targetData k).toList =
      ((sourceData.get? k).bind (fun v =>
        match targetData.get? k with
        | some targetRow =>
          if rowsEqual (rt.mapOrder 351 k) v targetRow then none
          else some
            { Type_ := "update"
              TableName := tableName
              PrimaryKey := extractPrimaryKey v primaryKeys
              OldValues := some targetRow
              NewValues := some v
              SQL := generateUpdateSQL (rt.mapOrder 388 k) tableName v primaryKeys }
        | none => some
            { Type_ := "insert"
              TableName := tableName
              PrimaryKey := extractPrimaryKey v primaryKeys
              OldValues := none
              NewValues := some v
              SQL := generateInsertSQL tableName v columns })).toList ++
      ((targetData.get? k).bind (fun v =>
        if sourceData.contains k then none
        else some
          { Type_ := "delete"
            TableName := tableName
            PrimaryKey := extractPrimaryKey v primaryKeys
            OldValues := some v
            NewValues := none
            SQL := generateDeleteSQL tableName primaryKeys
              (extractPrimaryKey v primaryKeys) })).toList ++
      (none : Option DataDiffResult).toList := by
  cases hs : sourceData.get? k <;> cases ht : targetData.get? k
  · simp [GoMap.contains, dataEntry, hs, ht]
  · simp [GoMap.contains, dataEntry, hs, ht]
  · simp [GoMap.contains, dataEntry, hs, ht]
  · rename_i s t
    cases hr : rowsEqual (rt.mapOrder 351 k) s t <;>
      simp [GoMap.contains, dataEntry, hs, ht, hr]

theorem dataDiffLoop_perm (rt : GoRuntime) (tableName : String)
    (primaryKeys columns : List String) (sourceData targetData : GoMap Row) :
    (dataDiffLoop rt tableName primaryKeys columns sourceData targetData).Perm
      ((snapshotKeys sourceData targetData).filterMap
        (dataEntry rt tableName primaryKeys columns sourceData targetData)) := by
  have hnd : (snapshotKeys sourceData targetData).Nodup := List.nodup_dedup _
  have hsubS : ∀ k ∈ sourceData.keys, k ∈ snapshotKeys sourceData targetData :=
    fun k hk => List.mem_dedup.2 (List.mem_append_left _ hk)
  have hsubT : ∀ k ∈ targetData.keys, k ∈ snapshotKeys sourceData targetData :=
    fun k hk => List.mem_dedup.2 (List.mem_append_right _ hk)
  refine List.Perm.symm ((filterMap_perm_append3 _ _ _ _ _
    (fun k _ => dataEntry_toList rt tableName primaryKeys columns sourceData targetData
      k)).trans ?_)
  have hnone : (snapshotKeys sourceData targetData).filterMap
      (fun _ => (none : Option DataDiffResult)) = [] := by
    rw [List.filterMap_eq_nil_iff]
    intro _ _
    rfl
  rw [hnone, List.append_nil]
  unfold dataDiffLoop
  exact (filterMap_names_perm_range sourceData (rt.mapOrder 165 tableName) _ hnd hsubS
      ((fun e => match targetData.get? e.1 with
        | some targetRow =>
          if rowsEqual (rt.mapOrder 351 e.1) e.2 targetRow then none
          else some
            { Type_ := "update"
              TableName := tableName
              PrimaryKey := extractPrimaryKey e.2 primaryKeys
              OldValues := some targetRow
              NewValues := some e.2
              SQL := generateUpdateSQL (rt.mapOrder 388 e.1) tableName e.2 primaryKeys }
        | none => some
            { Type_ := "insert"
              TableName := tableName
              PrimaryKey := extractPrimaryKey e.2 primaryKeys
              OldValues := none
              NewValues := some e.2
              SQL := generateInsertSQL tableName e.2 columns }) :
        String × Row → Option DataDiffResult)).append
    (filterMap_names_perm_range targetData (rt.mapOrder 193 tableName) _ hnd hsubT
      ((fun e => if sourceData.contains e.1 then none
        else some
          { Type_ := "delete"
            TableName := tableName
            PrimaryKey := extractPrimaryKey e.2 primaryKeys
            OldValues := some e.2
            NewValues := none
            SQL := generateDeleteSQL tableName primaryKeys
              (extractPrimaryKey e.2 primaryKeys) }) :
        String × Row → Option DataDiffResult))

theorem length_filter_filterMap {α β : Type} (f : α → Option β) (p : β → Bool)
    (q : α → Bool) (l : List α)
    (h : ∀ a, (match f a with | some b => p b | none => false) = q a) :
    ((l.filterMap f).filter p).length = (l.filter q).length := by
  induction l with
  | nil => rfl
  | cons a l ih =>
    have ha := h a
    cases hf : f a with
    | none =>
      rw [hf] at ha
      simp [List.filterMap_cons, hf, List.filter_cons, ← ha, ih]
    | some b =>
      rw [hf] at ha
      simp only at ha
      cases hp : p b <;> simp [List.filterMap_cons, hf, List.filter_cons, ← ha, hp, ih]

theorem length_filter_range {V : Type} (m : GoMap V) (o : RangeOrder)
    (q : String × V → Bool) :
    ((m.range o).filter q).length = (m.entries.filter q).length :=
  ((m.range_perm o).filter q).length_eq

theorem length_filter_keys {V : Type} (m : GoMap V) (q : String → Bool) :
    (m.entries.filter (fun e => q e.1)).length = (m.keys.filter q).length := by
  unfold GoMap.keys
  rw [List.filter_map, List.length_map]
  rfl

/-- Claim C13 (every change exactly once): for every pair of row snapshots,
the entries of the data-diff loop are, counted with multiplicity, exactly one
entry for each composite key with a change and none for any other
(`dataEntry`): an "insert" entry with NewValues = source row for a key in the
source only, an "update" entry with OldValues = target row and NewValues =
source row for a key in both whose rows are not `rowsEqual`, and a "delete"
entry with OldValues = target row for a key in the target only. So the numbers
of insert, update and delete entries are the numbers of keys of each class. -/
theorem data_changes_exactly_once (rt : GoRuntime) (tableName : String)
    (primaryKeys columns : List String) (sourceData targetData : GoMap Row) :
    (dataDiffLoop rt tableName primaryKeys columns sourceData targetData).Perm
        ((snapshotKeys sourceData targetData).filterMap
          (dataEntry rt tableName primaryKeys columns sourceData targetData)) ∧
      (snapshotKeys sourceData targetData).Nodup ∧
      (∀ k, k ∈ snapshotKeys sourceData targetData ↔
        (sourceData.contains k = true ∨ targetData.contains k = true)) ∧
      ((dataDiffLoop rt tableName primaryKeys columns sourceData targetData).filter
          (fun d => d.Type_ == "insert")).length =
        (sourceData.keys.filter (fun k => !targetData.contains k)).length ∧
      ((dataDiffLoop rt tableName primaryKeys columns sourceData targetData).filter
          (fun d => d.Type_ == "update")).length =
        (sourceData.entries.filter (fun e =>
          match targetData.get? e.1 with
          | some targetRow => !rowsEqual (rt.mapOrder 351 e.1) e.2 targetRow
          | none => false)).length ∧
      ((dataDiffLoop rt tableName primaryKeys columns sourceData targetData).filter
          (fun d => d.Type_ == "delete")).length =
        (targetData.keys.filter (fun k => !sourceData.contains k)).length := by
  refine ⟨dataDiffLoop_perm rt tableName primaryKeys columns sourceData targetData,
    List.nodup_dedup _, ?_, ?_, ?_, ?_⟩
  · intro k
    simp [snapshotKeys, List.mem_dedup, GoMap.contains_iff]
  · unfold dataDiffLoop
    rw [List.filter_append, List.length_append,
      length_filter_filterMap _ _ (fun e : String × Row => !targetData.contains e.1),
      length_filter_filterMap _ _ (fun _ : String × Row => false),
      length_filter_range, length_filter_keys sourceData (fun k => !targetData.contains k)]
    · simp
    · intro e
      split <;> rename_i h
      · split at h
        · cases h
        · cases h; rfl
      · rfl
    · intro e
      cases ht : targetData.get? e.1 with
      | none => simp [GoMap.contains, ht]
      | some t =>
        cases hr : rowsEqual (rt.mapOrder 351 e.1) e.2 t <;> simp [GoMap.contains, ht, hr]
  · unfold dataDiffLoop
    rw [List.filter_append, List.length_append,
      length_filter_filterMap _ _ (fun e : String × Row =>
        match targetData.get? e.1 with
        | some targetRow => !rowsEqual (rt.mapOrder 351 e.1) e.2 targetRow
        | none => false),
      length_filter_filterMap _ _ (fun _ : String × Row => false),
      length_filter_range]
    · simp
    · intro e
      split <;> rename_i h
      · split at h
        · cases h
        · cases h; rfl
      · rfl
    · intro e
      cases ht : targetData.get? e.1 with
      | none => simp
      | some t =>
        cases hr : rowsEqual (rt.mapOrder 351 e.1) e.2 t <;> simp [hr]
  · unfold dataDiffLoop
    rw [List.filter_append, List.length_append,
      length_filter_filterMap _ _ (fun _ : String × Row => false),
      length_filter_filterMap _ _ (fun e : String × Row => !sourceData.contains e.1),
      length_filter_range, length_filter_range,
      length_filter_keys targetData (fun k => !sourceData.contains k)]
    · simp
    · intro e
      cases hc : sourceData.contains e.1 <;> simp [hc]
    · intro e
      cases ht : targetData.get? e.1 with
      | none => simp
      | some t =>
        cases hr : rowsEqual (rt.mapOrder 351 e.1) e.2 t <;> simp [hr]

/-! ## Synthesized DML -/

theorem filterMap_ite_eq_map_filter {α β : Type} (c : α → Bool) (g : α → β) (l : List α) :
    l.filterMap (fun a => if c a then none else some (g a)) =
      (l.filter (fun a => !c a)).map g := by
  induction l with
  | nil => rfl
  | cons a l ih =>
    cases hc : c a <;> simp [List.filterMap_cons, List.filter_cons, hc, ih]

theorem updateSets_perm (o : RangeOrder) (row : Row) (primaryKeys : List String) :
    ((row.range o).filterMap (fun e =>
        if primaryKeys.contains e.1 then none
        else some ("`" ++ e.1 ++ "` = " ++ escapeValue e.2))).Perm
      ((row.entries.filter (fun e => !primaryKeys.contains e.1)).map
        (fun e => "`" ++ e.1 ++ "` = " ++ escapeValue e.2)) := by
  rw [← filterMap_ite_eq_map_filter (fun e : String × Value => primaryKeys.contains e.1)]
  exact (row.range_perm o).filterMap _

/-- Claim C14 (UPDATE statement): for every table name `t`, row and
primary-key list, `generateUpdateSQL` returns
"UPDATE `t` SET <sets> WHERE <conds>;" where <sets> lists exactly the row's
non-key columns, each once (in the order the row is visited), as
"`col` = <escapeValue of its value>" joined by ", ", and <conds> is
"`pk` = <escapeValue of row[pk]>" for the primary-key columns in primary-key
order joined by " AND ". For the source row {id: 1, name: "Bob"} with primary
key id the result is "UPDATE `t` SET `name` = 'Bob' WHERE `id` = 1;" under
every iteration order. -/
theorem generateUpdateSQL_shape (o : RangeOrder) (t : String) (row : Row)
    (primaryKeys : List String) :
    (∃ sets : List String,
      sets.Perm ((row.entries.filter (fun e => !primaryKeys.contains e.1)).map
        (fun e => "`" ++ e.1 ++ "` = " ++ escapeValue e.2)) ∧
      generateUpdateSQL o t row primaryKeys =
        "UPDATE `" ++ t ++ "` SET " ++ stringsJoin sets ", " ++ " WHERE " ++
          stringsJoin (primaryKeys.map (fun pk =>
            "`" ++ pk ++ "` = " ++ escapeValue (getValue row pk))) " AND " ++ ";") ∧
    generateUpdateSQL o "t" bobRow ["id"] = "UPDATE `t` SET `name` = 'Bob' WHERE `id` = 1;" := by
  refine ⟨⟨_, updateSets_perm o row primaryKeys, rfl⟩, ?_⟩
  have hsets := updateSets_perm o bobRow ["id"]
  have hlit : (bobRow.entries.filter (fun e => !(List.contains ["id"] e.1))).map
      (fun e => "`" ++ e.1 ++ "` = " ++ escapeValue e.2) = ["`name` = 'Bob'"] := by decide
  rw [hlit] at hsets
  have hwhere : (["id"].map (fun pk => "`" ++ pk ++ "` = " ++ escapeValue (getValue bobRow pk))) =
      ["`id` = 1"] := by decide
  unfold generateUpdateSQL
  simp only [List.perm_singleton.1 hsets, hwhere]
  decide

theorem listedColumns_fst (row : Row) (columns : List String) :
    (listedColumns row columns).map Prod.fst = columns.filter (fun c => row.contains c) := by
  induction columns with
  | nil => rfl
  | cons c cs ih =>
    unfold listedColumns at ih ⊢
    cases h : row.get? c <;>
      simp [List.filterMap_cons, List.filter_cons, GoMap.contains, h, ih]

theorem listedColumns_snd (row : Row) (columns : List String) :
    (listedColumns row columns).map (fun p => escapeValue p.2) =
      (columns.filter (fun c => row.contains c)).map
        (fun c => escapeValue (getValue row c)) := by
  induction columns with
  | nil => rfl
  | cons c cs ih =>
    unfold listedColumns at ih ⊢
    cases h : row.get? c <;>
      simp [List.filterMap_cons, List.filter_cons, GoMap.contains, getValue, h, ih]

/-- Claim C15 (INSERT statement): for every table name `t`, row and column
list, `generateInsertSQL` returns "INSERT INTO `t` (<cols>) VALUES (<vals>);"
where <cols> are exactly the columns of the list that are present in the row
mapping, back-quoted, in column-list order, and <vals> has the same length
with its i-th item the `escapeValue` of the row's value for the i-th listed
column; when the row has every column of the list, the INSERT names all of
them, as for the row {id: 1, name: "Bob"} and the columns id, name. -/
theorem generateInsertSQL_shape (t : String) (row : Row) (columns : List String) :
    generateInsertSQL t row columns =
        "INSERT INTO `" ++ t ++ "` (" ++
          stringsJoin ((listedColumns row columns).map (fun p => "`" ++ p.1 ++ "`")) ", " ++
          ") VALUES (" ++
          stringsJoin ((listedColumns row columns).map (fun p => escapeValue p.2)) ", " ++
          ");" ∧
      (listedColumns row columns).map Prod.fst = columns.filter (fun c => row.contains c) ∧
      (∀ p ∈ listedColumns row columns, row.get? p.1 = some p.2) ∧
      ((∀ c ∈ columns, row.contains c = true) →
        (listedColumns row columns).map Prod.fst = columns) ∧
      generateInsertSQL "t" bobRow ["id", "name"] =
        "INSERT INTO `t` (`id`, `name`) VALUES (1, 'Bob');" := by
  refine ⟨?_, listedColumns_fst row columns, ?_, ?_, by decide⟩
  · have h1 : (listedColumns row columns).map (fun p => "`" ++ p.1 ++ "`") =
        (columns.filter (fun c => row.contains c)).map (fun c => "`" ++ c ++ "`") := by
      rw [← listedColumns_fst, List.map_map]
      rfl
    rw [h1, listedColumns_snd]
    rfl
  · intro p hp
    simp only [listedColumns, List.mem_filterMap, Option.map_eq_some'] at hp
    obtain ⟨c, _, v, hv, rfl⟩ := hp
    exact hv
  · intro h
    rw [listedColumns_fst, List.filter_eq_self]
    exact h

theorem rowsEqual_iff (o : RangeOrder) (a b : Row) :
    rowsEqual o a b = true ↔
      a.len = b.len ∧ ∀ k v, a.get? k = some v → sprintV v = sprintV (getValue b k) := by
  unfold rowsEqual
  by_cases hlen : a.len = b.len
  · simp only [hlen, ne_eq, not_true_eq_false, if_false, List.all_eq_true, beq_iff_eq,
      true_and]
    constructor
    · intro h k v hk
      exact h (k, v) ((GoMap.mem_range a o (k, v)).2 hk)
    · intro h e he
      exact h e.1 e.2 ((GoMap.mem_range a o e).1 he)
  · simp [hlen]

theorem sameColumnsAndText_iff (a b : Row) :
    sameColumnsAndText a b = true ↔
      a.len = b.len ∧ ∀ k v, a.get? k = some v →
        ∃ w, b.get? k = some w ∧ sprintV v = sprintV w := by
  unfold sameColumnsAndText
  simp only [Bool.and_eq_true, beq_iff_eq, List.all_eq_true]
  refine and_congr_right (fun _ => ?_)
  constructor
  · intro h k v hk
    have := h (k, v) ((a.get?_eq_some_iff k v).1 hk)
    cases hb : b.get? k with
    | none => simp [hb] at this
    | some w =>
      simp only [hb, beq_iff_eq] at this
      exact ⟨w, rfl, this⟩
  · intro h e he
    obtain ⟨w, hw, heq⟩ := h e.1 e.2 ((a.get?_eq_some_iff e.1 e.2).2 he)
    simp [hw, heq]

/-- Claim C16, as stated, fails: a row whose one column `x` holds nil and a
row whose one column is `y` have the same number of columns, and the missing
`b["x"]` reads as nil, so `rowsEqual` is true although column `x` of the
first row is not present in the second. -/
theorem rowsEqual_missing_column_as_nil :
    rowsEqual RangeOrder.stored (GoMap.ofList [("x", Value.nil)])
        (GoMap.ofList [("y", Value.integer IntKind.int 1)]) = true ∧
      (GoMap.ofList [("y", Value.integer IntKind.int 1)] : Row).contains "x" = false ∧
      sameColumnsAndText (GoMap.ofList [("x", Value.nil)])
        (GoMap.ofList [("y", Value.integer IntKind.int 1)]) = false := by
  decide

/-- Claim C16, amended: for all rows `a` and `b`, `rowsEqual(a, b)` is true
exactly when `a` and `b` have the same number of columns and every column of
`a` has a value whose stringified form is that of `b[k]`, a column missing
from `b` reading as nil; when every column of `a` is present in `b`, that is:
every column of `a` is present in `b` with the same stringified value. The
comparison is not type-aware: the string "5" and the integer 5 compare equal
while "5.0" and "5" do not. -/
theorem rowsEqual_stringified (o : RangeOrder) (a b : Row) :
    (rowsEqual o a b = true ↔
      a.len = b.len ∧ ∀ k v, a.get? k = some v → sprintV v = sprintV (getValue b k)) ∧
    ((∀ k, a.contains k = true → b.contains k = true) →
      rowsEqual o a b = sameColumnsAndText a b) ∧
    rowsEqual o (GoMap.ofList [("c", Value.str "5")])
      (GoMap.ofList [("c", Value.integer IntKind.int64 5)]) = true ∧
    rowsEqual o (GoMap.ofList [("c", Value.str "5.0")])
      (GoMap.ofList [("c", Value.str "5")]) = false := by
  have horder : ∀ x y : Row, rowsEqual o x y = rowsEqual RangeOrder.stored x y := by
    intro x y
    rw [Bool.eq_iff_iff, rowsEqual_iff, rowsEqual_iff]
  refine ⟨rowsEqual_iff o a b, ?_, ?_, ?_⟩
  · intro hsub
    rw [Bool.eq_iff_iff, rowsEqual_iff, sameColumnsAndText_iff]
    refine and_congr_right (fun _ => ?_)
    constructor
    · intro h k v hk
      have hb := hsub k (GoMap.contains_of_get? a k v hk)
      obtain ⟨w, hw⟩ := Option.isSome_iff_exists.1 hb
      refine ⟨w, hw, ?_⟩
      have := h k v hk
      simpa [getValue, hw] using this
    · intro h k v hk
      obtain ⟨w, hw, heq⟩ := h k v hk
      simpa [getValue, hw] using heq
  · rw [horder]
    decide
  · rw [horder]
    decide

/-! ## The value codec -/

theorem replaceAllChar_quote (s : String) :
    replaceAllChar s singleQuote "''" = String.mk (doubleQuotes s.data) := by
  unfold replaceAllChar
  congr 1
  induction s.data with
  | nil => rfl
  | cons c cs ih =>
    rw [List.flatMap_cons, ih, doubleQuotes]
    split
    · rfl
    · rfl

theorem doubleQuotes_of_not_mem (l : List Char) (h : singleQuote ∉ l) : doubleQuotes l = l := by
  induction l with
  | nil => rfl
  | cons c cs ih =>
    rw [List.mem_cons, not_or] at h
    rw [doubleQuotes, if_neg (fun e => h.1 e.symm), ih h.2]

theorem escapeValue_str (s : String) :
    escapeValue (.str s) = "'" ++ String.mk (doubleQuotes s.data) ++ "'" := by
  simp [escapeValue, sprintV, replaceAllChar_quote]

/-- Claim C17 (value codec): `escapeValue` returns "NULL" for nil, "1" for
boolean true and "0" for boolean false, and for every string `s` it returns
`s` with each single quote doubled and nothing else changed, wrapped in one
pair of single quotes; a string without a single quote, a backslash included,
is only wrapped. For the string O'Brien the result is 'O''Brien'. -/
theorem escapeValue_codec :
    escapeValue Value.nil = "NULL" ∧
      escapeValue (Value.bool true) = "1" ∧
      escapeValue (Value.bool false) = "0" ∧
      (∀ s : String, escapeValue (Value.str s) =
        "'" ++ String.mk (doubleQuotes s.data) ++ "'") ∧
      (∀ s : String, singleQuote ∉ s.data → escapeValue (Value.str s) = "'" ++ s ++ "'") ∧
      escapeValue (Value.str (String.mk ['a', Char.ofNat 92, 'b'])) =
        "'" ++ String.mk ['a', Char.ofNat 92, 'b'] ++ "'" ∧
      escapeValue (Value.str "O'Brien") = "'O''Brien'" := by
  refine ⟨rfl, rfl, rfl, escapeValue_str, ?_, by decide, by decide⟩
  intro s hs
  rw [escapeValue_str, doubleQuotes_of_not_mem _ hs]

/-- Claim C18, the code at the failing inputs: an integer of type `uint64`
(and of every other integer type the type switch does not list: int8, int16,
uint, uint8, uint16, uint32) reaches the default branch of `escapeValue` and
comes back wrapped in single quotes, while int, int32 and int64 come back
bare. -/
theorem escapeValue_unlisted_integer_quoted :
    escapeValue (Value.integer IntKind.uint64 5) = "'5'" ∧
      escapeValue (Value.integer IntKind.int8 5) = "'5'" ∧
      escapeValue (Value.integer IntKind.int16 5) = "'5'" ∧
      escapeValue (Value.integer IntKind.uint 5) = "'5'" ∧
      escapeValue (Value.integer IntKind.uint8 5) = "'5'" ∧
      escapeValue (Value.integer IntKind.uint16 5) = "'5'" ∧
      escapeValue (Value.integer IntKind.uint32 5) = "'5'" ∧
      escapeValue (Value.integer IntKind.int 5) = "5" ∧
      escapeValue (Value.integer IntKind.int32 5) = "5" ∧
      escapeValue (Value.integer IntKind.int64 5) = "5" := by
  decide

theorem replaceAllChar_backslash (s : String) :
    replaceAllChar s backslash (String.mk [backslash, backslash]) =
      String.mk (doubleBackslashes s.data) := by
  unfold replaceAllChar
  congr 1
  induction s.data with
  | nil => rfl
  | cons c cs ih =>
    rw [List.flatMap_cons, ih, doubleBackslashes]
    split
    · rfl
    · rfl

theorem doubleBackslashes_of_not_mem (l : List Char) (h : backslash ∉ l) :
    doubleBackslashes l = l := by
  induction l with
  | nil => rfl
  | cons c cs ih =>
    rw [List.mem_cons, not_or] at h
    rw [doubleBackslashes, if_neg (fun e => h.1 e.symm), ih h.2]

theorem backslash_not_mem_doubleQuotes (l : List Char) (h : backslash ∉ l) :
    backslash ∉ doubleQuotes l := by
  induction l with
  | nil => simp [doubleQuotes]
  | cons c cs ih =>
    rw [List.mem_cons, not_or] at h
    rw [doubleQuotes]
    split
    · simp only [List.mem_cons, not_or]
      exact ⟨by decide, by decide, ih h.2⟩
    · simp only [List.mem_cons, not_or]
      exact ⟨h.1, ih h.2⟩

theorem escapeString_eq (s : String) :
    escapeString s = String.mk (doubleBackslashes (doubleQuotes s.data)) := by
  unfold escapeString
  simp only [replaceAllChar_quote, replaceAllChar_backslash]

/-- Claim C19, as stated, fails: for the one-character string that is a
backslash, `escapeString` gives two backslashes, so wrapping it in single
quotes gives a text of four characters, while `escapeValue` gives the
backslash unchanged between the quotes, three characters. -/
theorem escapeString_doubles_backslash :
    "'" ++ escapeString (String.mk [backslash]) ++ "'" =
        String.mk [singleQuote, backslash, backslash, singleQuote] ∧
      escapeValue (Value.str (String.mk [backslash])) =
        String.mk [singleQuote, backslash, singleQuote] ∧
      "'" ++ escapeString (String.mk [backslash]) ++ "'" ≠
        escapeValue (Value.str (String.mk [backslash])) := by
  decide

/-- Claim C19, amended: for every string `s`, the text that
`GenerateCreateTableSQL` embeds between single quotes for a comment or a
non-sentinel default literal equal to `s` is `escapeString(s)`, which is `s`
with single quotes doubled and then every backslash doubled; for every `s`
that contains no backslash, wrapping `escapeString(s)` in single quotes gives
exactly `escapeValue(s)`. -/
theorem escapeString_vs_escapeValue (s : String) :
    escapeString s = String.mk (doubleBackslashes (doubleQuotes s.data)) ∧
      (backslash ∉ s.data → "'" ++ escapeString s ++ "'" = escapeValue (Value.str s)) ∧
      (∀ (u : UpperCase) (tdef : TableDefinition), tdef.Comment = s → s ≠ "" →
        ∃ pre, GenerateCreateTableSQL u tdef = pre ++ " COMMENT='" ++ escapeString s ++ "';") := by
  refine ⟨escapeString_eq s, ?_, ?_⟩
  · intro h
    rw [escapeString_eq, escapeValue_str,
      doubleBackslashes_of_not_mem _ (backslash_not_mem_doubleQuotes _ h)]
  · intro u tdef hc hs
    subst hc
    refine ⟨"CREATE TABLE `" ++ tdef.Name ++ "` (\n" ++
      stringsJoin (createTableClauses u tdef) ",\n" ++ "\n)" ++
      (if tdef.Engine ≠ "" then " ENGINE=" ++ tdef.Engine else " ENGINE=InnoDB") ++
      (if tdef.Charset ≠ "" then " DEFAULT CHARSET=" ++ tdef.Charset
        else " DEFAULT CHARSET=utf8mb4") ++
      (if tdef.Collation ≠ "" then " COLLATE=" ++ tdef.Collation
        else " COLLATE=utf8mb4_unicode_ci"), ?_⟩
    unfold GenerateCreateTableSQL
    rw [if_pos hs]
    simp only [String.append_assoc]
    rfl

/-! ## Column clauses of CREATE TABLE -/

theorem needsLength_iff (u : UpperCase) (ty : String) :
    needsLength u ty = true ↔ typeTakesLength u ty := by
  simp [needsLength, typeTakesLength, or_assoc]

theorem stringsToUpper_ascii (u : UpperCase) (s : String)
    (h : ∀ c ∈ s.data, c.toNat < 128) :
    stringsToUpper u s = stringsToUpper UpperCase.asciiOnly s := by
  unfold stringsToUpper
  congr 1
  apply List.map_congr_left
  intro c hc
  exact u.ascii c (h c hc)

theorem buildColumnDefinition_parts (u : UpperCase) (col : ColumnDefinition) :
    buildColumnDefinition u col = stringsJoin (columnClauseParts u col) " " := by
  unfold buildColumnDefinition columnClauseParts
  simp only [← needsLength_iff]
  by_cases hl : 0 < col.Length <;> cases ht : needsLength u col.Type_ <;>
    cases hn : col.Nullable <;> cases hd : col.DefaultValue <;>
    cases ha : col.AutoIncrement <;> cases hu : col.Unique <;> cases hp : col.PrimaryKey <;>
    by_cases hc : col.Comment = "" <;>
    simp [hl, hc, String.append_assoc] <;>
    split <;> simp

theorem columnLoop_foldl (u : UpperCase) (cols : List ColumnDefinition)
    (defs keys : List String) :
    cols.foldl (fun st col =>
        (st.1 ++ ["  " ++ buildColumnDefinition u col],
          if col.PrimaryKey then st.2 ++ ["`" ++ col.Name ++ "`"] else st.2)) (defs, keys) =
      (defs ++ cols.map (fun c => "  " ++ buildColumnDefinition u c),
        keys ++ (cols.filter (fun c => c.PrimaryKey)).map (fun c => "`" ++ c.Name ++ "`")) := by
  induction cols generalizing defs keys with
  | nil => simp
  | cons c cs ih =>
    rw [List.foldl_cons, ih]
    cases hp : c.PrimaryKey <;> simp [List.filter_cons, hp]

theorem columnLoop_eq (u : UpperCase) (cols : List ColumnDefinition) :
    columnLoop u cols =
      (cols.map (fun c => "  " ++ buildColumnDefinition u c),
        (cols.filter (fun c => c.PrimaryKey)).map (fun c => "`" ++ c.Name ++ "`")) := by
  unfold columnLoop
  rw [columnLoop_foldl]
  simp

theorem foldl_append_singleton {α : Type} (h : α → String) (l : List α) (init : List String) :
    l.foldl (fun acc x => acc ++ [h x]) init = init ++ l.map h := by
  induction l generalizing init with
  | nil => simp
  | cons a l ih => rw [List.foldl_cons, ih]; simp

theorem createTableClauses_eq (u : UpperCase) (tdef : TableDefinition) :
    createTableClauses u tdef =
      tdef.Columns.map (fun c => "  " ++ buildColumnDefinition u c) ++
        ((if ((tdef.Columns.filter (fun c => c.PrimaryKey)).map
              (fun c => "`" ++ c.Name ++ "`")).length > 0 then
            ["  PRIMARY KEY (" ++ stringsJoin ((tdef.Columns.filter (fun c => c.PrimaryKey)).map
              (fun c => "`" ++ c.Name ++ "`")) ", " ++ ")"]
          else []) ++
          tdef.Indexes.map indexClause) := by
  unfold createTableClauses
  rw [foldl_append_singleton, columnLoop_eq]
  simp only
  split <;> simp

/-- Claim C20 (column clause): for every column definition,
`buildColumnDefinition` returns the space-joined sequence, in this order, of:
the back-quoted name; the type, followed by "(<length>)" exactly when the
length is positive and the upper-cased type is VARCHAR, CHAR, DECIMAL, FLOAT
or DOUBLE; "NOT NULL" or "NULL"; when a default is present, "DEFAULT <v>" bare
if `v` is exactly CURRENT_TIMESTAMP or NULL and "DEFAULT '<escaped v>'"
otherwise; "AUTO_INCREMENT" when flagged; "UNIQUE" exactly when the column is
unique and not flagged primary key; and "COMMENT '<escaped comment>'" when the
comment is non-empty (`columnClauseParts`). `GenerateCreateTableSQL` emits one
such clause per column, in the given order, before any other clause. -/
theorem column_clause_shape (u : UpperCase) (col : ColumnDefinition)
    (tdef : TableDefinition) :
    buildColumnDefinition u col = stringsJoin (columnClauseParts u col) " " ∧
      (typeTakesLength u "varchar" ∧ typeTakesLength u "Char" ∧
        typeTakesLength u "DECIMAL" ∧ typeTakesLength u "float" ∧
        typeTakesLength u "Double" ∧ ¬ typeTakesLength u "INT" ∧
        ¬ typeTakesLength u "TEXT") ∧
      (∃ (rest : List String) (tail : String),
        createTableClauses u tdef =
          tdef.Columns.map (fun c => "  " ++ buildColumnDefinition u c) ++ rest ∧
        GenerateCreateTableSQL u tdef =
          "CREATE TABLE `" ++ tdef.Name ++ "` (\n" ++
            stringsJoin (tdef.Columns.map (fun c => "  " ++ buildColumnDefinition u c) ++ rest)
              ",\n" ++ tail) := by
  refine ⟨buildColumnDefinition_parts u col, ?_, ?_⟩
  · have h : ∀ s : String, (∀ c ∈ s.data, c.toNat < 128) →
        (typeTakesLength u s ↔ typeTakesLength UpperCase.asciiOnly s) := by
      intro s hs
      unfold typeTakesLength
      rw [stringsToUpper_ascii u s hs]
    refine ⟨(h _ (by decide)).2 (by decide), (h _ (by decide)).2 (by decide),
      (h _ (by decide)).2 (by decide), (h _ (by decide)).2 (by decide),
      (h _ (by decide)).2 (by decide), fun hh => absurd ((h _ (by decide)).1 hh) (by decide),
      fun hh => absurd ((h _ (by decide)).1 hh) (by decide)⟩
  · refine ⟨_, "\n)" ++
      (if tdef.Engine ≠ "" then " ENGINE=" ++ tdef.Engine else " ENGINE=InnoDB") ++
      (if tdef.Charset ≠ "" then " DEFAULT CHARSET=" ++ tdef.Charset
        else " DEFAULT CHARSET=utf8mb4") ++
      (if tdef.Collation ≠ "" then " COLLATE=" ++ tdef.Collation
        else " COLLATE=utf8mb4_unicode_ci") ++
      (if tdef.Comment ≠ "" then " COMMENT='" ++ escapeString tdef.Comment ++ "'" else "") ++
      ";", createTableClauses_eq u tdef, ?_⟩
    unfold GenerateCreateTableSQL
    rw [← createTableClauses_eq]
    simp only [String.append_assoc]

/-! ## The PRIMARY KEY clause of CREATE TABLE -/

theorem columnClause_not_primaryKey (u : UpperCase) (c : ColumnDefinition) :
    isPrimaryKeyClause ("  " ++ buildColumnDefinition u c) = false := by
  rw [buildColumnDefinition_parts]
  simp [isPrimaryKeyClause, hasPrefix, columnClauseParts, stringsJoin, List.isPrefixOf]

theorem indexClause_not_primaryKey (idx : IndexDefinition) :
    isPrimaryKeyClause (indexClause idx) = false := by
  unfold indexClause
  split <;> simp [isPrimaryKeyClause, hasPrefix, List.isPrefixOf]

theorem primaryKeyClause_is (body : String) :
    isPrimaryKeyClause ("  PRIMARY KEY (" ++ body ++ ")") = true := by
  simp [isPrimaryKeyClause, hasPrefix]

/-- Claim C21 (PRIMARY KEY clause): for every table definition, the clauses
that `GenerateCreateTableSQL` joins are the column clauses, then, exactly when
at least one column is flagged primary key, the single clause
"PRIMARY KEY (...)" that lists the back-quoted names of the flagged columns
(`flaggedPrimary`: every flagged column and no other, in column-definition
order) joined by ", ", then the index clauses. That clause is the only
PRIMARY KEY clause among them, and there is none when no column is flagged. -/
theorem primary_key_clause (u : UpperCase) (tdef : TableDefinition) :
    createTableClauses u tdef =
        tdef.Columns.map (fun c => "  " ++ buildColumnDefinition u c) ++
          (if (flaggedPrimary tdef).isEmpty then []
            else ["  PRIMARY KEY (" ++
              stringsJoin ((flaggedPrimary tdef).map (fun c => "`" ++ c.Name ++ "`")) ", " ++
              ")"]) ++
          tdef.Indexes.map indexClause ∧
      (createTableClauses u tdef).filter isPrimaryKeyClause =
        (if (flaggedPrimary tdef).isEmpty then []
          else ["  PRIMARY KEY (" ++
            stringsJoin ((flaggedPrimary tdef).map (fun c => "`" ++ c.Name ++ "`")) ", " ++
            ")"]) ∧
      (∀ c, c ∈ flaggedPrimary tdef ↔ c ∈ tdef.Columns ∧ c.PrimaryKey = true) ∧
      (flaggedPrimary tdef).Sublist tdef.Columns ∧
      (∃ tail : String,
        GenerateCreateTableSQL u tdef =
          "CREATE TABLE `" ++ tdef.Name ++ "` (\n" ++
            stringsJoin (createTableClauses u tdef) ",\n" ++ tail) := by
  have hshape : createTableClauses u tdef =
      tdef.Columns.map (fun c => "  " ++ buildColumnDefinition u c) ++
        (if (flaggedPrimary tdef).isEmpty then []
          else ["  PRIMARY KEY (" ++
            stringsJoin ((flaggedPrimary tdef).map (fun c => "`" ++ c.Name ++ "`")) ", " ++
            ")"]) ++
        tdef.Indexes.map indexClause := by
    rw [createTableClauses_eq, List.append_assoc]
    unfold flaggedPrimary
    cases h : tdef.Columns.filter (fun c => c.PrimaryKey) <;> simp
  refine ⟨hshape, ?_, ?_, ?_, ?_⟩
  · rw [hshape, List.filter_append, List.filter_append]
    have h1 : (tdef.Columns.map (fun c => "  " ++ buildColumnDefinition u c)).filter
        isPrimaryKeyClause = [] := by
      rw [List.filter_eq_nil_iff]
      intro s hs
      obtain ⟨c, _, rfl⟩ := List.mem_map.1 hs
      simp [columnClause_not_primaryKey]
    have h3 : (tdef.Indexes.map indexClause).filter isPrimaryKeyClause = [] := by
      rw [List.filter_eq_nil_iff]
      intro s hs
      obtain ⟨c, _, rfl⟩ := List.mem_map.1 hs
      simp [indexClause_not_primaryKey]
    rw [h1, h3, List.nil_append, List.append_nil]
    split
    · rfl
    · simp [List.filter_cons, primaryKeyClause_is]
  · intro c
    simp [flaggedPrimary, List.mem_filter]
  · exact List.filter_sublist _
  · refine ⟨"\n)" ++
      (if tdef.Engine ≠ "" then " ENGINE=" ++ tdef.Engine else " ENGINE=InnoDB") ++
      (if tdef.Charset ≠ "" then " DEFAULT CHARSET=" ++ tdef.Charset
        else " DEFAULT CHARSET=utf8mb4") ++
      (if tdef.Collation ≠ "" then " COLLATE=" ++ tdef.Collation
        else " COLLATE=utf8mb4_unicode_ci") ++
      (if tdef.Comment ≠ "" then " COMMENT='" ++ escapeString tdef.Comment ++ "'" else "") ++
      ";", ?_⟩
    unfold GenerateCreateTableSQL
    simp only [String.append_assoc]

/-! ## Defaults in the column definitions of the schema differencer -/

/-- Claim C22, the code at the failing inputs: `buildColumnDef` writes every
present default between single quotes as it stands. The default
CURRENT_TIMESTAMP comes out as the string literal 'CURRENT_TIMESTAMP' and the
default NULL as 'NULL', not as bare keywords; the single quote of the default
"it's" is not doubled; and the ADD COLUMN entry of `CompareSchemas` carries
that text. `buildColumnDefinition` of the table builder renders the same
defaults bare, respectively with the quote doubled. -/
theorem buildColumnDef_default_raw (col : ColumnInfo) (d : String) :
    buildColumnDef { col with Default := some d } =
        col.Type_ ++ (if col.Nullable = "NO" then " NOT NULL" else "") ++
          (" DEFAULT '" ++ d ++ "'") ++ (if col.Extra ≠ "" then " " ++ col.Extra else "") ∧
      buildColumnDef ⟨"created_at", "timestamp", "NO", "", some "CURRENT_TIMESTAMP", "", 2⟩ =
        "timestamp NOT NULL DEFAULT 'CURRENT_TIMESTAMP'" ∧
      buildColumnDef ⟨"note", "varchar(50)", "YES", "", some "NULL", "", 2⟩ =
        "varchar(50) DEFAULT 'NULL'" ∧
      buildColumnDef ⟨"note", "varchar(50)", "NO", "", some "it's", "", 2⟩ =
        "varchar(50) NOT NULL DEFAULT 'it's'" ∧
      (addColumnDiff "t" ⟨"t", "", [⟨"id", "int", "NO", "PRI", none, "", 1⟩,
            ⟨"created_at", "timestamp", "NO", "", some "CURRENT_TIMESTAMP", "", 2⟩], []⟩
          "created_at"
          ⟨"created_at", "timestamp", "NO", "", some "CURRENT_TIMESTAMP", "", 2⟩).SQL =
        "ALTER TABLE `t` ADD COLUMN `created_at` timestamp NOT NULL DEFAULT 'CURRENT_TIMESTAMP' AFTER `id`;" ∧
      buildColumnDefinition UpperCase.asciiOnly
          ⟨"created_at", "timestamp", 0, false, some "CURRENT_TIMESTAMP", false, false, false, ""⟩ =
        "`created_at` timestamp NOT NULL DEFAULT CURRENT_TIMESTAMP" ∧
      buildColumnDefinition UpperCase.asciiOnly
          ⟨"note", "varchar", 50, false, some "it's", false, false, false, ""⟩ =
        "`note` varchar(50) NOT NULL DEFAULT 'it''s'" := by
  refine ⟨?_, by decide, by decide, by decide, by decide, by decide, by decide⟩
  unfold buildColumnDef
  by_cases hn : col.Nullable = "NO" <;> by_cases he : col.Extra = "" <;>
    simp [hn, he, String.append_assoc]

/-! ## Termination of synthesized statements -/

theorem endsWithSemicolon_append (a b : String) (h : endsWithSemicolon b = true) :
    endsWithSemicolon (a ++ b) = true := by
  unfold endsWithSemicolon at *
  rw [String.data_append]
  have hne : b.data ≠ [] := by
    intro hb
    rw [hb] at h
    simp at h
  rw [List.getLast?_append_of_ne_nil _ hne]
  exact h

theorem compareTableStructure_semicolon (rt : GoRuntime) (tableName : String)
    (s t : TableInfo) (d : DiffResult) (h : d ∈ compareTableStructure rt tableName s t) :
    endsWithSemicolon d.SQL = true := by
  simp only [compareTableStructure, List.mem_append, addedColumns, removedColumns,
    modifiedColumns, sourceIndexDiffs, targetIndexDiffs, List.mem_filterMap] at h
  rcases h with (((⟨e, _, h⟩ | ⟨e, _, h⟩) | ⟨e, _, h⟩) | ⟨e, _, h⟩) | ⟨e, _, h⟩
  · split at h
    · cases h
    · cases h
      exact endsWithSemicolon_append _ ";" (by decide)
  · split at h
    · cases h
    · cases h
      exact endsWithSemicolon_append _ "`;" (by decide)
  · split at h
    · split at h
      · cases h
      · cases h
        exact endsWithSemicolon_append _ ";" (by decide)
    · cases h
  · split at h
    · cases h
    · split at h
      · cases h
        exact endsWithSemicolon_append _ ");" (by decide)
      · split at h
        · cases h
        · cases h
          exact endsWithSemicolon_append _ ");" (by decide)
  · split at h
    · cases h
    · split at h
      · cases h
      · cases h
        exact endsWithSemicolon_append _ "`;" (by decide)

/-- Claim C24 (statements end with ";"): for all inputs, the SQL of every
entry returned by `CompareSchemas`, the results of `generateInsertSQL`,
`generateUpdateSQL` and `generateDeleteSQL`, and the result of
`GenerateCreateTableSQL` each have ";" as their last character. -/
theorem statements_end_with_semicolon :
    (∀ (rt : GoRuntime) (source target : SchemaInfo),
      ∀ d ∈ CompareSchemas rt source target, endsWithSemicolon d.SQL = true) ∧
    (∀ (tableName : String) (row : Row) (columns : List String),
      endsWithSemicolon (generateInsertSQL tableName row columns) = true) ∧
    (∀ (o : RangeOrder) (tableName : String) (row : Row) (primaryKeys : List String),
      endsWithSemicolon (generateUpdateSQL o tableName row primaryKeys) = true) ∧
    (∀ (tableName : String) (primaryKeys : List String) (pk : Row),
      endsWithSemicolon (generateDeleteSQL tableName primaryKeys pk) = true) ∧
    (∀ (u : UpperCase) (tdef : TableDefinition),
      endsWithSemicolon (GenerateCreateTableSQL u tdef) = true) := by
  refine ⟨?_, ?_, ?_, ?_, ?_⟩
  · intro rt source target d hd
    rw [mem_CompareSchemas, mem_unsortedDiffs] at hd
    rcases hd with ⟨k, T, _, _, rfl⟩ | ⟨k, T, _, _, rfl⟩ | ⟨k, S, T, _, _, h⟩
    · exact endsWithSemicolon_append _ ";" (by decide)
    · exact endsWithSemicolon_append _ "`;" (by decide)
    · exact compareTableStructure_semicolon rt k S T d h
  · intro tableName row columns
    exact endsWithSemicolon_append _ ");" (by decide)
  · intro o tableName row primaryKeys
    exact endsWithSemicolon_append _ ";" (by decide)
  · intro tableName primaryKeys pk
    exact endsWithSemicolon_append _ ";" (by decide)
  · intro u tdef
    exact endsWithSemicolon_append _ ";" (by decide)

/-! ## The primary-key precondition of `CompareTableData` -/

/-- Claim C23 (no primary key): whenever both connections open and the
primary-key list obtained for the table is empty, `CompareTableData` returns
the error "table <name> has no primary key" and no result, having called
`Connect` twice and `getPrimaryKeys` once and nothing else: `getTableData` is
called neither for the source nor for the target, so no row is fetched. -/
theorem no_primary_key_error (rt : GoRuntime) (w : SqlWorld)
    (sourceConfig targetConfig : ConnectionConfig) (tableName : String)
    (hs : w.connect sourceConfig = .ok ()) (ht : w.connect targetConfig = .ok ())
    (hpk : w.primaryKeys sourceConfig tableName = .ok []) :
    (CompareTableData rt w sourceConfig targetConfig tableName).2 =
        .error ("table " ++ tableName ++ " has no primary key") ∧
      (CompareTableData rt w sourceConfig targetConfig tableName).1 =
        [DbCall.Connect sourceConfig, DbCall.Connect targetConfig,
          DbCall.getPrimaryKeys ⟨sourceConfig⟩ tableName] ∧
      ∀ c ∈ (CompareTableData rt w sourceConfig targetConfig tableName).1,
        c.fetchesRows = false := by
  have h : CompareTableData rt w sourceConfig targetConfig tableName =
      ([DbCall.Connect sourceConfig, DbCall.Connect targetConfig,
          DbCall.getPrimaryKeys ⟨sourceConfig⟩ tableName],
        .error ("table " ++ tableName ++ " has no primary key")) := by
    simp [CompareTableData, Connect, getPrimaryKeys, hs, ht, hpk]
  rw [h]
  refine ⟨rfl, rfl, ?_⟩
  intro c hc
  simp only [List.mem_cons, List.mem_singleton, List.not_mem_nil, or_false] at hc
  rcases hc with rfl | rfl | rfl <;> rfl

theorem no_primary_key_error_witness :
    (CompareTableData GoRuntime.plain keylessWorld (localConfig "prod") (localConfig "staging")
        "events").2 = .error "table events has no primary key" ∧
      (CompareTableData GoRuntime.plain keylessWorld (localConfig "prod")
        (localConfig "staging") "events").1 =
        [DbCall.Connect (localConfig "prod"), DbCall.Connect (localConfig "staging"),
          DbCall.getPrimaryKeys ⟨localConfig "prod"⟩ "events"] ∧
      ∀ c ∈ (CompareTableData GoRuntime.plain keylessWorld (localConfig "prod")
        (localConfig "staging") "events").1, c.fetchesRows = false :=
  no_primary_key_error GoRuntime.plain keylessWorld (localConfig "prod")
    (localConfig "staging") "events" rfl rfl rfl

/-! ## The composite key of `getTableData` -/

theorem append_sep_cancel {α : Type} (c : α) (a b x y : List α) (ha : c ∉ a) (hb : c ∉ b)
    (h : a ++ c :: x = b ++ c :: y) : a = b ∧ x = y := by
  induction a generalizing b with
  | nil =>
    cases b with
    | nil => exact ⟨rfl, (List.cons.inj h).2⟩
    | cons e b =>
      have := (List.cons.inj h).1
      exact absurd (this ▸ List.mem_cons_self _ _) hb
  | cons d a ih =>
    cases b with
    | nil =>
      have := (List.cons.inj h).1
      exact absurd (this ▸ List.mem_cons_self _ _) ha
    | cons e b =>
      obtain ⟨hde, hrest⟩ := List.cons.inj h
      obtain ⟨hab, hxy⟩ := ih b (fun hm => ha (List.mem_cons_of_mem _ hm))
        (fun hm => hb (List.mem_cons_of_mem _ hm)) hrest
      exact ⟨by rw [hde, hab], hxy⟩

theorem stringsJoin_pipe_injective (l1 l2 : List String) (hlen : l1.length = l2.length)
    (h1 : ∀ s ∈ l1, pipeFree s) (h2 : ∀ s ∈ l2, pipeFree s)
    (h : stringsJoin l1 "|" = stringsJoin l2 "|") : l1 = l2 := by
  induction l1 generalizing l2 with
  | nil =>
    cases l2 with
    | nil => rfl
    | cons t l2 => simp at hlen
  | cons s l1 ih =>
    cases l2 with
    | nil => simp at hlen
    | cons t l2 =>
      cases l1 with
      | nil =>
        cases l2 with
        | nil =>
          simp only [stringsJoin] at h
          rw [h]
        | cons t2 l2 => simp at hlen
      | cons s2 l1 =>
        cases l2 with
        | nil => simp at hlen
        | cons t2 l2 =>
          simp only [stringsJoin] at h
          have h' := congrArg String.data h
          simp only [String.data_append, List.append_assoc] at h'
          have hc := append_sep_cancel '|' s.data t.data _ _
            (h1 s (List.mem_cons_self _ _)) (h2 t (List.mem_cons_self _ _)) h'
          have hst : s = t := String.ext hc.1
          have hrest := ih (t2 :: l2) (by simpa using hlen)
            (fun x hx => h1 x (List.mem_cons_of_mem _ hx))
            (fun x hx => h2 x (List.mem_cons_of_mem _ hx)) (String.ext hc.2)
          rw [hst, hrest]

theorem get?_snapshot_fold (columns primaryKeys : List String) (rows : List (List Value))
    (init : GoMap Row) (k : String) (row : Row)
    (h : (rows.foldl (fun data values =>
        data.set (compositeKey (scannedRow columns values) primaryKeys)
          (scannedRow columns values)) init).get? k = some row) :
    init.get? k = some row ∨
      (row ∈ rows.map (scannedRow columns) ∧ k = compositeKey row primaryKeys) := by
  induction rows generalizing init with
  | nil => exact Or.inl h
  | cons values rows ih =>
    rw [List.foldl_cons] at h
    rcases ih _ h with h' | ⟨hmem, hk⟩
    · rw [GoMap.get?_set] at h'
      split at h'
      · rename_i hkey
        cases h'
        exact Or.inr ⟨by simp, hkey.symm⟩
      · exact Or.inl h'
    · exact Or.inr ⟨by simp [List.mem_map] at hmem ⊢; exact Or.inr hmem, hk⟩

theorem contains_snapshot_fold (columns primaryKeys : List String) (rows : List (List Value))
    (init : GoMap Row) (k : String)
    (h : init.contains k = true ∨
      ∃ values ∈ rows, k = compositeKey (scannedRow columns values) primaryKeys) :
    (rows.foldl (fun data values =>
        data.set (compositeKey (scannedRow columns values) primaryKeys)
          (scannedRow columns values)) init).contains k = true := by
  induction rows generalizing init with
  | nil =>
    rcases h with h | ⟨values, hv, _⟩
    · exact h
    · cases hv
  | cons values rows ih =>
    rw [List.foldl_cons]
    apply ih
    rcases h with h | ⟨values', hv, hk⟩
    · left
      unfold GoMap.contains at h ⊢
      rw [GoMap.get?_set]
      split
      · rfl
      · exact h
    · rcases List.mem_cons.1 hv with rfl | hv'
      · left
        unfold GoMap.contains
        rw [GoMap.get?_set, if_pos hk.symm]
        rfl
      · exact Or.inr ⟨values', hv', hk⟩

/-- Claim C25, counterexample: with primary-key columns `(a, b)`, the rows
with key values ("x|y", "z") and ("x", "y|z") have different tuples of
stringified primary-key values and the same composite key "x|y|z"; a table
holding these two rows is read by `getTableData` as a snapshot of one row. -/
theorem compositeKey_collision :
    keyTuple pipeRowA ["a", "b"] = ["x|y", "z"] ∧
      keyTuple pipeRowB ["a", "b"] = ["x", "y|z"] ∧
      keyTuple pipeRowA ["a", "b"] ≠ keyTuple pipeRowB ["a", "b"] ∧
      compositeKey pipeRowA ["a", "b"] = "x|y|z" ∧
      compositeKey pipeRowB ["a", "b"] = "x|y|z" ∧
      (scannedRow ["a", "b"] [.bytes "x|y", .bytes "z"]).entries = pipeRowA.entries ∧
      (scannedRow ["a", "b"] [.bytes "x", .bytes "y|z"]).entries = pipeRowB.entries ∧
      (∃ data, getTableData pipeWorld ⟨localConfig "prod"⟩ "t" ["a", "b"] ["a", "b"] =
          .ok data ∧ data.len = 1 ∧
          data.entries.map (fun e => (e.1, e.2.entries)) =
            [("x|y|z", pipeRowB.entries)]) := by
  exact ⟨by decide, by decide, by decide, by decide, by decide, by decide, by decide,
    ⟨_, rfl, by decide, by decide⟩⟩

/-- Claim C25, amended (composite key): when the SELECT of `getTableData`
succeeds, it returns a snapshot in which every row is one of the scanned rows,
stored under its composite key, and the composite key of every scanned row is
a key of the snapshot. The composite key of a row is the stringified values of
the primary-key columns, in primary-key-column order, joined by "|". For every
primary-key column list and any two rows whose tuples of stringified
primary-key values differ, the two composite keys differ provided no
stringified primary-key value of either row contains "|"; with a single
primary-key column they differ without that proviso. -/
theorem compositeKey_unique_without_pipe :
    (∀ (w : SqlWorld) (db : DB) (tableName : String) (columns primaryKeys : List String)
        (rows : List (List Value)),
      w.query db.config (selectStatement tableName columns) = .ok rows →
      ∃ data, getTableData w db tableName columns primaryKeys = .ok data ∧
        (∀ k row, data.get? k = some row →
          row ∈ rows.map (scannedRow columns) ∧ k = compositeKey row primaryKeys) ∧
        (∀ values ∈ rows,
          data.contains (compositeKey (scannedRow columns values) primaryKeys) = true)) ∧
    (∀ (row : Row) (primaryKeys : List String),
      compositeKey row primaryKeys = stringsJoin (keyTuple row primaryKeys) "|" ∧
        keyTuple row primaryKeys = primaryKeys.map (fun pk => sprintV (getValue row pk))) ∧
    (∀ (primaryKeys : List String) (r1 r2 : Row),
      (∀ s ∈ keyTuple r1 primaryKeys, pipeFree s) →
      (∀ s ∈ keyTuple r2 primaryKeys, pipeFree s) →
      keyTuple r1 primaryKeys ≠ keyTuple r2 primaryKeys →
      compositeKey r1 primaryKeys ≠ compositeKey r2 primaryKeys) ∧
    (∀ (pk : String) (r1 r2 : Row),
      keyTuple r1 [pk] ≠ keyTuple r2 [pk] → compositeKey r1 [pk] ≠ compositeKey r2 [pk]) := by
  refine ⟨?_, fun _ _ => ⟨rfl, rfl⟩, ?_, ?_⟩
  · intro w db tableName columns primaryKeys rows hq
    unfold selectStatement at hq
    refine ⟨rows.foldl (fun data values =>
        data.set (compositeKey (scannedRow columns values) primaryKeys)
          (scannedRow columns values)) GoMap.empty, ?_, ?_, ?_⟩
    · simp only [getTableData, hq]
    · intro k row h
      rcases get?_snapshot_fold columns primaryKeys rows GoMap.empty k row h with h' | h'
      · cases h'
      · exact h'
    · intro values hv
      exact contains_snapshot_fold columns primaryKeys rows GoMap.empty _
        (Or.inr ⟨values, hv, rfl⟩)
  · intro primaryKeys r1 r2 h1 h2 hne heq
    apply hne
    exact stringsJoin_pipe_injective _ _ (by simp [keyTuple]) h1 h2 heq
  · intro pk r1 r2 hne heq
    apply hne
    simpa [compositeKey, keyTuple, stringsJoin] using heq

/-! ## What an empty result of `CompareSchemas` tells -/

theorem indexColumns_of_not_mem (idxs : List IndexInfo) (n : String)
    (h : n ∉ idxs.map (·.Name)) : indexColumns idxs n = [] := by
  unfold indexColumns
  rw [List.map_eq_nil_iff, List.filter_eq_nil_iff]
  intro idx hidx
  simp only [decide_eq_true_eq]
  intro hn
  exact h (List.mem_map.2 ⟨idx, hidx, hn⟩)

theorem compareTableStructure_nil (rt : GoRuntime) (t : String) (S T : TableInfo)
    (h : compareTableStructure rt t S T = []) :
    (∀ c, c ∈ S.Columns.map (·.Name) ↔ c ∈ T.Columns.map (·.Name)) ∧
      (∀ c sc tc, columnNamed S.Columns c = some sc → columnNamed T.Columns c = some tc →
        columnsEqual sc tc = true) ∧
      (∀ n, n ≠ "PRIMARY" → (n ∈ S.Indexes.map (·.Name) ↔ n ∈ T.Indexes.map (·.Name))) ∧
      (∀ n, n ≠ "PRIMARY" → indexColumns S.Indexes n = indexColumns T.Indexes n) := by
  simp only [compareTableStructure, List.append_eq_nil, addedColumns, removedColumns,
    modifiedColumns, sourceIndexDiffs, targetIndexDiffs, List.filterMap_eq_nil_iff] at h
  obtain ⟨⟨⟨⟨h1, h2⟩, h3⟩, h4⟩, h5⟩ := h
  have hcol : ∀ (A B : List ColumnInfo) (o : RangeOrder) (f : String × ColumnInfo → DiffResult),
      (∀ e ∈ (buildColMap A).range o,
        (if (buildColMap B).contains e.1 then none else some (f e)) = none) →
      ∀ c, c ∈ A.map (·.Name) → c ∈ B.map (·.Name) := by
    intro A B o f hh c hc
    rw [← mem_keys_buildColMap, ← GoMap.contains_iff] at hc ⊢
    obtain ⟨sc, hsc⟩ := Option.isSome_iff_exists.1 hc
    have := hh (c, sc) ((GoMap.mem_range _ _ (c, sc)).2 hsc)
    by_contra hn
    simp [hn] at this
  have hidxS : ∀ n, n ≠ "PRIMARY" → n ∈ S.Indexes.map (·.Name) →
      n ∈ T.Indexes.map (·.Name) ∧ indexColumns S.Indexes n = indexColumns T.Indexes n := by
    intro n hn hmem
    have hget : (buildIndexMap S.Indexes).get? n = some (indexColumns S.Indexes n) := by
      rw [get?_buildIndexMap, if_pos hmem]
    have := h4 (n, indexColumns S.Indexes n) ((GoMap.mem_range _ _ (n, _)).2 hget)
    simp only [hn, if_false, get?_buildIndexMap] at this
    by_cases hT : n ∈ T.Indexes.map (·.Name)
    · rw [if_pos hT] at this
      simp only at this
      refine ⟨hT, ?_⟩
      by_contra hne
      have hs : stringSlicesEqual (indexColumns S.Indexes n) (indexColumns T.Indexes n) =
          false := by
        cases hq : stringSlicesEqual (indexColumns S.Indexes n) (indexColumns T.Indexes n)
        · rfl
        · exact absurd ((stringSlicesEqual_iff _ _).1 hq) hne
      simp [hs] at this
    · rw [if_neg hT] at this
      simp at this
  have hidxT : ∀ n, n ≠ "PRIMARY" → n ∈ T.Indexes.map (·.Name) →
      n ∈ S.Indexes.map (·.Name) := by
    intro n hn hmem
    have hget : (buildIndexMap T.Indexes).get? n = some (indexColumns T.Indexes n) := by
      rw [get?_buildIndexMap, if_pos hmem]
    have := h5 (n, indexColumns T.Indexes n) ((GoMap.mem_range _ _ (n, _)).2 hget)
    simp only [hn, if_false] at this
    rw [← mem_keys_buildIndexMap, ← GoMap.contains_iff]
    by_contra hc
    simp [hc] at this
  refine ⟨fun c => ⟨hcol _ _ _ _ h1 c, hcol _ _ _ _ h2 c⟩, ?_, ?_, ?_⟩
  · intro c sc tc hs ht
    rw [← get?_buildColMap] at hs ht
    have := h3 (c, sc) ((GoMap.mem_range _ _ (c, sc)).2 hs)
    simp only [ht] at this
    by_contra hne
    simp [hne] at this
  · intro n hn
    exact ⟨fun hm => (hidxS n hn hm).1, hidxT n hn⟩
  · intro n hn
    by_cases hm : n ∈ S.Indexes.map (·.Name)
    · exact (hidxS n hn hm).2
    · have hm' : n ∉ T.Indexes.map (·.Name) := fun hT => hm (hidxT n hn hT)
      rw [indexColumns_of_not_mem _ _ hm, indexColumns_of_not_mem _ _ hm']

theorem columnsEqual_fields (a b : ColumnInfo) (h : columnsEqual a b = true) :
    a.Type_ = b.Type_ ∧ a.Nullable = b.Nullable ∧ a.Extra = b.Extra ∧ a.Default = b.Default := by
  simp only [columnsEqual, Bool.and_eq_true, beq_iff_eq, defaultsEqual_iff] at h
  exact ⟨h.1.1.1, h.1.1.2, h.1.2, h.2⟩

/-- Claim C26 (empty result): if `CompareSchemas(source, target)` is empty,
then source and target have the same table names and, for every table (with
source side `S` and target side `T`): the same column names, each same-named
pair of columns equal in type, nullability, extra modifier and default (the
column a name stands for is the one the column map keeps, `columnNamed`; when
no name is repeated within a table that is any pair of columns of the same
name); the same non-PRIMARY index names, and for each of them the same ordered
column list. -/
theorem empty_diff_same_structure (rt : GoRuntime) (source target : SchemaInfo)
    (h : CompareSchemas rt source target = []) :
    (∀ t, source.Tables.contains t = target.Tables.contains t) ∧
    (∀ t S T, source.Tables.get? t = some S → target.Tables.get? t = some T →
      (∀ c, c ∈ S.Columns.map (·.Name) ↔ c ∈ T.Columns.map (·.Name)) ∧
      (∀ c sc tc, columnNamed S.Columns c = some sc → columnNamed T.Columns c = some tc →
        sc.Type_ = tc.Type_ ∧ sc.Nullable = tc.Nullable ∧ sc.Extra = tc.Extra ∧
          sc.Default = tc.Default) ∧
      ((S.Columns.map (·.Name)).Nodup → (T.Columns.map (·.Name)).Nodup →
        ∀ sc ∈ S.Columns, ∀ tc ∈ T.Columns, sc.Name = tc.Name →
          sc.Type_ = tc.Type_ ∧ sc.Nullable = tc.Nullable ∧ sc.Extra = tc.Extra ∧
            sc.Default = tc.Default) ∧
      (∀ n, n ≠ "PRIMARY" → (n ∈ S.Indexes.map (·.Name) ↔ n ∈ T.Indexes.map (·.Name))) ∧
      (∀ n, n ≠ "PRIMARY" → indexColumns S.Indexes n = indexColumns T.Indexes n)) := by
  have hnone : ∀ d, d ∉ unsortedDiffs rt source target := by
    intro d hd
    have := (mem_CompareSchemas rt source target d).2 hd
    rw [h] at this
    cases this
  constructor
  · intro t
    cases hs : source.Tables.get? t with
    | none =>
      cases ht : target.Tables.get? t with
      | none => simp [GoMap.contains, hs, ht]
      | some T =>
        exact absurd ((mem_unsortedDiffs rt source target _).2
          (Or.inr (Or.inl ⟨t, T, ht, hs, rfl⟩))) (hnone _)
    | some S =>
      cases ht : target.Tables.get? t with
      | none =>
        exact absurd ((mem_unsortedDiffs rt source target _).2
          (Or.inl ⟨t, S, hs, ht, rfl⟩)) (hnone _)
      | some T => simp [GoMap.contains, hs, ht]
  · intro t S T hS hT
    have hnil : compareTableStructure rt t S T = [] := by
      rw [List.eq_nil_iff_forall_not_mem]
      intro d hd
      exact hnone d ((mem_unsortedDiffs rt source target d).2
        (Or.inr (Or.inr ⟨t, S, T, hS, hT, hd⟩)))
    obtain ⟨hnames, hcols, hidx, hidxcols⟩ := compareTableStructure_nil rt t S T hnil
    refine ⟨hnames, fun c sc tc hs ht => columnsEqual_fields sc tc (hcols c sc tc hs ht), ?_,
      hidx, hidxcols⟩
    intro hndS hndT sc hsc tc htc hname
    apply columnsEqual_fields
    apply hcols sc.Name sc tc (columnNamed_of_mem _ _ hndS hsc)
    rw [hname]
    exact columnNamed_of_mem _ _ hndT htc

theorem empty_diff_same_structure_witness :
    CompareSchemas GoRuntime.plain quietSource quietTarget = [] ∧
      (∀ t, quietSource.Tables.contains t = quietTarget.Tables.contains t) ∧
      (∀ c, c ∈ quietSourceTable.Columns.map (·.Name) ↔
        c ∈ quietTargetTable.Columns.map (·.Name)) ∧
      (∀ n, n ≠ "PRIMARY" →
        indexColumns quietSourceTable.Indexes n = indexColumns quietTargetTable.Indexes n) :=
  ⟨by decide,
    (empty_diff_same_structure GoRuntime.plain quietSource quietTarget (by decide)).1,
    ((empty_diff_same_structure GoRuntime.plain quietSource quietTarget (by decide)).2
      "t" quietSourceTable quietTargetTable (by decide) (by decide)).1,
    ((empty_diff_same_structure GoRuntime.plain quietSource quietTarget (by decide)).2
      "t" quietSourceTable quietTargetTable (by decide) (by decide)).2.2.2.2⟩

end Database
